import Mathlib

/-!
# kdbus: envelope validation and dispatch

A shallow embedding of `message.c` (the envelope codec and the dispatcher).

Conventions of the embedding

* `u64` values are natural numbers; every C operation that can wrap is written
  with an explicit `% U64`.
* A `struct kdbus_msg` carries its fixed header fields and `data`, the item
  area: `data off` is the `struct kdbus_msg_data` that the C code reads through
  a pointer `off` bytes past `msg->data`.  Pointer arithmetic on the item
  cursor becomes arithmetic on `off`.
* Loops that C runs until a condition fails are written with a fuel argument;
  the callers pass more fuel than the loop can use, and `none` stands for a
  run that produces no result.
* Mutexes and wait-queue wake-ups do not change the modelled state and are
  left out; the model is sequential.
* `kdbus.h` and `kdbus_internal.h` are not among the sources: the enumerators
  and layout constants they declare are introduced below, each with a note.
-/

namespace Kdbus

/-! ## Constants -/

/-- Two to the 64: the modulus of `u64` arithmetic. -/
def U64 : Nat := 2 ^ 64

/-- Subtraction of `u64` values: `a - b` wraps around when `b` exceeds `a`. -/
def u64_sub (a b : Nat) : Nat := if b ≤ a then a - b else (a + U64 - b) % U64

/-- Linux errno `ENOENT`. -/
def ENOENT : Int := 2
/-- Linux errno `EAGAIN`. -/
def EAGAIN : Int := 11
/-- Linux errno `ENOMEM`. -/
def ENOMEM : Int := 12
/-- Linux errno `EFAULT`. -/
def EFAULT : Int := 14
/-- Linux errno `EEXIST`. -/
def EEXIST : Int := 17
/-- Linux errno `EINVAL`. -/
def EINVAL : Int := 22
/-- Linux errno `ENOSPC`. -/
def ENOSPC : Int := 28
/-- Linux errno `EMSGSIZE`. -/
def EMSGSIZE : Int := 90
/-- Linux kernel errno `ENOTSUPP`, the value `kdbus_ep_kmake_user` of endpoint.c
returns for an item type it does not know. -/
def ENOTSUPP : Int := 524

/-- The kernel macro `ALIGN(x, a)` for a power of two `a`, on `u64`:
`(x + (a - 1)) & ~(a - 1)`, which rounds `x` up to a multiple of `a`. -/
def ALIGN (x a : Nat) : Nat := ((x + (a - 1)) % U64) / a * a

/-- Modelled from the spec: `offsetof(struct kdbus_msg_data, data)`; kdbus.h is
absent, the spec gives the item layout `size(u64) | type(u64) | payload`. -/
def KDBUS_MSG_DATA_OFFSET : Nat := 16

/-- The macro `KDBUS_MSG_DATA_SIZE(s)` of message.c. -/
def KDBUS_MSG_DATA_SIZE (s : Nat) : Nat := ALIGN (s + KDBUS_MSG_DATA_OFFSET) 8

/-- Modelled from the spec: `offsetof(struct kdbus_msg, data)`; kdbus.h is
absent, the spec gives the header as seven `u64` fields before the items. -/
def KDBUS_MSG_HEADER_SIZE : Nat := 56

/-- Modelled from the spec: `sizeof(struct kdbus_msg)`; the item array is a
zero-length trailing array, so the struct is as large as its header. -/
def SIZEOF_KDBUS_MSG : Nat := 56

/-- Modelled from the spec: the kernel-reserved sender id `KDBUS_SRC_ID_KERNEL`
of kdbus.h (absent); `msg_id` in test/kdbus-util.c prints id 0 as KERNEL. -/
def KDBUS_SRC_ID_KERNEL : Nat := 0

/-- Modelled from the spec: the well-known-name destination sentinel of kdbus.h
(absent); `msg_send` in test/kdbus-util.c uses destination 0 with a name. -/
def KDBUS_DST_ID_WELL_KNOWN_NAME : Nat := 0

/-- Modelled from the spec: the broadcast destination sentinel of kdbus.h
(absent); `msg_id` in test/kdbus-util.c prints `~0ULL` as BROADCAST. -/
def KDBUS_DST_ID_BROADCAST : Nat := 2 ^ 64 - 1

/-- Modelled from the spec: the no-auto-start bit of `msg->flags`, declared in
kdbus.h (absent). -/
def KDBUS_MSG_FLAGS_NO_AUTO_START : Nat := 2

/-! ## Data model -/

/-- The item type enumerators of kdbus.h that message.c names; `OTHER n` stands
for every other value of the `u64` type field. -/
inductive kdbus_msg_type where
  | KDBUS_MSG_PAYLOAD
  | KDBUS_MSG_PAYLOAD_REF
  | KDBUS_MSG_UNIX_FDS
  | KDBUS_MSG_BLOOM
  | KDBUS_MSG_DST_NAME
  | KDBUS_MSG_TIMESTAMP
  | KDBUS_MSG_SRC_CREDS
  | OTHER (n : Nat)
  deriving DecidableEq, Repr

open kdbus_msg_type

/-- The credentials record `struct kdbus_creds`. -/
structure kdbus_creds where
  uid : Nat := 0
  gid : Nat := 0
  pid : Nat := 0
  tid : Nat := 0
  deriving DecidableEq, Repr

/-- One item, `struct kdbus_msg_data`: the two header words and the members of
the payload union that message.c reads or writes. -/
structure kdbus_msg_data where
  size : Nat
  type : kdbus_msg_type
  /-- payload bytes, `data->data` -/
  data : List Nat := []
  /-- first payload word, `data->data_u64[0]`, read back as `data->ts_ns` -/
  ts_ns : Nat := 0
  /-- declared length of a referenced payload, `data->data_ref.size` -/
  data_ref_size : Nat := 0
  creds : kdbus_creds := {}
  deriving DecidableEq, Repr

/-- The envelope, `struct kdbus_msg`. -/
structure kdbus_msg where
  size : Nat
  flags : Nat := 0
  dst_id : Nat
  src_id : Nat
  cookie : Nat := 0
  payload_type : Nat := 0
  timeout : Nat := 0
  /-- the item read at a byte offset from `msg->data` -/
  data : Nat → kdbus_msg_data

/-! ## kdbus_msg_validate_from_user -/

/-- The local variables of `kdbus_msg_validate_from_user`, with `data` the
cursor as a byte offset from `msg->data`, and the items the loop body has been
entered for (`visited`, a ghost field: the C code keeps no such list). -/
structure validate_state where
  size : Nat
  data : Nat := 0
  data_size : Nat := 0
  num_fds : Nat := 0
  payload : Bool := false
  fds : Bool := false
  bloom : Bool := false
  name : Bool := false
  visited : List kdbus_msg_data := []
  deriving DecidableEq, Repr

/-- The body of the `while` loop up to the end of the `switch`: an error code
when the body returns, the updated locals otherwise. -/
def kdbus_msg_validate_item (d : kdbus_msg_data) (s : validate_state) :
    Except Int validate_state :=
  if d.size ≤ KDBUS_MSG_DATA_SIZE 0 then .error (-EINVAL)
  else
    let payload_size := d.size - KDBUS_MSG_DATA_SIZE 0
    match d.type with
    | KDBUS_MSG_PAYLOAD =>
      .ok { s with payload := true, data_size := (s.data_size + payload_size) % U64 }
    | KDBUS_MSG_PAYLOAD_REF =>
      .ok { s with payload := true, data_size := (s.data_size + d.data_ref_size) % U64 }
    | KDBUS_MSG_UNIX_FDS =>
      .ok { s with fds := true, num_fds := (payload_size / 4) % 2 ^ 32 }
    | KDBUS_MSG_BLOOM =>
      .ok { s with bloom := true }
    | KDBUS_MSG_DST_NAME =>
      .ok { s with name := true, data_size := (s.data_size + payload_size) % U64 }
    | _ => .error (-EINVAL)

/-- The `while (size > 0 && size >= data->size)` loop.  The result is `none`
when the fuel runs out, and otherwise the value returned from inside the loop
(if any) with the locals at that point. -/
def kdbus_msg_validate_loop (mem : Nat → kdbus_msg_data) :
    Nat → validate_state → Option (Option Int × validate_state)
  | 0, _ => none
  | fuel + 1, s =>
    let d := mem s.data
    if 0 < s.size ∧ d.size ≤ s.size then
      let s1 := { s with visited := s.visited ++ [d] }
      match kdbus_msg_validate_item d s1 with
      | .error e => some (some e, s1)
      | .ok s2 =>
        kdbus_msg_validate_loop mem fuel
          { s2 with size := s2.size - d.size, data := s2.data + d.size }
    else some (none, s)

/-- The locals of `kdbus_msg_validate_from_user` on entry:
`size = msg->size - KDBUS_MSG_HEADER_SIZE` in `u64`. -/
def kdbus_msg_validate_init (msg : kdbus_msg) : validate_state :=
  { size := u64_sub msg.size KDBUS_MSG_HEADER_SIZE }

/-- The item walk of `kdbus_msg_validate_from_user` on its own: the loop run
from the initial locals with fuel beyond what the body size allows. -/
def kdbus_msg_validate_walk (msg : kdbus_msg) : Option (Option Int × validate_state) :=
  kdbus_msg_validate_loop msg.data ((kdbus_msg_validate_init msg).size + 1)
    (kdbus_msg_validate_init msg)

/-- The category checks after the loop (message.c lines 127-143). -/
def kdbus_msg_validate_categories (s : validate_state) : Int :=
  if s.payload ∧ (s.fds ∨ s.bloom ∨ s.name) then -EINVAL
  else if s.fds ∧ (s.bloom ∨ s.name) then -EINVAL
  else if s.bloom ∧ s.name then -EINVAL
  else 0

/-- The function `kdbus_msg_validate_from_user`: `some r` when it returns `r`. -/
def kdbus_msg_validate_from_user (msg : kdbus_msg) : Option Int :=
  if msg.src_id = KDBUS_SRC_ID_KERNEL then some (-EINVAL)
  else
    match kdbus_msg_validate_walk msg with
    | none => none
    | some (some e, _) => some e
    | some (none, s) => some (kdbus_msg_validate_categories s)

/-- The items the loop body of the walk is entered for, in order (empty when
the walk yields nothing). -/
def kdbus_msg_visited (msg : kdbus_msg) : List kdbus_msg_data :=
  match kdbus_msg_validate_walk msg with
  | none => []
  | some (_, s) => s.visited

/-- The remaining size when the walk stops. -/
def kdbus_msg_walk_rest (msg : kdbus_msg) : Option Nat :=
  (kdbus_msg_validate_walk msg).map (fun r => r.2.size)

/-- An item area holding the given items back to back from offset `off`, and a
zero-size unknown item everywhere else. -/
def layout_items : List kdbus_msg_data → Nat → Nat → kdbus_msg_data
  | [], _, _ => { size := 0, type := OTHER 0 }
  | d :: ds, off, p => if p = off then d else layout_items ds (off + d.size) p

/-- The items `its` lie back to back in `mem` from offset `off` and fill
exactly `rest` bytes. -/
def items_partition (mem : Nat → kdbus_msg_data) : Nat → Nat → List kdbus_msg_data → Prop
  | _, rest, [] => rest = 0
  | off, rest, d :: ds =>
    mem off = d ∧ d.size ≤ rest ∧ items_partition mem (off + d.size) (rest - d.size) ds

instance items_partition_decidable (mem : Nat → kdbus_msg_data) :
    ∀ (off rest : Nat) (its : List kdbus_msg_data),
      Decidable (items_partition mem off rest its)
  | _, rest, [] => inferInstanceAs (Decidable (rest = 0))
  | off, rest, d :: ds =>
    have := items_partition_decidable mem (off + d.size) (rest - d.size) ds
    inferInstanceAs (Decidable (mem off = d ∧ d.size ≤ rest ∧
      items_partition mem (off + d.size) (rest - d.size) ds))

/-! ## kdbus_kmsg_new_from_user -/

/-- The kernel-side envelope, `struct kdbus_kmsg` (declared in the absent
kdbus_internal.h): reference count, deadline and the client-visible message.
The reference count is a natural number; wrap-around of the 32-bit `kref`
counter is not modelled.  `freed` is a ghost field: it is set when the release
callback `__kdbus_kmsg_free` has run on the envelope. -/
structure kdbus_kmsg where
  kref : Nat
  deadline : Nat
  msg : kdbus_msg
  freed : Bool := false

/-- A client buffer: how many bytes at the pointer can be read, the message
that lies there, and how many bytes at the pointer can be written. -/
structure user_buf where
  readable : Nat
  msg : kdbus_msg
  writable : Nat := 0

/-- Modelled from the spec: the macro `kdbus_size_user` of the absent
kdbus_internal.h, which "first reads only the declared-size field"; it fails
when the eight bytes of the field cannot be read. -/
def kdbus_size_user (buf : user_buf) : Option Nat :=
  if buf.readable < 8 then none else some buf.msg.size

/-- The kernel primitive `copy_from_user(to, from, n)`: it fails unless all `n`
bytes can be read. -/
def copy_from_user (buf : user_buf) (n : Nat) : Option kdbus_msg :=
  if buf.readable < n then none else some buf.msg

/-- The size check of `kdbus_kmsg_new_from_user` (message.c line 155). -/
def kdbus_kmsg_size_rejected (size : Nat) : Bool :=
  decide (size < SIZEOF_KDBUS_MSG) || decide (size > 0xffff)

/-- The value of `size` after `size += offsetof(struct kdbus_kmsg, msg)`
(message.c line 158): the byte count that both `kmalloc` and `copy_from_user`
are called with. -/
def kdbus_kmsg_alloc_size (kmsg_hdr size : Nat) : Nat := (size + kmsg_hdr) % U64

/-- The function `kdbus_kmsg_new_from_user`: the return value and the envelope
stored through `m`.  `kmsg_hdr` is `offsetof(struct kdbus_kmsg, msg)` (from the
absent kdbus_internal.h); `kmalloc` is `none` when the allocation fails and
otherwise the stale content of the `deadline` field of the fresh block.  The
`kfree` on the error path does not change what is returned and is left out. -/
def kdbus_kmsg_new_from_user (kmsg_hdr : Nat) (kmalloc : Option Nat) (buf : user_buf) :
    Option (Int × Option kdbus_kmsg) :=
  match kdbus_size_user buf with
  | none => some (-EFAULT, none)
  | some size =>
    if kdbus_kmsg_size_rejected size then some (-EMSGSIZE, none)
    else
      let size := kdbus_kmsg_alloc_size kmsg_hdr size
      match kmalloc with
      | none => some (-ENOMEM, none)
      | some stale =>
        match copy_from_user buf size with
        | none => some (-EFAULT, none)
        | some msg =>
          match kdbus_msg_validate_from_user msg with
          | none => none
          | some ret =>
            if ret < 0 then some (ret, none)
            else some (0, some { kref := 1, deadline := stale, msg := msg })

/-! ## Item lookup and the server-side items -/

/-- The loop of `kdbus_msg_get_data`: `some (some off)` when the item at offset
`off` is returned, `some none` for `NULL`, `none` when the fuel runs out. -/
def kdbus_msg_get_data_loop (mem : Nat → kdbus_msg_data) (type : kdbus_msg_type) :
    Nat → Nat → Nat → Int → Option (Option Nat)
  | 0, _, _, _ => none
  | fuel + 1, size, data, index =>
    let d := mem data
    if 0 < size ∧ d.size ≤ size then
      if d.type = type then
        if index = 0 then some (some data)
        else kdbus_msg_get_data_loop mem type fuel (size - d.size) (data + d.size) (index - 1)
      else kdbus_msg_get_data_loop mem type fuel (size - d.size) (data + d.size) index
    else some none

/-- The function `kdbus_msg_get_data`.  An item of size 0 that does not match
keeps the C loop spinning; the fuel `size + 1` is used up exactly then. -/
def kdbus_msg_get_data (msg : kdbus_msg) (type : kdbus_msg_type) (index : Int) :
    Option (Option Nat) :=
  let size := u64_sub msg.size KDBUS_MSG_HEADER_SIZE
  kdbus_msg_get_data_loop msg.data type (size + 1) size 0 index

/-- The function `kdbus_kmsg_append_data`: the grown envelope and the offset of
the new item, or `none` when `krealloc` fails (the C function returns `NULL`).
`krealloc` is taken to grow the block in place.  The new item starts
`msg->size` bytes into the message; when that is inside the header the write
cannot be expressed on `kdbus_msg.data` and the result is `none` as well.
The item area holds one record per offset, and the write goes to the record at
the offset of the new item only.  A client item that starts before the old end
of the message and declares a size beyond it shares bytes with the new item;
its record is left as it was here, whereas the C code overwrites those bytes.
The statements that walk the items of an augmented envelope take the client
items to partition the body, where no item reaches beyond the old end. -/
def kdbus_kmsg_append_data (krealloc_ok : Bool) (kmsg : kdbus_kmsg) (extra_size : Nat) :
    Option (kdbus_kmsg × Nat) :=
  if !krealloc_ok then none
  else if kmsg.msg.size < KDBUS_MSG_HEADER_SIZE then none
  else
    let d := kmsg.msg.size - KDBUS_MSG_HEADER_SIZE
    let msg : kdbus_msg :=
      { kmsg.msg with
        data := Function.update kmsg.msg.data d { kmsg.msg.data d with size := extra_size }
        size := (kmsg.msg.size + extra_size) % U64 }
    some ({ kmsg with msg := msg }, d)

/-- The function `kdbus_kmsg_append_timestamp`: the envelope with the timestamp
item and the value stored through `now_ns`.  `tv_sec` and `tv_nsec` are what
`ktime_get_ts` reports. -/
def kdbus_kmsg_append_timestamp (krealloc_ok : Bool) (tv_sec tv_nsec : Nat)
    (kmsg : kdbus_kmsg) : Option (kdbus_kmsg × Nat) :=
  let size := KDBUS_MSG_DATA_SIZE 8
  match kdbus_kmsg_append_data krealloc_ok kmsg size with
  | none => none
  | some (kmsg, d) =>
    let item : kdbus_msg_data :=
      { kmsg.msg.data d with
        type := KDBUS_MSG_TIMESTAMP
        ts_ns := (tv_sec * 1000000000 + tv_nsec) % U64 }
    some ({ kmsg with msg := { kmsg.msg with data := Function.update kmsg.msg.data d item } },
      item.ts_ns)

/-- Modelled from the spec: `sizeof(struct kdbus_creds)`, four `u64` fields
(uid, gid, pid, tid); kdbus.h is absent. -/
def SIZEOF_KDBUS_CREDS : Nat := 32

/-- The function `kdbus_kmsg_append_cred`; `creds` are the credentials of the
calling task. -/
def kdbus_kmsg_append_cred (krealloc_ok : Bool) (creds : kdbus_creds) (kmsg : kdbus_kmsg) :
    Option kdbus_kmsg :=
  let size := KDBUS_MSG_DATA_SIZE SIZEOF_KDBUS_CREDS
  match kdbus_kmsg_append_data krealloc_ok kmsg size with
  | none => none
  | some (kmsg, d) =>
    let item : kdbus_msg_data :=
      { kmsg.msg.data d with
        size := size
        type := KDBUS_MSG_SRC_CREDS
        creds := creds }
    some { kmsg with msg := { kmsg.msg with data := Function.update kmsg.msg.data d item } }

/-! ## Connections and delivery -/

/-- The connection kinds of the absent kdbus_internal.h: the one message.c
names, and `OTHER n` for every other value. -/
inductive kdbus_conn_type where
  | KDBUS_CONN_EP
  | OTHER (n : Nat)
  deriving DecidableEq, Repr

/-- The fields of `struct kdbus_conn` that message.c uses.  `msg_list` is the
queue: the envelope addresses held by its entries, head first. -/
structure kdbus_conn where
  id : Nat
  type : kdbus_conn_type := .KDBUS_CONN_EP
  active : Bool := true
  starter : Bool := false
  msg_list : List Nat := []
  deriving DecidableEq, Repr

/-- Kernel memory as far as the dispatcher touches it: the envelope and the
connection found at each address. -/
structure World where
  kmsgs : Nat → kdbus_kmsg
  conns : Nat → kdbus_conn

/-- The endpoint, `struct kdbus_ep` (declared in the absent endpoint.h), as far
as message.c and endpoint.c use it.  `connection_list` holds the addresses of
the attached connections in attachment order; `dev`, `bus` and `policy_db` are
pointers, `none` for `NULL`; an unset `name` is the empty string.  The defaults
are those of a block that `kzalloc` has zeroed. -/
structure kdbus_ep where
  connection_list : List Nat := []
  kref : Nat := 0
  name : String := ""
  id : Nat := 0
  minor : Nat := 0
  dev : Option Nat := none
  disconnected : Bool := false
  mode : Nat := 0
  uid : Nat := 0
  gid : Nat := 0
  policy_open : Bool := false
  policy_db : Option Nat := none
  bus : Option Nat := none
  deriving DecidableEq, Repr

/-- An entry of the name registry, `struct kdbus_name_entry`: its `conn`
pointer, `none` for `NULL`. -/
structure kdbus_name_entry where
  conn : Option Nat

/-- What `kdbus_kmsg_send` takes from outside message.c: allocator outcomes,
the clock, the caller and the functions of other files. -/
structure send_env where
  /-- whether the `krealloc` for the timestamp item succeeds -/
  krealloc_timestamp : Bool := true
  /-- whether the `krealloc` for the credentials item succeeds -/
  krealloc_cred : Bool := true
  /-- whether the n-th `kzalloc` of a queue entry in this call succeeds -/
  kzalloc_entry : Nat → Bool := fun _ => true
  tv_sec : Nat := 0
  tv_nsec : Nat := 0
  creds : kdbus_creds := {}
  /-- the function `kdbus_name_lookup` on the name registry of the bus -/
  kdbus_name_lookup : List Nat → Option kdbus_name_entry := fun _ => none
  /-- the function `kdbus_bus_find_conn_by_id` on the bus of the endpoint -/
  kdbus_bus_find_conn_by_id : Nat → Option Nat := fun _ => none
  /-- the function `kdbus_conn_scan_timeout` -/
  kdbus_conn_scan_timeout : World → Nat → World := fun w _ => w

/-- The function `kdbus_conn_enqueue_kmsg` on the connection at `conn` and the
envelope at `kmsg`; `kzalloc_ok` says whether the entry allocation succeeds. -/
def kdbus_conn_enqueue_kmsg (kzalloc_ok : Bool) (w : World) (conn kmsg : Nat) :
    Int × World :=
  if !(w.conns conn).active then (-EAGAIN, w)
  else if !kzalloc_ok then (-ENOMEM, w)
  else
    (0,
      { kmsgs := Function.update w.kmsgs kmsg
          { w.kmsgs kmsg with kref := (w.kmsgs kmsg).kref + 1 }
        conns := Function.update w.conns conn
          { w.conns conn with msg_list := (w.conns conn).msg_list ++ [kmsg] } })

/-- The `list_for_each_entry` loop of the broadcast branch of `kdbus_kmsg_send`
over the rest of the connection list; `n` counts the entry allocations made so
far and `ret` is the current value of the variable `ret`. -/
def kdbus_kmsg_send_broadcast (kzalloc_entry : Nat → Bool) (kmsg : Nat) :
    List Nat → Nat → Int → World → Int × World
  | [], _, ret, w => (ret, w)
  | conn_dst :: rest, n, ret, w =>
    if (w.conns conn_dst).type ≠ .KDBUS_CONN_EP then
      kdbus_kmsg_send_broadcast kzalloc_entry kmsg rest n ret w
    else if (w.conns conn_dst).id = (w.kmsgs kmsg).msg.src_id then
      kdbus_kmsg_send_broadcast kzalloc_entry kmsg rest n ret w
    else
      let r := kdbus_conn_enqueue_kmsg (kzalloc_entry n) w conn_dst kmsg
      if r.1 < 0 then r
      else kdbus_kmsg_send_broadcast kzalloc_entry kmsg rest (n + 1) r.1 r.2

/-- The destination lookup of `kdbus_kmsg_send` (message.c lines 337-365): the
error returned, or the value of `conn_dst` after it (`none` for `NULL`).  The
outer `none` is a lookup of the name item that never ends. -/
def kdbus_kmsg_send_resolve (env : send_env) (w : World) (msg : kdbus_msg) :
    Option (Except Int (Option Nat)) :=
  if msg.dst_id = KDBUS_DST_ID_WELL_KNOWN_NAME then
    match kdbus_msg_get_data msg KDBUS_MSG_DST_NAME 0 with
    | none => none
    | some none => some (.error (-EINVAL))
    | some (some name_data) =>
      let conn_dst : Option Nat :=
        match env.kdbus_name_lookup (msg.data name_data).data with
        | some name_entry => name_entry.conn
        | none => none
      match conn_dst with
      | none => some (.error (-ENOENT))
      | some c =>
        if msg.flags &&& KDBUS_MSG_FLAGS_NO_AUTO_START ≠ 0 ∧ (w.conns c).starter then
          some (.error (-ENOENT))
        else some (.ok (some c))
  else if msg.dst_id ≠ KDBUS_DST_ID_BROADCAST then
    match env.kdbus_bus_find_conn_by_id msg.dst_id with
    | none => some (.error (-ENOENT))
    | some c => some (.ok (some c))
  else some (.ok none)

/-- The function `kdbus_kmsg_send` for the envelope at address `kmsg`: the
return value and the memory afterwards.  The result is `none` when a failed
`krealloc` makes the function dereference `NULL` (its results are not checked)
or when a callee yields nothing. -/
def kdbus_kmsg_send (env : send_env) (w : World) (ep : kdbus_ep) (kmsg : Nat) :
    Option (Int × World) :=
  match kdbus_kmsg_append_timestamp env.krealloc_timestamp env.tv_sec env.tv_nsec
      (w.kmsgs kmsg) with
  | none => none
  | some (k1, now_ns) =>
    match kdbus_kmsg_append_cred env.krealloc_cred env.creds k1 with
    | none => none
    | some k2 =>
      let w := { w with kmsgs := Function.update w.kmsgs kmsg k2 }
      let msg := k2.msg
      match kdbus_kmsg_send_resolve env w msg with
      | none => none
      | some (.error e) => some (e, w)
      | some (.ok (some conn_dst)) =>
        let w :=
          if msg.timeout ≠ 0 then
            { w with
              kmsgs := Function.update w.kmsgs kmsg
                { w.kmsgs kmsg with deadline := (now_ns + msg.timeout) % U64 } }
          else w
        let r := kdbus_conn_enqueue_kmsg (env.kzalloc_entry 0) w conn_dst kmsg
        let w := if msg.timeout ≠ 0 then env.kdbus_conn_scan_timeout r.2 conn_dst else r.2
        some (r.1, w)
      | some (.ok none) =>
        if msg.timeout ≠ 0 then some (-EINVAL, w)
        else some (kdbus_kmsg_send_broadcast env.kzalloc_entry kmsg ep.connection_list 0 0 w)

/-- The augmentation step of `kdbus_kmsg_send` on its own (message.c lines
331-332): the envelope with both server items and the value of `now_ns`. -/
def kdbus_kmsg_send_augment (env : send_env) (kmsg : kdbus_kmsg) :
    Option (kdbus_kmsg × Nat) :=
  match kdbus_kmsg_append_timestamp env.krealloc_timestamp env.tv_sec env.tv_nsec kmsg with
  | none => none
  | some (k1, now_ns) =>
    match kdbus_kmsg_append_cred env.krealloc_cred env.creds k1 with
    | none => none
    | some k2 => some (k2, now_ns)

/-- The direct-message branch of `kdbus_kmsg_send` on its own (message.c lines
367-375), for the envelope at `kmsg` with message `msg` and destination
`conn_dst`. -/
def kdbus_kmsg_send_direct (env : send_env) (w : World) (msg : kdbus_msg) (now_ns : Nat)
    (conn_dst kmsg : Nat) : Int × World :=
  let w :=
    if msg.timeout ≠ 0 then
      { w with
        kmsgs := Function.update w.kmsgs kmsg
          { w.kmsgs kmsg with deadline := (now_ns + msg.timeout) % U64 } }
    else w
  let r := kdbus_conn_enqueue_kmsg (env.kzalloc_entry 0) w conn_dst kmsg
  let w := if msg.timeout ≠ 0 then env.kdbus_conn_scan_timeout r.2 conn_dst else r.2
  (r.1, w)

/-- The loop of `kdbus_msg_dump`: the items it prints, in order, or `none` when
the fuel runs out (an item of size 0 keeps the C loop printing). -/
def kdbus_msg_dump_loop (mem : Nat → kdbus_msg_data) :
    Nat → Nat → Nat → Option (List kdbus_msg_data)
  | 0, _, _ => none
  | fuel + 1, size, data =>
    let d := mem data
    if 0 < size ∧ d.size ≤ size then
      match kdbus_msg_dump_loop mem fuel (size - d.size) (data + d.size) with
      | none => none
      | some ds => some (d :: ds)
    else some []

/-- The item walk of `kdbus_msg_dump` over a message. -/
def kdbus_msg_dump (msg : kdbus_msg) : Option (List kdbus_msg_data) :=
  let size := u64_sub msg.size KDBUS_MSG_HEADER_SIZE
  kdbus_msg_dump_loop msg.data (size + 1) size 0

/-! ## kdbus_kmsg_recv -/

/-- The function `kdbus_kmsg_unref`: `kref_put` lowers the count and runs
`__kdbus_kmsg_free` when it reaches zero.  A count that is already zero stays
zero here (the C counter would go negative) and frees nothing. -/
def kdbus_kmsg_unref (w : World) (kmsg : Nat) : World :=
  let k := w.kmsgs kmsg
  { w with
    kmsgs := Function.update w.kmsgs kmsg
      { k with kref := k.kref - 1, freed := k.freed || decide (k.kref = 1) } }

/-- What `list_first_entry` hands back: an entry of the queue (here the
envelope address it holds), or for an empty list the list head itself taken
for an entry. -/
inductive first_entry where
  | entry (kmsg : Nat)
  | head_alias
  deriving DecidableEq, Repr

/-- The kernel macro `list_first_entry(&conn->msg_list, ...)`, with `none` for
a `NULL` result: it computes `container_of(head->next, ...)`, which on an empty
list is the head taken for an entry, and never `NULL`. -/
def list_first_entry : List Nat → Option first_entry
  | [] => some .head_alias
  | kmsg :: _ => some (.entry kmsg)

/-- The kernel primitive `copy_to_user(to, from, n)`: the number of bytes that
could not be written, 0 on success. -/
def copy_to_user (buf : user_buf) (n : Nat) : Nat := n - buf.writable

/-- The function `kdbus_kmsg_recv` on the connection at `conn`: the return
value, the memory afterwards and the message copied to the buffer when the
copy went through.  The result is `none` when the function goes on with the
list head taken for an entry: what it then reads is not an envelope. -/
def kdbus_kmsg_recv (w : World) (conn : Nat) (buf : user_buf) :
    Option (Int × World × Option kdbus_msg) :=
  match kdbus_size_user buf with
  | none => some (-EFAULT, w, none)
  | some size =>
    match list_first_entry (w.conns conn).msg_list with
    | none => some (-ENOENT, w, none)
    | some .head_alias => none
    | some (.entry kmsg) =>
      let msg := (w.kmsgs kmsg).msg
      if size < msg.size then some (-ENOSPC, w, none)
      else
        let ret := copy_to_user buf msg.size
        if ret = 0 then
          let w1 : World :=
            { w with
              conns := Function.update w.conns conn
                { w.conns conn with msg_list := (w.conns conn).msg_list.tail } }
          some (0, kdbus_kmsg_unref w1 kmsg, some msg)
        else some ((ret : Int), w, none)

/-! ## endpoint.c -/

/-- The fields of `struct kdbus_bus` (bus.h is absent) that endpoint.c uses:
the addresses of the endpoints on `eps_list` in list order, the next endpoint
id and the reference count. -/
structure kdbus_bus where
  eps_list : List Nat := []
  ep_id_next : Nat := 0
  kref : Nat := 1
  deriving DecidableEq, Repr

/-- The calls that leave endpoint.c for the driver core, the id allocator and
the policy database; they are kept in a trace (a ghost of the model). -/
inductive ep_event where
  | device_unregister (dev : Nat)
  | put_device (dev : Nat)
  | idr_remove (minor : Nat)
  | policy_db_unref (db : Nat)
  | kfree_ep (ep : Nat)
  deriving DecidableEq, Repr

/-- Kernel memory as far as endpoint.c touches it: the endpoint and the bus
found at each address, the minors held in the `idr` of the namespace, and the
trace of outside calls, oldest first. -/
structure ep_world where
  eps : Nat → kdbus_ep
  buses : Nat → kdbus_bus
  idr : List Nat := []
  events : List ep_event := []

/-- The function `kdbus_ep_ref`. -/
def kdbus_ep_ref (w : ep_world) (ep : Nat) : ep_world :=
  { w with eps := Function.update w.eps ep { w.eps ep with kref := (w.eps ep).kref + 1 } }

/-- The function `kdbus_ep_disconnect`.  Releasing the minor goes through
`ep->bus->ns`, so with a minor held and `ep->bus` still `NULL` the function
dereferences `NULL`: the result is `none`. -/
def kdbus_ep_disconnect (w : ep_world) (ep : Nat) : Option ep_world :=
  if (w.eps ep).disconnected then some w
  else
    let w : ep_world :=
      { w with eps := Function.update w.eps ep { w.eps ep with disconnected := true } }
    let w : ep_world :=
      match (w.eps ep).dev with
      | some dev =>
        { w with
          events := w.events ++ [.device_unregister dev]
          eps := Function.update w.eps ep { w.eps ep with dev := none } }
      | none => w
    if 0 < (w.eps ep).minor then
      match (w.eps ep).bus with
      | none => none
      | some _ =>
        some
          { w with
            idr := w.idr.erase (w.eps ep).minor
            events := w.events ++ [.idr_remove (w.eps ep).minor]
            eps := Function.update w.eps ep { w.eps ep with minor := 0 } }
    else some w

/-- Modelled from the spec: `kdbus_bus_ref` of the absent bus.c, which takes a
reference on the bus ("an object is destroyed only once its reference count
reaches zero"). -/
def kdbus_bus_ref (w : ep_world) (bus : Nat) : ep_world :=
  { w with
    buses := Function.update w.buses bus { w.buses bus with kref := (w.buses bus).kref + 1 } }

/-- Modelled from the spec: `kdbus_bus_unref` of the absent bus.c, which drops
a reference on the bus; what the last release does to the bus is not part of
the model. -/
def kdbus_bus_unref (w : ep_world) (bus : Nat) : ep_world :=
  { w with
    buses := Function.update w.buses bus { w.buses bus with kref := (w.buses bus).kref - 1 } }

/-- The release callback `__kdbus_ep_free`.  It locks `ep->bus->lock` first, so
with `ep->bus` still `NULL` it dereferences `NULL`: the result is `none`. -/
def __kdbus_ep_free (w : ep_world) (ep : Nat) : Option ep_world :=
  match (w.eps ep).bus with
  | none => none
  | some bus =>
    match kdbus_ep_disconnect w ep with
    | none => none
    | some w =>
      let w := kdbus_bus_unref w bus
      let w : ep_world :=
        match (w.eps ep).policy_db with
        | some db => { w with events := w.events ++ [.policy_db_unref db] }
        | none => w
      some { w with events := w.events ++ [.kfree_ep ep] }

/-- The function `kdbus_ep_unref`: `kref_put` lowers the count and runs
`__kdbus_ep_free` when it reaches zero.  A count that is already zero stays
zero here and releases nothing. -/
def kdbus_ep_unref (w : ep_world) (ep : Nat) : Option ep_world :=
  let w1 : ep_world :=
    { w with eps := Function.update w.eps ep { w.eps ep with kref := (w.eps ep).kref - 1 } }
  if (w.eps ep).kref = 1 then __kdbus_ep_free w1 ep else some w1

/-- The `list_for_each_entry` loop of `kdbus_ep_find` over the rest of
`bus->eps_list`; `ep` is the current value of the variable `ep`.  The loop has
no `break`: every endpoint of that name gets a reference. -/
def kdbus_ep_find_loop (name : String) : List Nat → ep_world → Option Nat →
    ep_world × Option Nat
  | [], w, ep => (w, ep)
  | e :: rest, w, ep =>
    if (w.eps e).name ≠ name then kdbus_ep_find_loop name rest w ep
    else kdbus_ep_find_loop name rest (kdbus_ep_ref w e) (some e)

/-- The function `kdbus_ep_find`: the memory afterwards and the endpoint
returned, `none` for `NULL`. -/
def kdbus_ep_find (w : ep_world) (bus : Nat) (name : String) : ep_world × Option Nat :=
  kdbus_ep_find_loop name (w.buses bus).eps_list w none

/-- What `kdbus_ep_new` takes from outside endpoint.c: the outcome of each
allocation and registration in the order the function makes them. -/
structure ep_new_env where
  /-- the zeroed block for the endpoint, `none` when `kzalloc` fails -/
  kzalloc_ep : Option Nat
  /-- whether `kstrdup` of the name succeeds -/
  kstrdup_ok : Bool := true
  /-- the value `idr_alloc` returns -/
  idr_alloc : Int := 1
  /-- the block for the device, `none` when `kzalloc` fails -/
  kzalloc_dev : Option Nat
  /-- the value `device_register` returns -/
  device_register : Int := 0
  /-- the handle `kdbus_policy_db_new` returns, `none` for `NULL` -/
  kdbus_policy_db_new : Option Nat := none

/-- The label `exit_unlock` of `kdbus_ep_new`: drop the reference on the new
endpoint and return `ret`. -/
def kdbus_ep_new_exit_unlock (w : ep_world) (e : Nat) (ret : Int) : Option (Int × ep_world) :=
  match kdbus_ep_unref w e with
  | none => none
  | some w => some (ret, w)

/-- The function `kdbus_ep_new`: the return value and the memory afterwards,
or `none` when the error path dereferences `NULL` in `__kdbus_ep_free`. -/
def kdbus_ep_new (env : ep_new_env) (w : ep_world) (bus : Nat) (name : String)
    (mode uid gid : Nat) (policy_open : Bool) : Option (Int × ep_world) :=
  match kdbus_ep_find w bus name with
  | (w, some e) =>
    match kdbus_ep_unref w e with
    | none => none
    | some w => some (-EEXIST, w)
  | (w, none) =>
    match env.kzalloc_ep with
    | none => some (-ENOMEM, w)
    | some e =>
      let w : ep_world :=
        { w with
          eps := Function.update w.eps e { kref := 1, uid := uid, gid := gid, mode := mode } }
      if !env.kstrdup_ok then kdbus_ep_new_exit_unlock w e (-ENOMEM)
      else
        let w : ep_world :=
          { w with eps := Function.update w.eps e { w.eps e with name := name } }
        if env.idr_alloc ≤ 0 then kdbus_ep_new_exit_unlock w e env.idr_alloc
        else
          let w : ep_world :=
            { w with
              idr := w.idr ++ [env.idr_alloc.toNat]
              eps := Function.update w.eps e { w.eps e with minor := env.idr_alloc.toNat } }
          let w : ep_world :=
            { w with
              eps := Function.update w.eps e { w.eps e with id := (w.buses bus).ep_id_next }
              buses := Function.update w.buses bus
                { w.buses bus with ep_id_next := ((w.buses bus).ep_id_next + 1) % U64 } }
          match env.kzalloc_dev with
          | none => kdbus_ep_new_exit_unlock w e (-ENOMEM)
          | some dev =>
            let w : ep_world :=
              { w with eps := Function.update w.eps e { w.eps e with dev := some dev } }
            let w : ep_world :=
              if env.device_register < 0 then
                { w with
                  events := w.events ++ [.put_device dev]
                  eps := Function.update w.eps e { w.eps e with dev := none } }
              else w
            let w := kdbus_bus_ref w bus
            let w : ep_world :=
              { w with
                eps := Function.update w.eps e { w.eps e with bus := some bus }
                buses := Function.update w.buses bus
                  { w.buses bus with eps_list := (w.buses bus).eps_list ++ [e] } }
            let w : ep_world :=
              { w with
                eps := Function.update w.eps e { w.eps e with policy_open := policy_open } }
            if !policy_open then
              match env.kdbus_policy_db_new with
              | none => kdbus_ep_new_exit_unlock w e (-ENOMEM)
              | some db =>
                some (0,
                  { w with
                    eps := Function.update w.eps e { w.eps e with policy_db := some db } })
            else some (0, w)

/-- The function `kdbus_ep_remove`; `none` when `ep->bus` or `ep->dev` is `NULL`
(both are dereferenced) or when the release does so. -/
def kdbus_ep_remove (w : ep_world) (ep : Nat) : Option (Int × ep_world) :=
  match (w.eps ep).bus, (w.eps ep).dev with
  | some bus, some dev =>
    let w : ep_world := { w with events := w.events ++ [.device_unregister dev] }
    let w : ep_world :=
      { w with
        buses := Function.update w.buses bus
          { w.buses bus with eps_list := (w.buses bus).eps_list.erase ep } }
    match kdbus_ep_unref w ep with
    | none => none
    | some w => some (0, kdbus_bus_unref w bus)
  | _, _ => none

/-! ## Vocabulary of the statements -/

/-- What the locals say about one visited item: its size exceeds the item
header, its type is a client type and the flag of its category is set. -/
def item_recorded (s : validate_state) (d : kdbus_msg_data) : Prop :=
  KDBUS_MSG_DATA_SIZE 0 < d.size ∧
  ((d.type = KDBUS_MSG_PAYLOAD ∨ d.type = KDBUS_MSG_PAYLOAD_REF) ∧ s.payload = true ∨
   d.type = KDBUS_MSG_UNIX_FDS ∧ s.fds = true ∨
   d.type = KDBUS_MSG_BLOOM ∧ s.bloom = true ∨
   d.type = KDBUS_MSG_DST_NAME ∧ s.name = true)

/-- The flags of `s` are still set in `t`. -/
def flags_kept (s t : validate_state) : Prop :=
  (s.payload = true → t.payload = true) ∧ (s.fds = true → t.fds = true) ∧
  (s.bloom = true → t.bloom = true) ∧ (s.name = true → t.name = true)

/-- Whether some item of the list has the given type. -/
def has_type (its : List kdbus_msg_data) (ty : kdbus_msg_type) : Bool :=
  its.any (fun d => decide (d.type = ty))

/-- The five item types a client may send. -/
def client_type (ty : kdbus_msg_type) : Prop :=
  ty = KDBUS_MSG_PAYLOAD ∨ ty = KDBUS_MSG_PAYLOAD_REF ∨ ty = KDBUS_MSG_UNIX_FDS ∨
    ty = KDBUS_MSG_BLOOM ∨ ty = KDBUS_MSG_DST_NAME

/-- The connection at `c` takes part in a broadcast from `src_id`: it is an
endpoint connection and not the sender. -/
def broadcast_recipient (w : World) (src_id c : Nat) : Prop :=
  (w.conns c).type = .KDBUS_CONN_EP ∧ (w.conns c).id ≠ src_id

instance broadcast_recipient_decidable (w : World) (src_id c : Nat) :
    Decidable (broadcast_recipient w src_id c) :=
  inferInstanceAs (Decidable (_ ∧ _))

/-- The connection `c` with the envelope address `kmsg` added at the tail of
its queue. -/
def conn_enqueued (c : kdbus_conn) (kmsg : Nat) : kdbus_conn :=
  { c with msg_list := c.msg_list ++ [kmsg] }

/-- How many connections of the list take part in a broadcast from `src_id`. -/
def recipient_count (w : World) (src_id : Nat) (l : List Nat) : Nat :=
  (l.filter (fun c => decide (broadcast_recipient w src_id c))).length

/-- The outcome of the destination lookup of `kdbus_kmsg_send` for the envelope
at `kmsg`: the augmentation step followed by `kdbus_kmsg_send_resolve`. -/
def send_destination (env : send_env) (w : World) (kmsg : Nat) :
    Option (Except Int (Option Nat)) :=
  match kdbus_kmsg_send_augment env (w.kmsgs kmsg) with
  | none => none
  | some (k2, _) =>
    kdbus_kmsg_send_resolve env { w with kmsgs := Function.update w.kmsgs kmsg k2 } k2.msg

/-- The first item of the given type in a list of items. -/
def first_of_type (its : List kdbus_msg_data) (ty : kdbus_msg_type) : Option kdbus_msg_data :=
  its.find? (fun d => decide (d.type = ty))

/-- The connection the name registry gives for a name: `none` when the lookup
finds no entry or the entry has no connection. -/
def name_lookup_conn (env : send_env) (name : List Nat) : Option Nat :=
  match env.kdbus_name_lookup name with
  | some name_entry => name_entry.conn
  | none => none

/-- The memory after `kdbus_conn_enqueue_kmsg` has been called on the
connection at `conn` for each envelope address of the list in turn, every entry
allocation succeeding. -/
def enqueue_all (w : World) (conn : Nat) : List Nat → World
  | [] => w
  | k :: ks => enqueue_all (kdbus_conn_enqueue_kmsg true w conn k).2 conn ks

/-- The messages delivered by `n` calls of `kdbus_kmsg_recv` in a row on the
connection at `conn` with the buffer `buf`, and the memory afterwards; `none`
unless every call returns 0. -/
def recv_n (conn : Nat) (buf : user_buf) : Nat → World → Option (List kdbus_msg × World)
  | 0, w => some ([], w)
  | n + 1, w =>
    match kdbus_kmsg_recv w conn buf with
    | some (ret, w1, some m) =>
      if ret = 0 then
        match recv_n conn buf n w1 with
        | some (ms, w2) => some (m :: ms, w2)
        | none => none
      else none
    | _ => none

/-- The function `kdbus_ep_disconnect` called `n` times in a row on the
endpoint at `ep`. -/
def disconnect_n (ep : Nat) : Nat → ep_world → Option ep_world
  | 0, w => some w
  | n + 1, w =>
    match kdbus_ep_disconnect w ep with
    | none => none
    | some w1 => disconnect_n ep n w1

/-- The timestamp item that `kdbus_kmsg_append_timestamp` leaves at offset
`d` of the item area `mem`. -/
def timestamp_item (mem : Nat → kdbus_msg_data) (d now_ns : Nat) : kdbus_msg_data :=
  { mem d with size := KDBUS_MSG_DATA_SIZE 8, type := KDBUS_MSG_TIMESTAMP, ts_ns := now_ns }

/-- The credentials item that `kdbus_kmsg_append_cred` leaves at offset `d` of
the item area `mem`. -/
def creds_item (mem : Nat → kdbus_msg_data) (d : Nat) (creds : kdbus_creds) : kdbus_msg_data :=
  { mem d with
    size := KDBUS_MSG_DATA_SIZE SIZEOF_KDBUS_CREDS, type := KDBUS_MSG_SRC_CREDS, creds := creds }

/-- The outside calls one run of `kdbus_ep_disconnect` makes for an endpoint
that is not disconnected yet: one `device_unregister` if it has a device, then
one `idr_remove` if it holds a minor. -/
def disconnect_events (e : kdbus_ep) : List ep_event :=
  (match e.dev with
    | some dev => [.device_unregister dev]
    | none => []) ++
  (if 0 < e.minor then [.idr_remove e.minor] else [])

/-- The bytes of a block of `alloc` bytes that lie at and after the member
`msg` of the `struct kdbus_kmsg` at its start, `kmsg_hdr` being
`offsetof(struct kdbus_kmsg, msg)`: the room `copy_from_user(&kmsg->msg, ...)`
has. -/
def kmsg_msg_space (kmsg_hdr alloc : Nat) : Nat := alloc - kmsg_hdr

/-- One call on a message queue: `kdbus_conn_enqueue_kmsg` on a connection
and an envelope (with the outcome of its entry allocation), or
`kdbus_kmsg_recv` on a connection with a client buffer. -/
inductive queue_op where
  | enqueue (kzalloc_ok : Bool) (conn kmsg : Nat)
  | recv (conn : Nat) (buf : user_buf)

/-- The connection a call works on. -/
def queue_op_conn : queue_op → Nat
  | .enqueue _ c _ => c
  | .recv c _ => c

/-- One call run on memory: its return value and the memory afterwards, `none`
when `kdbus_kmsg_recv` has no defined result. -/
def run_op (w : World) : queue_op → Option (Int × World)
  | .enqueue kzalloc_ok c k => some (kdbus_conn_enqueue_kmsg kzalloc_ok w c k)
  | .recv c buf =>
    match kdbus_kmsg_recv w c buf with
    | none => none
    | some (ret, w1, _) => some (ret, w1)

/-- A sequence of calls run in order, whatever each one returns. -/
def run_ops : List queue_op → World → Option World
  | [], w => some w
  | op :: ops, w =>
    match run_op w op with
    | none => none
    | some (_, w1) => run_ops ops w1

/-- The number of queue entries that hold the envelope at `k`, over the queues
of the connections `cs`. -/
def queue_entries (w : World) (cs : List Nat) (k : Nat) : Nat :=
  (cs.map (fun c => (w.conns c).msg_list.count k)).sum

/-- The reference count of the envelope at `k` is the reference of its creator
plus one per queue entry that holds it, and the envelope has not been
released. -/
def kref_invariant (w : World) (cs : List Nat) (k : Nat) : Prop :=
  (w.kmsgs k).kref = 1 + queue_entries w cs k ∧ (w.kmsgs k).freed = false

instance kref_invariant_decidable (w : World) (cs : List Nat) (k : Nat) :
    Decidable (kref_invariant w cs k) :=
  inferInstanceAs (Decidable (_ ∧ _))

/-! ## Example envelopes -/

/-- A file descriptor item followed by a destination name item, 24 and 32
bytes, in an envelope of 56 + 56 bytes sent by connection 5. -/
def fds_name_items : List kdbus_msg_data :=
  [{ size := 24, type := KDBUS_MSG_UNIX_FDS },
   { size := 32, type := KDBUS_MSG_DST_NAME, data := [111, 114, 103, 0] }]

/-- The envelope that carries `fds_name_items`. -/
def fds_name_msg : kdbus_msg :=
  { size := 112, dst_id := KDBUS_DST_ID_WELL_KNOWN_NAME, src_id := 5,
    data := layout_items fds_name_items 0 }

/-- An envelope of 56 + 32 bytes sent by connection 5: a payload item of 24
bytes, then 8 bytes that start an item declaring 4096 bytes. -/
def truncated_msg : kdbus_msg :=
  { size := 88, dst_id := 9, src_id := 5,
    data := layout_items
      [{ size := 24, type := KDBUS_MSG_PAYLOAD }, { size := 4096, type := KDBUS_MSG_PAYLOAD }] 0 }

/-- A client buffer of 65536 readable bytes (and room for the copy to run
over) whose message declares the size 65536. -/
def buf_64k : user_buf :=
  { readable := 65536 + 64,
    msg := { size := 65536, dst_id := 9, src_id := 5,
             data := layout_items [{ size := 65480, type := KDBUS_MSG_PAYLOAD }] 0 } }

/-- Memory with one envelope (at every envelope address) holding `msg` with
reference count 1, and at each connection address `c` an active endpoint
connection with id `c` and an empty queue, but for address 2 where the
connection has the kind `k2`. -/
def one_msg_world (msg : kdbus_msg) (k2 : kdbus_conn_type) : World :=
  { kmsgs := fun _ => { kref := 1, deadline := 0, msg := msg }
    conns := fun c => if c = 2 then { id := 2, type := k2 } else { id := c } }

/-- An endpoint with the connections at addresses 1, 2 and 3 attached in that
order. -/
def three_conn_ep : kdbus_ep := { connection_list := [1, 2, 3] }

/-- A broadcast envelope from connection 1 with one payload item and the given
timeout. -/
def broadcast_msg (timeout : Nat) : kdbus_msg :=
  { size := 80, dst_id := KDBUS_DST_ID_BROADCAST, src_id := 1, timeout := timeout,
    data := layout_items [{ size := 24, type := KDBUS_MSG_PAYLOAD }] 0 }

/-- Memory like `one_msg_world`, but with every connection an endpoint
connection and the one at address 3 inactive. -/
def inactive_third_world (msg : kdbus_msg) : World :=
  { kmsgs := fun _ => { kref := 1, deadline := 0, msg := msg }
    conns := fun c => if c = 3 then { id := 3, active := false } else { id := c } }

/-- An endpoint with the connections at addresses 1, 2, 3 and 4 attached in
that order. -/
def four_conn_ep : kdbus_ep := { connection_list := [1, 2, 3, 4] }

/-- A unicast envelope from connection 1 to the connection with id 2, with one
payload item and the given timeout. -/
def unicast_msg (timeout : Nat) : kdbus_msg :=
  { size := 80, dst_id := 2, src_id := 1, timeout := timeout,
    data := layout_items [{ size := 24, type := KDBUS_MSG_PAYLOAD }] 0 }

/-- An environment in which connection ids are their addresses for the ids 1 to
4, the clock reads 3 s and 5 ns, and every allocation succeeds. -/
def id_env : send_env :=
  { tv_sec := 3, tv_nsec := 5,
    kdbus_bus_find_conn_by_id := fun id => if 1 ≤ id ∧ id ≤ 4 then some id else none }

/-- An envelope addressed by well-known name from connection 1: one destination
name item with the bytes of "org" and a terminating zero. -/
def name_msg : kdbus_msg :=
  { size := 88, dst_id := KDBUS_DST_ID_WELL_KNOWN_NAME, src_id := 1,
    data := layout_items
      [{ size := 32, type := KDBUS_MSG_DST_NAME, data := [111, 114, 103, 0] }] 0 }

/-- An environment whose name registry knows the name "org" and gives the
connection at address 2 for it. -/
def name_env : send_env :=
  { kdbus_name_lookup := fun name =>
      if name = [111, 114, 103, 0] then some { conn := some 2 } else none }

/-- A receive buffer that declares `cap` bytes and has that many writable. -/
def recv_buf (cap : Nat) : user_buf :=
  { readable := cap, writable := cap,
    msg := { size := cap, dst_id := 0, src_id := 0, data := layout_items [] 0 } }

/-- Memory with two envelopes, a payload message of 80 bytes at address 7 and a
name message of 88 bytes everywhere else, and at every address an active
endpoint connection whose queue is `q`. -/
def queue_world (q : List Nat) : World :=
  { kmsgs := fun k =>
      if k = 7 then { kref := 2, deadline := 0, msg := unicast_msg 0 }
      else { kref := 2, deadline := 0, msg := name_msg }
    conns := fun c => { id := c, msg_list := q } }

/-- Memory with one bus at address 0 that lists the endpoints at addresses 10
and 11, named "bus" and "custom", each holding one reference, a device and a
minor; no outside call has been made yet. -/
def two_ep_world : ep_world :=
  { eps := fun a =>
      if a = 10 then
        { kref := 1, name := "bus", id := 0, minor := 1, dev := some 100, bus := some 0,
          policy_open := true }
      else if a = 11 then
        { kref := 1, name := "custom", id := 1, minor := 2, dev := some 101, bus := some 0,
          policy_open := true }
      else {}
    buses := fun _ => { eps_list := [10, 11], ep_id_next := 2, kref := 3 }
    idr := [1, 2] }

/-- An environment for `kdbus_ep_new` in which every step succeeds: the
endpoint block is at address 12, the device at 102, the minor is 3. -/
def ep_env_ok : ep_new_env :=
  { kzalloc_ep := some 12, idr_alloc := 3, kzalloc_dev := some 102,
    kdbus_policy_db_new := some 200 }

/-- An envelope of 56 + 24 bytes sent by connection 5 whose only item has a
type outside the five client types. -/
def unknown_type_msg : kdbus_msg :=
  { size := 80, dst_id := 9, src_id := 5,
    data := layout_items [{ size := 24, type := .OTHER 4096 }] 0 }

/-- A client buffer of exactly 80 readable bytes whose message declares the
size 80: the header and one payload item of 24 bytes. -/
def exact_buf : user_buf :=
  { readable := 80,
    msg := { size := 80, dst_id := 9, src_id := 5,
             data := layout_items [{ size := 24, type := KDBUS_MSG_PAYLOAD }] 0 } }

/-- An environment for `kdbus_ep_new` in which every step succeeds except
`kdbus_policy_db_new`, which returns `NULL`. -/
def ep_env_no_policy_db : ep_new_env :=
  { kzalloc_ep := some 12, idr_alloc := 3, kzalloc_dev := some 102,
    kdbus_policy_db_new := none }

/-- Memory in which every envelope is a payload message of 80 bytes that only
its creator holds, and every connection is an active endpoint connection with
an empty queue. -/
def idle_world : World :=
  { kmsgs := fun _ => { kref := 1, deadline := 0, msg := unicast_msg 0 }
    conns := fun c => { id := c } }

/-- Calls on the connections 1 and 2 with the envelope at 7: two enqueues, an
enqueue whose allocation fails, a receive by 1, a receive by 2 into a buffer
that is too small, another enqueue on 1. -/
def example_ops : List queue_op :=
  [.enqueue true 1 7, .enqueue true 2 7, .enqueue false 1 7, .recv 1 (recv_buf 4096),
   .recv 2 (recv_buf 60), .enqueue true 1 7]

/-! ## Facts about the item walk -/

theorem item_recorded_mono {s t : validate_state} {d : kdbus_msg_data}
    (hk : flags_kept s t) (h : item_recorded s d) : item_recorded t d := by
  obtain ⟨hp, hf, hb, hn⟩ := hk
  obtain ⟨hsz, h⟩ := h
  refine ⟨hsz, ?_⟩
  rcases h with ⟨ht, hs⟩ | ⟨ht, hs⟩ | ⟨ht, hs⟩ | ⟨ht, hs⟩
  · exact Or.inl ⟨ht, hp hs⟩
  · exact Or.inr (Or.inl ⟨ht, hf hs⟩)
  · exact Or.inr (Or.inr (Or.inl ⟨ht, hb hs⟩))
  · exact Or.inr (Or.inr (Or.inr ⟨ht, hn hs⟩))

theorem validate_item_error {d : kdbus_msg_data} {s : validate_state} {e : Int}
    (h : kdbus_msg_validate_item d s = .error e) : e = -EINVAL := by
  unfold kdbus_msg_validate_item at h
  split at h
  · cases h; rfl
  · split at h
    all_goals first
      | (cases h; rfl)
      | cases h

theorem validate_item_ok {d : kdbus_msg_data} {s t : validate_state}
    (h : kdbus_msg_validate_item d s = .ok t) :
    t.size = s.size ∧ t.data = s.data ∧ t.visited = s.visited ∧
      flags_kept s t ∧ item_recorded t d := by
  unfold kdbus_msg_validate_item at h
  split at h
  · cases h
  · rename_i hsz
    have hsz : KDBUS_MSG_DATA_SIZE 0 < d.size := Nat.lt_of_not_le hsz
    split at h
    all_goals first
      | (injection h with h
         subst h
         rename_i ht
         simp [flags_kept, item_recorded, hsz, ht])
      | cases h

theorem U64_eq : U64 = 18446744073709551616 := by decide

theorem KDBUS_MSG_DATA_SIZE_zero : KDBUS_MSG_DATA_SIZE 0 = 16 := by decide

/-- Every run of the loop with more fuel than remaining bytes yields a result. -/
theorem validate_loop_total (mem : Nat → kdbus_msg_data) :
    ∀ (fuel : Nat) (s : validate_state), s.size < fuel →
      ∃ r, kdbus_msg_validate_loop mem fuel s = some r := by
  intro fuel
  induction fuel with
  | zero => intro s h; exact absurd h (Nat.not_lt_zero _)
  | succ n ih =>
    intro s h
    unfold kdbus_msg_validate_loop
    simp only
    split
    · rename_i hc
      split
      · exact ⟨_, rfl⟩
      · rename_i s2 hok
        obtain ⟨h1, -, -, -, hrec⟩ := validate_item_ok hok
        have hpos : KDBUS_MSG_DATA_SIZE 0 < (mem s.data).size := hrec.1
        rw [KDBUS_MSG_DATA_SIZE_zero] at hpos
        apply ih
        simp only [h1]
        omega
    · exact ⟨_, rfl⟩

/-- The loop either returns `-EINVAL` from its body or stops with every visited
item recorded in the flags. -/
theorem validate_loop_inv (mem : Nat → kdbus_msg_data) :
    ∀ (fuel : Nat) (s : validate_state) (r : Option Int) (t : validate_state),
      kdbus_msg_validate_loop mem fuel s = some (r, t) →
      (∀ d ∈ s.visited, item_recorded s d) →
      r = some (-EINVAL) ∨ (r = none ∧ ∀ d ∈ t.visited, item_recorded t d) := by
  intro fuel
  induction fuel with
  | zero => intro s r t h; simp [kdbus_msg_validate_loop] at h
  | succ n ih =>
    intro s r t h hinv
    unfold kdbus_msg_validate_loop at h
    simp only at h
    split at h
    · split at h
      · rename_i e herr
        simp only [Option.some.injEq, Prod.mk.injEq] at h
        left
        rw [← h.1, validate_item_error herr]
      · rename_i s2 hok
        obtain ⟨-, -, hv, hk, hrec⟩ := validate_item_ok hok
        apply ih _ r t h
        intro d hd
        simp only [hv, List.mem_append, List.mem_singleton] at hd
        rcases hd with hd | hd
        · have h0 : item_recorded { s with visited := s.visited ++ [mem s.data] } d :=
            hinv d hd
          exact item_recorded_mono ⟨hk.1, hk.2.1, hk.2.2.1, hk.2.2.2⟩ h0
        · subst hd
          exact hrec
    · simp only [Option.some.injEq, Prod.mk.injEq] at h
      right
      exact ⟨h.1.symm, h.2 ▸ hinv⟩

theorem validate_walk_total (msg : kdbus_msg) :
    ∃ r, kdbus_msg_validate_walk msg = some r :=
  validate_loop_total msg.data _ _ (Nat.lt_succ_self _)

theorem validate_walk_inv (msg : kdbus_msg) (r : Option Int) (t : validate_state)
    (h : kdbus_msg_validate_walk msg = some (r, t)) :
    r = some (-EINVAL) ∨ (r = none ∧ ∀ d ∈ t.visited, item_recorded t d) := by
  apply validate_loop_inv msg.data _ _ r t h
  intro d hd
  simp [kdbus_msg_validate_init] at hd

theorem validate_from_user_of_walk {msg : kdbus_msg} {r : Option Int} {t : validate_state}
    (hsrc : msg.src_id ≠ KDBUS_SRC_ID_KERNEL)
    (h : kdbus_msg_validate_walk msg = some (r, t)) :
    kdbus_msg_validate_from_user msg = some (r.getD (kdbus_msg_validate_categories t)) := by
  unfold kdbus_msg_validate_from_user
  simp only [if_neg hsrc, h]
  cases r with
  | none => simp only [Option.getD_none]
  | some e => simp only [Option.getD_some]

theorem visited_of_walk {msg : kdbus_msg} {r : Option Int} {t : validate_state}
    (h : kdbus_msg_validate_walk msg = some (r, t)) :
    kdbus_msg_visited msg = t.visited := by
  unfold kdbus_msg_visited
  simp only [h]

/-- The flags that a visited item of a given category forces after a walk that
left the loop normally. -/
theorem item_recorded_flag {t : validate_state} {d : kdbus_msg_data}
    (h : item_recorded t d) :
    ((d.type = KDBUS_MSG_PAYLOAD ∨ d.type = KDBUS_MSG_PAYLOAD_REF) → t.payload = true) ∧
    (d.type = KDBUS_MSG_UNIX_FDS → t.fds = true) ∧
    (d.type = KDBUS_MSG_BLOOM → t.bloom = true) ∧
    (d.type = KDBUS_MSG_DST_NAME → t.name = true) := by
  obtain ⟨-, h⟩ := h
  rcases h with ⟨ht | ht, hs⟩ | ⟨ht, hs⟩ | ⟨ht, hs⟩ | ⟨ht, hs⟩ <;> simp [ht, hs]

/-- The only values `kdbus_msg_validate_from_user` returns are `-EINVAL` and 0,
and it always returns. -/
theorem validate_from_user_values (msg : kdbus_msg) :
    kdbus_msg_validate_from_user msg = some (-EINVAL) ∨
      kdbus_msg_validate_from_user msg = some 0 := by
  by_cases hsrc : msg.src_id = KDBUS_SRC_ID_KERNEL
  · left
    unfold kdbus_msg_validate_from_user
    rw [if_pos hsrc]
  · obtain ⟨⟨r, t⟩, hw⟩ := validate_walk_total msg
    rw [validate_from_user_of_walk hsrc hw]
    rcases validate_walk_inv msg r t hw with hr | ⟨hr, -⟩
    · left; rw [hr]; rfl
    · subst hr
      simp only [Option.getD_none, kdbus_msg_validate_categories]
      split
      · left; rfl
      · split
        · left; rfl
        · split
          · left; rfl
          · right; rfl

/-! ## The category matrix on visited items -/

/-- Claim C1: an envelope whose item walk visits a Payload item (plain or by
reference) and an item of another client category (file descriptors, bloom
filter or destination name) is rejected by `kdbus_msg_validate_from_user` with
`-EINVAL`, in whatever order the items are visited. -/
theorem validate_rejects_payload_with_other (msg : kdbus_msg) (p o : kdbus_msg_data)
    (hp : p ∈ kdbus_msg_visited msg)
    (hpt : p.type = KDBUS_MSG_PAYLOAD ∨ p.type = KDBUS_MSG_PAYLOAD_REF)
    (ho : o ∈ kdbus_msg_visited msg)
    (hot : o.type = KDBUS_MSG_UNIX_FDS ∨ o.type = KDBUS_MSG_BLOOM ∨
      o.type = KDBUS_MSG_DST_NAME) :
    kdbus_msg_validate_from_user msg = some (-EINVAL) := by
  by_cases hsrc : msg.src_id = KDBUS_SRC_ID_KERNEL
  · unfold kdbus_msg_validate_from_user
    rw [if_pos hsrc]
  · obtain ⟨⟨r, t⟩, hw⟩ := validate_walk_total msg
    rw [visited_of_walk hw] at hp ho
    rw [validate_from_user_of_walk hsrc hw]
    rcases validate_walk_inv msg r t hw with hr | ⟨hr, hrec⟩
    · rw [hr]; rfl
    · subst hr
      have h1 : t.payload = true := (item_recorded_flag (hrec p hp)).1 hpt
      have h2 : t.fds = true ∨ t.bloom = true ∨ t.name = true := by
        obtain ⟨-, hf, hb, hn⟩ := item_recorded_flag (hrec o ho)
        rcases hot with h | h | h
        · exact Or.inl (hf h)
        · exact Or.inr (Or.inl (hb h))
        · exact Or.inr (Or.inr (hn h))
      simp only [Option.getD_none, kdbus_msg_validate_categories]
      rw [if_pos ⟨h1, h2⟩]

/-- Witness of C1: a bloom filter item followed by a payload item. -/
theorem validate_rejects_payload_with_other_witness :
    kdbus_msg_validate_from_user
      { size := 104, dst_id := 1, src_id := 1,
        data := layout_items
          [{ size := 24, type := KDBUS_MSG_BLOOM }, { size := 24, type := KDBUS_MSG_PAYLOAD }] 0 }
      = some (-EINVAL) :=
  validate_rejects_payload_with_other _
    { size := 24, type := KDBUS_MSG_PAYLOAD } { size := 24, type := KDBUS_MSG_BLOOM }
    (by decide) (Or.inl rfl) (by decide) (Or.inr (Or.inl rfl))

/-- Claim C3: an envelope whose item walk visits a bloom filter item together
with a destination name item or a file descriptor item is rejected by
`kdbus_msg_validate_from_user` with `-EINVAL`. -/
theorem validate_rejects_bloom_with_name_or_fds (msg : kdbus_msg) (b o : kdbus_msg_data)
    (hb : b ∈ kdbus_msg_visited msg) (hbt : b.type = KDBUS_MSG_BLOOM)
    (ho : o ∈ kdbus_msg_visited msg)
    (hot : o.type = KDBUS_MSG_DST_NAME ∨ o.type = KDBUS_MSG_UNIX_FDS) :
    kdbus_msg_validate_from_user msg = some (-EINVAL) := by
  by_cases hsrc : msg.src_id = KDBUS_SRC_ID_KERNEL
  · unfold kdbus_msg_validate_from_user
    rw [if_pos hsrc]
  · obtain ⟨⟨r, t⟩, hw⟩ := validate_walk_total msg
    rw [visited_of_walk hw] at hb ho
    rw [validate_from_user_of_walk hsrc hw]
    rcases validate_walk_inv msg r t hw with hr | ⟨hr, hrec⟩
    · rw [hr]; rfl
    · subst hr
      have h1 : t.bloom = true := (item_recorded_flag (hrec b hb)).2.2.1 hbt
      obtain ⟨-, hf, -, hn⟩ := item_recorded_flag (hrec o ho)
      simp only [Option.getD_none, kdbus_msg_validate_categories]
      rcases hot with h | h
      · have h2 := hn h
        simp [h1, h2]
      · have h2 := hf h
        simp [h1, h2]

/-- Witness of C3: a destination name item followed by a bloom filter item. -/
theorem validate_rejects_bloom_with_name_or_fds_witness :
    kdbus_msg_validate_from_user
      { size := 112, dst_id := 0, src_id := 7,
        data := layout_items
          [{ size := 32, type := KDBUS_MSG_DST_NAME, data := [111, 114, 103, 0] },
           { size := 24, type := KDBUS_MSG_BLOOM }] 0 }
      = some (-EINVAL) :=
  validate_rejects_bloom_with_name_or_fds _
    { size := 24, type := KDBUS_MSG_BLOOM }
    { size := 32, type := KDBUS_MSG_DST_NAME, data := [111, 114, 103, 0] }
    (by decide) rfl (by decide) (Or.inl rfl)

/-- Claim C7: when the item walk reaches (enters the loop body for) an item
whose declared size is at most the item header size `KDBUS_MSG_DATA_SIZE(0)`,
size 0 included, `kdbus_msg_validate_from_user` returns `-EINVAL`. -/
theorem validate_rejects_headerless_item (msg : kdbus_msg) (d : kdbus_msg_data)
    (hd : d ∈ kdbus_msg_visited msg) (hsz : d.size ≤ KDBUS_MSG_DATA_SIZE 0) :
    kdbus_msg_validate_from_user msg = some (-EINVAL) := by
  by_cases hsrc : msg.src_id = KDBUS_SRC_ID_KERNEL
  · unfold kdbus_msg_validate_from_user
    rw [if_pos hsrc]
  · obtain ⟨⟨r, t⟩, hw⟩ := validate_walk_total msg
    rw [visited_of_walk hw] at hd
    rw [validate_from_user_of_walk hsrc hw]
    rcases validate_walk_inv msg r t hw with hr | ⟨-, hrec⟩
    · rw [hr]; rfl
    · exact absurd (hrec d hd).1 (Nat.not_lt_of_le hsz)

/-- Witness of C7: a payload item followed by an item of exactly header size. -/
theorem validate_rejects_headerless_item_witness :
    kdbus_msg_validate_from_user
      { size := 96, dst_id := 1, src_id := 1,
        data := layout_items
          [{ size := 24, type := KDBUS_MSG_PAYLOAD }, { size := 16, type := KDBUS_MSG_PAYLOAD }] 0 }
      = some (-EINVAL) :=
  validate_rejects_headerless_item _ { size := 16, type := KDBUS_MSG_PAYLOAD }
    (by decide) (by decide)

/-! ## Envelopes whose items partition the body -/

/-- The switch on an item of a client type that is larger than the item header
succeeds and sets the flag of its category. -/
theorem validate_item_client (d : kdbus_msg_data) (s : validate_state)
    (hd : KDBUS_MSG_DATA_SIZE 0 < d.size) (hty : client_type d.type) :
    ∃ t, kdbus_msg_validate_item d s = .ok t ∧ t.size = s.size ∧ t.data = s.data ∧
      t.visited = s.visited ∧
      t.payload = (s.payload || decide (d.type = KDBUS_MSG_PAYLOAD) ||
        decide (d.type = KDBUS_MSG_PAYLOAD_REF)) ∧
      t.fds = (s.fds || decide (d.type = KDBUS_MSG_UNIX_FDS)) ∧
      t.bloom = (s.bloom || decide (d.type = KDBUS_MSG_BLOOM)) ∧
      t.name = (s.name || decide (d.type = KDBUS_MSG_DST_NAME)) := by
  have hnle : ¬ d.size ≤ KDBUS_MSG_DATA_SIZE 0 := Nat.not_le_of_lt hd
  rcases hty with h | h | h | h | h
  all_goals
    simp only [kdbus_msg_validate_item, if_neg hnle, h]
    exact ⟨_, rfl, by simp⟩

/-- On items that partition the remaining bytes, each larger than the item
header and of a client type, the loop visits every item, ends with nothing
left, and sets exactly the flags of the categories present. -/
theorem validate_loop_partition (mem : Nat → kdbus_msg_data) :
    ∀ (its : List kdbus_msg_data) (fuel : Nat) (s : validate_state),
      s.size < fuel →
      items_partition mem s.data s.size its →
      (∀ d ∈ its, KDBUS_MSG_DATA_SIZE 0 < d.size) →
      (∀ d ∈ its, client_type d.type) →
      ∃ t, kdbus_msg_validate_loop mem fuel s = some (none, t) ∧ t.size = 0 ∧
        t.visited = s.visited ++ its ∧
        t.payload = (s.payload || has_type its KDBUS_MSG_PAYLOAD ||
          has_type its KDBUS_MSG_PAYLOAD_REF) ∧
        t.fds = (s.fds || has_type its KDBUS_MSG_UNIX_FDS) ∧
        t.bloom = (s.bloom || has_type its KDBUS_MSG_BLOOM) ∧
        t.name = (s.name || has_type its KDBUS_MSG_DST_NAME) := by
  intro its
  induction its with
  | nil =>
    intro fuel s hfuel hpart _ _
    cases fuel with
    | zero => exact absurd hfuel (Nat.not_lt_zero _)
    | succ n =>
      have h0 : s.size = 0 := hpart
      refine ⟨s, ?_, h0, ?_, ?_, ?_, ?_, ?_⟩
      · unfold kdbus_msg_validate_loop
        simp [h0]
      all_goals simp [has_type]
  | cons d ds ih =>
    intro fuel s hfuel hpart hbig hty
    obtain ⟨hmem, hle, hrest⟩ := hpart
    have hd : KDBUS_MSG_DATA_SIZE 0 < d.size := hbig d (List.mem_cons_self _ _)
    have hd16 : 16 < d.size := by rw [KDBUS_MSG_DATA_SIZE_zero] at hd; exact hd
    cases fuel with
    | zero => exact absurd hfuel (Nat.not_lt_zero _)
    | succ n =>
      have hcond : 0 < s.size ∧ d.size ≤ s.size := ⟨by omega, hle⟩
      obtain ⟨s2, hok, hs2, hd2, hv2, hp2, hf2, hb2, hn2⟩ :=
        validate_item_client d { s with visited := s.visited ++ [d] } hd
          (hty d (List.mem_cons_self _ _))
      obtain ⟨t, hrun, hz, hv, hp, hf, hb, hn⟩ :=
        ih n { s2 with size := s2.size - d.size, data := s2.data + d.size }
          (by simp only [hs2]; omega)
          (by simp only [hs2, hd2]; exact hrest)
          (fun x hx => hbig x (List.mem_cons_of_mem _ hx))
          (fun x hx => hty x (List.mem_cons_of_mem _ hx))
      refine ⟨t, ?_, hz, ?_, ?_, ?_, ?_, ?_⟩
      · unfold kdbus_msg_validate_loop
        simp only [hmem, if_pos hcond, hok]
        exact hrun
      · simp [hv, hv2]
      · simp [hp, hp2, has_type, Bool.or_assoc, Bool.or_comm, Bool.or_left_comm]
      · simp [hf, hf2, has_type, Bool.or_assoc]
      · simp [hb, hb2, has_type, Bool.or_assoc]
      · simp [hn, hn2, has_type, Bool.or_assoc]

theorem has_type_false {its : List kdbus_msg_data} {ty : kdbus_msg_type}
    (h : ∀ d ∈ its, d.type ≠ ty) : has_type its ty = false := by
  simp only [has_type, List.any_eq_false, decide_eq_true_eq]
  exact h

theorem has_type_true {its : List kdbus_msg_data} {ty : kdbus_msg_type}
    (h : ∃ d ∈ its, d.type = ty) : has_type its ty = true := by
  simp only [has_type, List.any_eq_true, decide_eq_true_eq]
  exact h

/-- The walk over an envelope whose items partition the body. -/
theorem validate_walk_partition (msg : kdbus_msg) (its : List kdbus_msg_data)
    (hhdr : KDBUS_MSG_HEADER_SIZE ≤ msg.size)
    (hpart : items_partition msg.data 0 (msg.size - KDBUS_MSG_HEADER_SIZE) its)
    (hbig : ∀ d ∈ its, KDBUS_MSG_DATA_SIZE 0 < d.size)
    (hty : ∀ d ∈ its, client_type d.type) :
    ∃ t, kdbus_msg_validate_walk msg = some (none, t) ∧ t.size = 0 ∧ t.visited = its ∧
      t.payload = (has_type its KDBUS_MSG_PAYLOAD || has_type its KDBUS_MSG_PAYLOAD_REF) ∧
      t.fds = has_type its KDBUS_MSG_UNIX_FDS ∧
      t.bloom = has_type its KDBUS_MSG_BLOOM ∧
      t.name = has_type its KDBUS_MSG_DST_NAME := by
  have hinit : (kdbus_msg_validate_init msg).size = msg.size - KDBUS_MSG_HEADER_SIZE := by
    simp only [kdbus_msg_validate_init, u64_sub, if_pos hhdr]
  obtain ⟨t, hrun, hz, hv, hp, hf, hb, hn⟩ :=
    validate_loop_partition msg.data its ((kdbus_msg_validate_init msg).size + 1)
      (kdbus_msg_validate_init msg) (Nat.lt_succ_self _)
      (by rw [hinit]; exact hpart) hbig hty
  refine ⟨t, hrun, hz, ?_, ?_, ?_, ?_, ?_⟩
  · simpa [kdbus_msg_validate_init] using hv
  · simpa [kdbus_msg_validate_init] using hp
  · simpa [kdbus_msg_validate_init] using hf
  · simpa [kdbus_msg_validate_init] using hb
  · simpa [kdbus_msg_validate_init] using hn

/-- Claim C4: an envelope whose sender is not the kernel sentinel and whose
items partition the body exactly, each larger than the item header and each of
type `KDBUS_MSG_PAYLOAD` or `KDBUS_MSG_PAYLOAD_REF`, passes
`kdbus_msg_validate_from_user` (it returns 0). -/
theorem validate_accepts_payload_only (msg : kdbus_msg) (its : List kdbus_msg_data)
    (hsrc : msg.src_id ≠ KDBUS_SRC_ID_KERNEL)
    (hhdr : KDBUS_MSG_HEADER_SIZE ≤ msg.size)
    (hpart : items_partition msg.data 0 (msg.size - KDBUS_MSG_HEADER_SIZE) its)
    (hbig : ∀ d ∈ its, KDBUS_MSG_DATA_SIZE 0 < d.size)
    (hpay : ∀ d ∈ its, d.type = KDBUS_MSG_PAYLOAD ∨ d.type = KDBUS_MSG_PAYLOAD_REF) :
    kdbus_msg_validate_from_user msg = some 0 := by
  obtain ⟨t, hw, -, -, -, hf, hb, hn⟩ := validate_walk_partition msg its hhdr hpart hbig
    (fun d hd => by
      rcases hpay d hd with h | h
      · exact Or.inl h
      · exact Or.inr (Or.inl h))
  rw [validate_from_user_of_walk hsrc hw]
  have hf0 : t.fds = false := by
    rw [hf]; apply has_type_false
    intro d hd; rcases hpay d hd with h | h <;> simp [h]
  have hb0 : t.bloom = false := by
    rw [hb]; apply has_type_false
    intro d hd; rcases hpay d hd with h | h <;> simp [h]
  have hn0 : t.name = false := by
    rw [hn]; apply has_type_false
    intro d hd; rcases hpay d hd with h | h <;> simp [h]
  simp [kdbus_msg_validate_categories, hf0, hb0, hn0]

/-- Witness of C4: a payload item and a payload-by-reference item. -/
theorem validate_accepts_payload_only_witness :
    kdbus_msg_validate_from_user
      { size := 112, dst_id := 9, src_id := 5,
        data := layout_items
          [{ size := 24, type := KDBUS_MSG_PAYLOAD },
           { size := 32, type := KDBUS_MSG_PAYLOAD_REF, data_ref_size := 4096 }] 0 }
      = some 0 :=
  validate_accepts_payload_only _
    [{ size := 24, type := KDBUS_MSG_PAYLOAD },
     { size := 32, type := KDBUS_MSG_PAYLOAD_REF, data_ref_size := 4096 }]
    (by decide) (by decide) (by decide) (by decide) (by decide)

/-- Claim C2, as the code has it: an envelope whose sender is not the kernel
sentinel and whose items partition the body exactly, each larger than the item
header, all of type `KDBUS_MSG_UNIX_FDS` or `KDBUS_MSG_DST_NAME` and at least
one of each, is rejected by `kdbus_msg_validate_from_user` with `-EINVAL`. -/
theorem validate_rejects_fds_with_name (msg : kdbus_msg) (its : List kdbus_msg_data)
    (hsrc : msg.src_id ≠ KDBUS_SRC_ID_KERNEL)
    (hhdr : KDBUS_MSG_HEADER_SIZE ≤ msg.size)
    (hpart : items_partition msg.data 0 (msg.size - KDBUS_MSG_HEADER_SIZE) its)
    (hbig : ∀ d ∈ its, KDBUS_MSG_DATA_SIZE 0 < d.size)
    (honly : ∀ d ∈ its, d.type = KDBUS_MSG_UNIX_FDS ∨ d.type = KDBUS_MSG_DST_NAME)
    (hfds : ∃ d ∈ its, d.type = KDBUS_MSG_UNIX_FDS)
    (hname : ∃ d ∈ its, d.type = KDBUS_MSG_DST_NAME) :
    kdbus_msg_validate_from_user msg = some (-EINVAL) := by
  obtain ⟨t, hw, -, -, hp, hf, -, hn⟩ := validate_walk_partition msg its hhdr hpart hbig
    (fun d hd => by
      rcases honly d hd with h | h
      · exact Or.inr (Or.inr (Or.inl h))
      · exact Or.inr (Or.inr (Or.inr (Or.inr h))))
  rw [validate_from_user_of_walk hsrc hw]
  have hp0 : t.payload = false := by
    rw [hp, has_type_false, has_type_false]
    · rfl
    · intro d hd; rcases honly d hd with h | h <;> simp [h]
    · intro d hd; rcases honly d hd with h | h <;> simp [h]
  have hf1 : t.fds = true := by rw [hf]; exact has_type_true hfds
  have hn1 : t.name = true := by rw [hn]; exact has_type_true hname
  simp [kdbus_msg_validate_categories, hp0, hf1, hn1]

/-- Witness of the amended C2 on `fds_name_msg`. -/
theorem validate_rejects_fds_with_name_witness :
    kdbus_msg_validate_from_user fds_name_msg = some (-EINVAL) :=
  validate_rejects_fds_with_name fds_name_msg fds_name_items
    (by decide) (by decide) (by decide) (by decide) (by decide) (by decide) (by decide)

/-- Counterexample to C2 as stated: `fds_name_msg` meets every condition of the
claim (sender not the kernel, items partition the body, each larger than the
item header, only file descriptor and destination name items, one of each),
yet `kdbus_msg_validate_from_user` returns `-EINVAL` and not 0. -/
theorem validate_fds_with_name_not_accepted :
    fds_name_msg.src_id ≠ KDBUS_SRC_ID_KERNEL ∧
    items_partition fds_name_msg.data 0 (fds_name_msg.size - KDBUS_MSG_HEADER_SIZE)
      fds_name_items ∧
    (∀ d ∈ fds_name_items, KDBUS_MSG_DATA_SIZE 0 < d.size) ∧
    (∀ d ∈ fds_name_items, d.type = KDBUS_MSG_UNIX_FDS ∨ d.type = KDBUS_MSG_DST_NAME) ∧
    (∃ d ∈ fds_name_items, d.type = KDBUS_MSG_UNIX_FDS) ∧
    (∃ d ∈ fds_name_items, d.type = KDBUS_MSG_DST_NAME) ∧
    kdbus_msg_validate_from_user fds_name_msg = some (-EINVAL) ∧
    kdbus_msg_validate_from_user fds_name_msg ≠ some 0 := by
  decide

/-- Claim C6, the code at a failing input: `truncated_msg` declares 88 bytes,
its walk visits the one payload item and stops with 8 bytes left, in front of
an item that declares 4096 bytes, and `kdbus_msg_validate_from_user` returns 0
all the same. -/
theorem validate_accepts_truncated_item :
    kdbus_msg_validate_from_user truncated_msg = some 0 ∧
    kdbus_msg_walk_rest truncated_msg = some 8 ∧
    kdbus_msg_visited truncated_msg = [{ size := 24, type := KDBUS_MSG_PAYLOAD }] ∧
    (truncated_msg.data 24).size = 4096 := by
  decide

/-! ## kdbus_kmsg_new_from_user -/

theorem ret_ne {a b : Int} {x y : Option kdbus_kmsg} (h : a ≠ b) :
    some (a, x) ≠ some (b, y) := by
  intro he
  injection he with he
  injection he with h1 _
  exact h h1

theorem copy_from_user_msg {buf : user_buf} {n : Nat} {msg : kdbus_msg}
    (h : copy_from_user buf n = some msg) : msg = buf.msg := by
  unfold copy_from_user at h
  split at h
  · cases h
  · cases h; rfl

/-- Claim C5: an envelope whose `src_id` is the kernel sentinel is rejected by
`kdbus_msg_validate_from_user` whatever its size, flags and items are, and
`kdbus_kmsg_new_from_user` on a buffer holding such an envelope returns a
negative value and hands out no envelope. -/
theorem new_from_user_rejects_kernel_src (kmsg_hdr : Nat) (kmalloc : Option Nat)
    (buf : user_buf) (hsrc : buf.msg.src_id = KDBUS_SRC_ID_KERNEL) :
    kdbus_msg_validate_from_user buf.msg = some (-EINVAL) ∧
    ∃ ret, ret < 0 ∧ kdbus_kmsg_new_from_user kmsg_hdr kmalloc buf = some (ret, none) := by
  have hv : kdbus_msg_validate_from_user buf.msg = some (-EINVAL) := by
    unfold kdbus_msg_validate_from_user
    rw [if_pos hsrc]
  refine ⟨hv, ?_⟩
  unfold kdbus_kmsg_new_from_user
  cases hs : kdbus_size_user buf with
  | none => exact ⟨-EFAULT, by decide, rfl⟩
  | some size =>
    simp only
    by_cases hr : kdbus_kmsg_size_rejected size = true
    · rw [if_pos hr]
      exact ⟨-EMSGSIZE, by decide, rfl⟩
    · rw [if_neg hr]
      cases kmalloc with
      | none => exact ⟨-ENOMEM, by decide, rfl⟩
      | some stale =>
        simp only
        cases hc : copy_from_user buf (kdbus_kmsg_alloc_size kmsg_hdr size) with
        | none => exact ⟨-EFAULT, by decide, rfl⟩
        | some msg =>
          simp only
          rw [copy_from_user_msg hc, hv]
          exact ⟨-EINVAL, by decide, by simp [EINVAL]⟩

/-- Witness of C5: a well-formed payload envelope that names the kernel as its
sender. -/
theorem new_from_user_rejects_kernel_src_witness :
    kdbus_msg_validate_from_user
        { size := 80, dst_id := 9, src_id := 0,
          data := layout_items [{ size := 24, type := KDBUS_MSG_PAYLOAD }] 0 }
      = some (-EINVAL) ∧
    ∃ ret, ret < 0 ∧
      kdbus_kmsg_new_from_user 16 (some 0)
        { readable := 4096,
          msg := { size := 80, dst_id := 9, src_id := 0,
                   data := layout_items [{ size := 24, type := KDBUS_MSG_PAYLOAD }] 0 } }
      = some (ret, none) :=
  new_from_user_rejects_kernel_src 16 (some 0)
    { readable := 4096,
      msg := { size := 80, dst_id := 9, src_id := 0,
               data := layout_items [{ size := 24, type := KDBUS_MSG_PAYLOAD }] 0 } }
    rfl

/-- Claim C8, as the code has it: when the size field of the client buffer can
be read, `kdbus_kmsg_new_from_user` fails with `-EMSGSIZE` exactly when the
declared size is below `sizeof(struct kdbus_msg)` or above 0xffff = 65535; the
sizes from the header size up to and including 65535 pass the size check. -/
theorem new_from_user_emsgsize_iff (kmsg_hdr : Nat) (kmalloc : Option Nat) (buf : user_buf)
    (hread : 8 ≤ buf.readable) :
    kdbus_kmsg_new_from_user kmsg_hdr kmalloc buf = some (-EMSGSIZE, none) ↔
      (buf.msg.size < SIZEOF_KDBUS_MSG ∨ 65535 < buf.msg.size) := by
  have hsz : kdbus_size_user buf = some buf.msg.size := by
    unfold kdbus_size_user
    rw [if_neg (Nat.not_lt_of_le hread)]
  have hrej : kdbus_kmsg_size_rejected buf.msg.size = true ↔
      (buf.msg.size < SIZEOF_KDBUS_MSG ∨ 65535 < buf.msg.size) := by
    simp [kdbus_kmsg_size_rejected]
  unfold kdbus_kmsg_new_from_user
  simp only [hsz]
  by_cases hr : kdbus_kmsg_size_rejected buf.msg.size = true
  · rw [if_pos hr]
    exact ⟨fun _ => hrej.mp hr, fun _ => rfl⟩
  · have hne : ¬ (buf.msg.size < SIZEOF_KDBUS_MSG ∨ 65535 < buf.msg.size) :=
      fun h => hr (hrej.mpr h)
    rw [if_neg hr]
    refine ⟨fun h => ?_, fun h => absurd h hne⟩
    exfalso
    revert h
    cases kmalloc with
    | none => exact ret_ne (by decide)
    | some stale =>
      simp only
      cases hc : copy_from_user buf (kdbus_kmsg_alloc_size kmsg_hdr buf.msg.size) with
      | none => exact ret_ne (by decide)
      | some msg =>
        simp only
        rcases validate_from_user_values msg with hv | hv
        · rw [hv]
          simp only [show (-EINVAL < 0) = True from eq_true (by decide), if_true]
          exact ret_ne (by decide)
        · rw [hv]
          simp only [show ((0 : Int) < 0) = False from eq_false (by decide), if_false]
          exact ret_ne (by decide)

/-- Witness of the amended C8: with a readable size field, the declared size
65535 is not rejected with `-EMSGSIZE`. -/
theorem new_from_user_emsgsize_iff_witness :
    kdbus_kmsg_new_from_user 16 (some 0)
        { readable := 8, msg := { size := 65535, dst_id := 9, src_id := 5,
                                  data := layout_items [] 0 } }
      ≠ some (-EMSGSIZE, none) :=
  fun h => absurd
    ((new_from_user_emsgsize_iff 16 (some 0)
      { readable := 8, msg := { size := 65535, dst_id := 9, src_id := 5,
                                data := layout_items [] 0 } }
      (by decide)).mp h)
    (by decide)

/-- Counterexample to C8 as stated: the declared size 65536 lies between the
header size and 64 KiB inclusive, and `kdbus_kmsg_new_from_user` fails with
`-EMSGSIZE` on it. -/
theorem new_from_user_rejects_64k :
    SIZEOF_KDBUS_MSG ≤ buf_64k.msg.size ∧ buf_64k.msg.size ≤ 65536 ∧
    kdbus_size_user buf_64k = some 65536 ∧
    kdbus_kmsg_size_rejected 65536 = true ∧
    kdbus_kmsg_new_from_user 16 (some 0) buf_64k = some (-EMSGSIZE, none) := by
  refine ⟨by decide, by decide, by decide, by decide, rfl⟩

/-! ## kdbus_kmsg_send: augmentation -/

theorem KDBUS_MSG_DATA_SIZE_u64 : KDBUS_MSG_DATA_SIZE 8 = 24 := by decide

theorem append_data_ok (k : kdbus_kmsg) (extra_size : Nat)
    (hhdr : KDBUS_MSG_HEADER_SIZE ≤ k.msg.size) :
    ∃ k1, kdbus_kmsg_append_data true k extra_size =
        some (k1, k.msg.size - KDBUS_MSG_HEADER_SIZE) ∧
      k1.msg.size = (k.msg.size + extra_size) % U64 ∧
      k1.msg.dst_id = k.msg.dst_id ∧ k1.msg.src_id = k.msg.src_id ∧
      k1.msg.timeout = k.msg.timeout ∧ k1.msg.flags = k.msg.flags ∧
      k1.kref = k.kref ∧ k1.deadline = k.deadline := by
  unfold kdbus_kmsg_append_data
  rw [if_neg (Nat.not_lt_of_le hhdr)]
  exact ⟨_, rfl, rfl, rfl, rfl, rfl, rfl, rfl, rfl⟩

theorem append_timestamp_ok (tv_sec tv_nsec : Nat) (k : kdbus_kmsg)
    (hhdr : KDBUS_MSG_HEADER_SIZE ≤ k.msg.size) :
    ∃ k1 now_ns, kdbus_kmsg_append_timestamp true tv_sec tv_nsec k = some (k1, now_ns) ∧
      k1.msg.size = (k.msg.size + KDBUS_MSG_DATA_SIZE 8) % U64 ∧
      k1.msg.dst_id = k.msg.dst_id ∧ k1.msg.src_id = k.msg.src_id ∧
      k1.msg.timeout = k.msg.timeout ∧ k1.msg.flags = k.msg.flags ∧
      k1.kref = k.kref ∧ k1.deadline = k.deadline := by
  obtain ⟨a, ha, hasz, hadst, hasrc, hato, hafl, hakr, hadl⟩ :=
    append_data_ok k (KDBUS_MSG_DATA_SIZE 8) hhdr
  unfold kdbus_kmsg_append_timestamp
  simp only [ha]
  exact ⟨_, _, rfl, hasz, hadst, hasrc, hato, hafl, hakr, hadl⟩

theorem append_cred_ok (creds : kdbus_creds) (k : kdbus_kmsg)
    (hhdr : KDBUS_MSG_HEADER_SIZE ≤ k.msg.size) :
    ∃ k1, kdbus_kmsg_append_cred true creds k = some k1 ∧
      k1.msg.size = (k.msg.size + KDBUS_MSG_DATA_SIZE SIZEOF_KDBUS_CREDS) % U64 ∧
      k1.msg.dst_id = k.msg.dst_id ∧ k1.msg.src_id = k.msg.src_id ∧
      k1.msg.timeout = k.msg.timeout ∧ k1.msg.flags = k.msg.flags ∧
      k1.kref = k.kref ∧ k1.deadline = k.deadline := by
  obtain ⟨a, ha, hasz, hadst, hasrc, hato, hafl, hakr, hadl⟩ :=
    append_data_ok k (KDBUS_MSG_DATA_SIZE SIZEOF_KDBUS_CREDS) hhdr
  unfold kdbus_kmsg_append_cred
  simp only [ha]
  exact ⟨_, rfl, hasz, hadst, hasrc, hato, hafl, hakr, hadl⟩

/-- When both `krealloc` calls succeed on an envelope that has its header and
room to grow, the augmentation step of `kdbus_kmsg_send` yields an envelope
with the same addressing fields, reference count and deadline. -/
theorem send_augment (env : send_env) (k : kdbus_kmsg)
    (hts : env.krealloc_timestamp = true) (hcr : env.krealloc_cred = true)
    (hhdr : KDBUS_MSG_HEADER_SIZE ≤ k.msg.size)
    (hsz : k.msg.size + KDBUS_MSG_DATA_SIZE 8 < U64) :
    ∃ k1 now_ns k2,
      kdbus_kmsg_append_timestamp env.krealloc_timestamp env.tv_sec env.tv_nsec k =
        some (k1, now_ns) ∧
      kdbus_kmsg_append_cred env.krealloc_cred env.creds k1 = some k2 ∧
      k2.msg.dst_id = k.msg.dst_id ∧ k2.msg.src_id = k.msg.src_id ∧
      k2.msg.timeout = k.msg.timeout ∧ k2.msg.flags = k.msg.flags ∧
      k2.kref = k.kref ∧ k2.deadline = k.deadline := by
  obtain ⟨k1, now_ns, h1, h1sz, h1dst, h1src, h1to, h1fl, h1kr, h1dl⟩ :=
    append_timestamp_ok env.tv_sec env.tv_nsec k hhdr
  have hk1 : KDBUS_MSG_HEADER_SIZE ≤ k1.msg.size := by
    rw [h1sz, Nat.mod_eq_of_lt hsz]
    exact Nat.le_trans hhdr (Nat.le_add_right _ _)
  obtain ⟨k2, h2, -, h2dst, h2src, h2to, h2fl, h2kr, h2dl⟩ :=
    append_cred_ok env.creds k1 hk1
  refine ⟨k1, now_ns, k2, by rw [hts]; exact h1, by rw [hcr]; exact h2, ?_⟩
  simp only [h2dst, h2src, h2to, h2fl, h2kr, h2dl, h1dst, h1src, h1to, h1fl, h1kr, h1dl,
    and_self]

/-! ## kdbus_kmsg_send: broadcast -/

theorem broadcast_not_well_known : KDBUS_DST_ID_BROADCAST ≠ KDBUS_DST_ID_WELL_KNOWN_NAME := by
  decide

/-- Claim C9: for an envelope addressed to the broadcast sentinel with a
nonzero timeout, `kdbus_kmsg_send` returns `-EINVAL` and leaves every
connection, hence every queue, as it was.  The envelope is one that
`kdbus_kmsg_new_from_user` can hand over (its size covers the header and stays
below 2^64 with the timestamp item added) and both `krealloc` calls succeed. -/
theorem send_broadcast_timeout_einval (env : send_env) (w : World) (ep : kdbus_ep)
    (kmsg : Nat)
    (hts : env.krealloc_timestamp = true) (hcr : env.krealloc_cred = true)
    (hhdr : KDBUS_MSG_HEADER_SIZE ≤ (w.kmsgs kmsg).msg.size)
    (hsz : (w.kmsgs kmsg).msg.size + KDBUS_MSG_DATA_SIZE 8 < U64)
    (hdst : (w.kmsgs kmsg).msg.dst_id = KDBUS_DST_ID_BROADCAST)
    (hto : (w.kmsgs kmsg).msg.timeout ≠ 0) :
    ∃ w1, kdbus_kmsg_send env w ep kmsg = some (-EINVAL, w1) ∧ w1.conns = w.conns := by
  obtain ⟨k1, now_ns, k2, h1, h2, hd, -, ht, -, -, -⟩ :=
    send_augment env (w.kmsgs kmsg) hts hcr hhdr hsz
  have hres : ∀ w1 : World, kdbus_kmsg_send_resolve env w1 k2.msg = some (.ok none) := by
    intro w1
    unfold kdbus_kmsg_send_resolve
    rw [hd, hdst, if_neg broadcast_not_well_known]
    simp
  unfold kdbus_kmsg_send
  simp only [h1, h2, hres]
  rw [ht, if_pos hto]
  exact ⟨_, rfl, rfl⟩

/-- Witness of C9: a broadcast with timeout 1000 on an endpoint with three
attached connections. -/
theorem send_broadcast_timeout_einval_witness :
    ∃ w1, kdbus_kmsg_send {} (one_msg_world (broadcast_msg 1000) .KDBUS_CONN_EP)
        three_conn_ep 7 = some (-EINVAL, w1) ∧
      w1.conns = (one_msg_world (broadcast_msg 1000) .KDBUS_CONN_EP).conns :=
  send_broadcast_timeout_einval {} (one_msg_world (broadcast_msg 1000) .KDBUS_CONN_EP)
    three_conn_ep 7 rfl rfl (by decide) (by decide) rfl (by decide)

theorem enqueue_ok (w : World) (conn kmsg : Nat) (hact : (w.conns conn).active = true) :
    kdbus_conn_enqueue_kmsg true w conn kmsg =
      (0,
        { kmsgs := Function.update w.kmsgs kmsg
            { w.kmsgs kmsg with kref := (w.kmsgs kmsg).kref + 1 }
          conns := Function.update w.conns conn
            { w.conns conn with msg_list := (w.conns conn).msg_list ++ [kmsg] } }) := by
  simp [kdbus_conn_enqueue_kmsg, hact]

/-- The fan-out loop over distinct, active connections with every entry
allocation succeeding: it ends with `ret = 0`, the recipients have the envelope
at the tail of their queues and no other connection has changed. -/
theorem send_broadcast_all (kzalloc_entry : Nat → Bool) (kmsg : Nat)
    (hk : ∀ n, kzalloc_entry n = true) :
    ∀ (l : List Nat) (n : Nat) (w : World), l.Nodup →
      (∀ c ∈ l, (w.conns c).active = true) →
      (kdbus_kmsg_send_broadcast kzalloc_entry kmsg l n 0 w).1 = 0 ∧
      ∀ c, (kdbus_kmsg_send_broadcast kzalloc_entry kmsg l n 0 w).2.conns c =
        if c ∈ l ∧ broadcast_recipient w (w.kmsgs kmsg).msg.src_id c
        then conn_enqueued (w.conns c) kmsg else w.conns c := by
  intro l
  induction l with
  | nil =>
    intro n w _ _
    simp [kdbus_kmsg_send_broadcast]
  | cons a l ih =>
    intro n w hnd hact
    have hnd1 : l.Nodup := (List.nodup_cons.mp hnd).2
    have hal : a ∉ l := (List.nodup_cons.mp hnd).1
    have hact1 : ∀ c ∈ l, (w.conns c).active = true :=
      fun c hc => hact c (List.mem_cons_of_mem _ hc)
    unfold kdbus_kmsg_send_broadcast
    by_cases hty : (w.conns a).type ≠ .KDBUS_CONN_EP
    · rw [if_pos hty]
      refine ⟨(ih n w hnd1 hact1).1, fun c => ?_⟩
      rw [(ih n w hnd1 hact1).2 c]
      by_cases hca : c = a
      · subst hca
        have : ¬ broadcast_recipient w (w.kmsgs kmsg).msg.src_id c := fun h => hty h.1
        simp [this]
      · simp [hca]
    · rw [if_neg hty]
      by_cases hid : (w.conns a).id = (w.kmsgs kmsg).msg.src_id
      · rw [if_pos hid]
        refine ⟨(ih n w hnd1 hact1).1, fun c => ?_⟩
        rw [(ih n w hnd1 hact1).2 c]
        by_cases hca : c = a
        · subst hca
          have : ¬ broadcast_recipient w (w.kmsgs kmsg).msg.src_id c := fun h => h.2 hid
          simp [this]
        · simp [hca]
      · rw [if_neg hid]
        have hrec : broadcast_recipient w (w.kmsgs kmsg).msg.src_id a :=
          ⟨not_not.mp hty, hid⟩
        rw [hk n, enqueue_ok w a kmsg (hact a (List.mem_cons_self _ _))]
        simp only [lt_self_iff_false, if_false]
        have hact2 : ∀ c ∈ l, ((Function.update w.conns a
            { w.conns a with msg_list := (w.conns a).msg_list ++ [kmsg] }) c).active = true := by
          intro c hc
          have hca : c ≠ a := fun h => hal (h ▸ hc)
          rw [Function.update_noteq hca]
          exact hact1 c hc
        obtain ⟨hret, hconns⟩ := ih (n + 1)
          { kmsgs := Function.update w.kmsgs kmsg
              { w.kmsgs kmsg with kref := (w.kmsgs kmsg).kref + 1 }
            conns := Function.update w.conns a
              { w.conns a with msg_list := (w.conns a).msg_list ++ [kmsg] } }
          hnd1 hact2
        refine ⟨hret, fun c => ?_⟩
        rw [hconns c]
        by_cases hca : c = a
        · subst hca
          simp [hal, hrec, conn_enqueued]
        · simp [hca, broadcast_recipient, Function.update_noteq hca]

/-- Claim C10, as the code has it: a broadcast envelope with timeout 0, sent on
an endpoint whose attached connections are all active (and pairwise distinct),
with every allocation succeeding, makes `kdbus_kmsg_send` return 0 and adds
exactly one entry for the envelope at the tail of the queue of every attached
connection of kind `KDBUS_CONN_EP` whose id differs from the envelope's
`src_id`; every other connection, the sender included, is unchanged. -/
theorem send_broadcast_delivers (env : send_env) (w : World) (ep : kdbus_ep) (kmsg : Nat)
    (hts : env.krealloc_timestamp = true) (hcr : env.krealloc_cred = true)
    (hk : ∀ n, env.kzalloc_entry n = true)
    (hhdr : KDBUS_MSG_HEADER_SIZE ≤ (w.kmsgs kmsg).msg.size)
    (hsz : (w.kmsgs kmsg).msg.size + KDBUS_MSG_DATA_SIZE 8 < U64)
    (hdst : (w.kmsgs kmsg).msg.dst_id = KDBUS_DST_ID_BROADCAST)
    (hto : (w.kmsgs kmsg).msg.timeout = 0)
    (hnd : ep.connection_list.Nodup)
    (hact : ∀ c ∈ ep.connection_list, (w.conns c).active = true) :
    ∃ w1, kdbus_kmsg_send env w ep kmsg = some (0, w1) ∧
      ∀ c, w1.conns c =
        if c ∈ ep.connection_list ∧ broadcast_recipient w (w.kmsgs kmsg).msg.src_id c
        then conn_enqueued (w.conns c) kmsg else w.conns c := by
  obtain ⟨k1, now_ns, k2, h1, h2, hd, hs, ht, -, -, -⟩ :=
    send_augment env (w.kmsgs kmsg) hts hcr hhdr hsz
  have hres : ∀ w1 : World, kdbus_kmsg_send_resolve env w1 k2.msg = some (.ok none) := by
    intro w1
    unfold kdbus_kmsg_send_resolve
    rw [hd, hdst, if_neg broadcast_not_well_known]
    simp
  obtain ⟨hret, hconns⟩ := send_broadcast_all env.kzalloc_entry kmsg hk ep.connection_list 0
    { w with kmsgs := Function.update w.kmsgs kmsg k2 } hnd hact
  unfold kdbus_kmsg_send
  simp only [h1, h2, hres]
  rw [ht, hto]
  simp only [ne_eq, not_true_eq_false, if_false]
  refine ⟨(kdbus_kmsg_send_broadcast env.kzalloc_entry kmsg ep.connection_list 0 0
    { w with kmsgs := Function.update w.kmsgs kmsg k2 }).2,
    congrArg some (Prod.ext hret rfl), fun c => ?_⟩
  rw [hconns c]
  simp only [Function.update_same, hs, broadcast_recipient]

/-- Witness of the amended C10: three endpoint connections, the first of them
the sender. -/
theorem send_broadcast_delivers_witness :
    ∃ w1, kdbus_kmsg_send {} (one_msg_world (broadcast_msg 0) .KDBUS_CONN_EP)
        three_conn_ep 7 = some (0, w1) ∧
      ∀ c, w1.conns c =
        if c ∈ three_conn_ep.connection_list ∧
          broadcast_recipient (one_msg_world (broadcast_msg 0) .KDBUS_CONN_EP)
            ((one_msg_world (broadcast_msg 0) .KDBUS_CONN_EP).kmsgs 7).msg.src_id c
        then conn_enqueued ((one_msg_world (broadcast_msg 0) .KDBUS_CONN_EP).conns c) 7
        else (one_msg_world (broadcast_msg 0) .KDBUS_CONN_EP).conns c :=
  send_broadcast_delivers {} (one_msg_world (broadcast_msg 0) .KDBUS_CONN_EP)
    three_conn_ep 7 rfl rfl (fun _ => rfl) (by decide) (by decide) rfl rfl
    (by decide) (by decide)

/-- Counterexample to C10 as stated: on `three_conn_ep` with all three
connections active, the connection at address 2 is attached and is not the
sender (its id is 2, the envelope comes from 1), but it is not of kind
`KDBUS_CONN_EP`; `kdbus_kmsg_send` returns 0, the queue of connection 3 gets the
envelope and the queue of connection 2 stays empty. -/
theorem send_broadcast_skips_other_kind :
    (∀ c ∈ three_conn_ep.connection_list,
      ((one_msg_world (broadcast_msg 0) (.OTHER 0)).conns c).active = true) ∧
    2 ∈ three_conn_ep.connection_list ∧
    ((one_msg_world (broadcast_msg 0) (.OTHER 0)).conns 2).id ≠ (broadcast_msg 0).src_id ∧
    (kdbus_kmsg_send {} (one_msg_world (broadcast_msg 0) (.OTHER 0)) three_conn_ep 7).map
        (fun r => (r.1, (r.2.conns 1).msg_list, (r.2.conns 2).msg_list,
          (r.2.conns 3).msg_list))
      = some (0, [], [], [7]) := by
  decide

/-! ## kdbus_conn_enqueue_kmsg -/

/-- Claim C15: `kdbus_conn_enqueue_kmsg` on a connection whose `active` flag is
false returns `-EAGAIN` and leaves all of memory as it was, the queue of the
connection and the reference count of the envelope included. -/
theorem enqueue_inactive_eagain (kzalloc_ok : Bool) (w : World) (conn kmsg : Nat)
    (h : (w.conns conn).active = false) :
    kdbus_conn_enqueue_kmsg kzalloc_ok w conn kmsg = (-EAGAIN, w) := by
  unfold kdbus_conn_enqueue_kmsg
  simp [h]

/-- Witness of C15: connection 4 is inactive and holds one envelope. -/
theorem enqueue_inactive_eagain_witness :
    kdbus_conn_enqueue_kmsg true
        { kmsgs := fun _ => { kref := 1, deadline := 0, msg := broadcast_msg 0 }
          conns := fun c => { id := c, active := false, msg_list := [3] } } 4 7
      = (-EAGAIN,
        { kmsgs := fun _ => { kref := 1, deadline := 0, msg := broadcast_msg 0 }
          conns := fun c => { id := c, active := false, msg_list := [3] } }) :=
  enqueue_inactive_eagain true _ 4 7 rfl

/-- The return value of `kdbus_conn_enqueue_kmsg`. -/
theorem enqueue_ret (kzalloc_ok : Bool) (w : World) (conn kmsg : Nat) :
    (kdbus_conn_enqueue_kmsg kzalloc_ok w conn kmsg).1 =
      if (w.conns conn).active = false then -EAGAIN
      else if kzalloc_ok = false then -ENOMEM else 0 := by
  unfold kdbus_conn_enqueue_kmsg
  cases h1 : (w.conns conn).active <;> cases h2 : kzalloc_ok <;> simp

/-- A failed `kdbus_conn_enqueue_kmsg` leaves memory as it was. -/
theorem enqueue_failed (kzalloc_ok : Bool) (w : World) (conn kmsg : Nat)
    (h : (kdbus_conn_enqueue_kmsg kzalloc_ok w conn kmsg).1 < 0) :
    (kdbus_conn_enqueue_kmsg kzalloc_ok w conn kmsg).2 = w := by
  unfold kdbus_conn_enqueue_kmsg at h ⊢
  cases h1 : (w.conns conn).active <;> cases h2 : kzalloc_ok <;> simp [h1, h2] at h ⊢

/-! ## kdbus_kmsg_send: a failing recipient -/

theorem recipient_count_cons (w : World) (src_id a : Nat) (l : List Nat) :
    recipient_count w src_id (a :: l) =
      (if broadcast_recipient w src_id a then 1 else 0) + recipient_count w src_id l := by
  unfold recipient_count
  by_cases h : broadcast_recipient w src_id a
  · simp [List.filter_cons, h, Nat.add_comm]
  · simp [List.filter_cons, h]

theorem recipient_count_congr (w w1 : World) (src_id : Nat) (l : List Nat)
    (h : ∀ c, (w1.conns c).type = (w.conns c).type ∧ (w1.conns c).id = (w.conns c).id) :
    recipient_count w1 src_id l = recipient_count w src_id l := by
  unfold recipient_count
  congr 1
  apply List.filter_congr
  intro c _
  simp only [broadcast_recipient, (h c).1, (h c).2]

/-- The fan-out loop on a list `pre ++ f :: post` in which the recipients of
`pre` are active and get their entries, and the enqueue into the recipient `f`
fails: the loop stops there with that error, the recipients of `pre` have the
envelope at the tail of their queues and no other connection has changed. -/
theorem send_broadcast_stops (kzalloc_entry : Nat → Bool) (kmsg f : Nat) (post : List Nat) :
    ∀ (pre : List Nat) (n : Nat) (w : World), (pre ++ f :: post).Nodup →
      (∀ c ∈ pre, broadcast_recipient w (w.kmsgs kmsg).msg.src_id c →
        (w.conns c).active = true) →
      (∀ i, i < recipient_count w (w.kmsgs kmsg).msg.src_id pre →
        kzalloc_entry (n + i) = true) →
      broadcast_recipient w (w.kmsgs kmsg).msg.src_id f →
      (kdbus_conn_enqueue_kmsg
        (kzalloc_entry (n + recipient_count w (w.kmsgs kmsg).msg.src_id pre)) w f kmsg).1 < 0 →
      (kdbus_kmsg_send_broadcast kzalloc_entry kmsg (pre ++ f :: post) n 0 w).1 =
        (kdbus_conn_enqueue_kmsg
          (kzalloc_entry (n + recipient_count w (w.kmsgs kmsg).msg.src_id pre)) w f kmsg).1 ∧
      ∀ c, (kdbus_kmsg_send_broadcast kzalloc_entry kmsg (pre ++ f :: post) n 0 w).2.conns c =
        if c ∈ pre ∧ broadcast_recipient w (w.kmsgs kmsg).msg.src_id c
        then conn_enqueued (w.conns c) kmsg else w.conns c := by
  intro pre
  induction pre with
  | nil =>
    intro n w _ _ _ hf hfail
    simp only [recipient_count, List.filter_nil, List.length_nil, Nat.add_zero] at hfail ⊢
    simp only [List.nil_append]
    unfold kdbus_kmsg_send_broadcast
    rw [if_neg (not_not.mpr hf.1), if_neg hf.2]
    simp only [hfail, if_true]
    refine ⟨trivial, fun c => ?_⟩
    rw [enqueue_failed _ _ _ _ hfail]
    simp
  | cons a pre ih =>
    intro n w hnd hact hk hf hfail
    have hnd1 : (pre ++ f :: post).Nodup := (List.nodup_cons.mp hnd).2
    have hal : a ∉ pre ++ f :: post := (List.nodup_cons.mp hnd).1
    have hapre : a ∉ pre := fun h => hal (List.mem_append_left _ h)
    have haf : f ≠ a := fun h => hal (by rw [← h]; simp)
    have hact1 : ∀ c ∈ pre, broadcast_recipient w (w.kmsgs kmsg).msg.src_id c →
        (w.conns c).active = true := fun c hc => hact c (List.mem_cons_of_mem _ hc)
    rw [recipient_count_cons] at hk hfail ⊢
    simp only [List.cons_append]
    unfold kdbus_kmsg_send_broadcast
    by_cases hrec : broadcast_recipient w (w.kmsgs kmsg).msg.src_id a
    · -- `a` gets its entry
      rw [if_neg (not_not.mpr hrec.1), if_neg hrec.2]
      simp only [hrec, if_true] at hk hfail ⊢
      have hkn : kzalloc_entry n = true := by
        have := hk 0 (by omega)
        simpa using this
      rw [hkn, enqueue_ok w a kmsg (hact a (List.mem_cons_self _ _) hrec)]
      simp only [lt_self_iff_false, if_false]
      have hsame : ∀ c, ((Function.update w.conns a
          { w.conns a with msg_list := (w.conns a).msg_list ++ [kmsg] }) c).type =
            (w.conns c).type ∧
          ((Function.update w.conns a
          { w.conns a with msg_list := (w.conns a).msg_list ++ [kmsg] }) c).id =
            (w.conns c).id := by
        intro c
        by_cases hca : c = a
        · subst hca; simp
        · simp [Function.update_noteq hca]
      have hrecw : ∀ c, broadcast_recipient
          { kmsgs := Function.update w.kmsgs kmsg
              { w.kmsgs kmsg with kref := (w.kmsgs kmsg).kref + 1 }
            conns := Function.update w.conns a
              { w.conns a with msg_list := (w.conns a).msg_list ++ [kmsg] } }
          (w.kmsgs kmsg).msg.src_id c ↔ broadcast_recipient w (w.kmsgs kmsg).msg.src_id c := by
        intro c
        simp only [broadcast_recipient, (hsame c).1, (hsame c).2]
      have hcount : recipient_count
          { kmsgs := Function.update w.kmsgs kmsg
              { w.kmsgs kmsg with kref := (w.kmsgs kmsg).kref + 1 }
            conns := Function.update w.conns a
              { w.conns a with msg_list := (w.conns a).msg_list ++ [kmsg] } }
          (w.kmsgs kmsg).msg.src_id pre = recipient_count w (w.kmsgs kmsg).msg.src_id pre :=
        recipient_count_congr _ _ _ _ hsame
      have hret : ∀ b, (kdbus_conn_enqueue_kmsg b
          { kmsgs := Function.update w.kmsgs kmsg
              { w.kmsgs kmsg with kref := (w.kmsgs kmsg).kref + 1 }
            conns := Function.update w.conns a
              { w.conns a with msg_list := (w.conns a).msg_list ++ [kmsg] } } f kmsg).1 =
          (kdbus_conn_enqueue_kmsg b w f kmsg).1 := by
        intro b
        rw [enqueue_ret, enqueue_ret]
        simp only [Function.update_noteq haf]
      obtain ⟨h1, h2⟩ := ih (n + 1)
        { kmsgs := Function.update w.kmsgs kmsg
            { w.kmsgs kmsg with kref := (w.kmsgs kmsg).kref + 1 }
          conns := Function.update w.conns a
            { w.conns a with msg_list := (w.conns a).msg_list ++ [kmsg] } }
        hnd1
        (by
          intro c hc hr
          simp only [Function.update_same] at hr
          have hca : c ≠ a := fun h => hapre (h ▸ hc)
          simp only [Function.update_noteq hca]
          exact hact1 c hc ((hrecw c).mp hr))
        (by
          intro i hi
          simp only [Function.update_same, hcount] at hi
          have := hk (i + 1) (by omega)
          rw [show n + 1 + i = n + (i + 1) by omega]
          exact this)
        (by
          simp only [Function.update_same]
          exact (hrecw f).mpr hf)
        (by
          simp only [Function.update_same, hcount, hret]
          rw [show n + 1 + recipient_count w (w.kmsgs kmsg).msg.src_id pre =
            n + (1 + recipient_count w (w.kmsgs kmsg).msg.src_id pre) by omega]
          exact hfail)
      simp only [Function.update_same, hcount, hret] at h1 h2
      refine ⟨?_, fun c => ?_⟩
      · rw [h1]
        rw [show n + 1 + recipient_count w (w.kmsgs kmsg).msg.src_id pre =
          n + (1 + recipient_count w (w.kmsgs kmsg).msg.src_id pre) by omega]
      · rw [h2 c]
        by_cases hca : c = a
        · subst hca
          simp [hapre, hrec, conn_enqueued]
        · simp [hca, broadcast_recipient, Function.update_noteq hca]
    · -- `a` is skipped
      simp only [hrec, if_false, Nat.zero_add] at hk hfail ⊢
      have hskip : kdbus_kmsg_send_broadcast kzalloc_entry kmsg (a :: (pre ++ f :: post)) n 0 w =
          kdbus_kmsg_send_broadcast kzalloc_entry kmsg (pre ++ f :: post) n 0 w := by
        rw [kdbus_kmsg_send_broadcast]
        by_cases hty : (w.conns a).type ≠ .KDBUS_CONN_EP
        · rw [if_pos hty]
        · rw [if_neg hty]
          have hid : (w.conns a).id = (w.kmsgs kmsg).msg.src_id := by
            by_contra hid
            exact hrec ⟨not_not.mp hty, hid⟩
          rw [if_pos hid]
      rw [← kdbus_kmsg_send_broadcast, hskip]
      obtain ⟨h1, h2⟩ := ih n w hnd1 hact1 hk hf hfail
      refine ⟨h1, fun c => ?_⟩
      rw [h2 c]
      by_cases hca : c = a
      · subst hca
        simp [hrec]
      · simp [hca]

/-- Claim C11: a broadcast with timeout 0 on an endpoint whose connection list
is `pre ++ f :: post` (pairwise distinct), where the recipients in `pre` are
active and get their queue entries and the enqueue into the recipient `f`
fails (it is inactive, or its entry cannot be allocated).  Then
`kdbus_kmsg_send` returns the error of that enqueue, every recipient in `pre`
has the envelope at the tail of its queue, and every other connection, those
of `post` included, is unchanged.  Both `krealloc` calls succeed and the
envelope is one that `kdbus_kmsg_new_from_user` can hand over. -/
theorem send_broadcast_first_failure (env : send_env) (w : World) (ep : kdbus_ep)
    (kmsg : Nat) (pre post : List Nat) (f : Nat)
    (hts : env.krealloc_timestamp = true) (hcr : env.krealloc_cred = true)
    (hhdr : KDBUS_MSG_HEADER_SIZE ≤ (w.kmsgs kmsg).msg.size)
    (hsz : (w.kmsgs kmsg).msg.size + KDBUS_MSG_DATA_SIZE 8 < U64)
    (hdst : (w.kmsgs kmsg).msg.dst_id = KDBUS_DST_ID_BROADCAST)
    (hto : (w.kmsgs kmsg).msg.timeout = 0)
    (hlist : ep.connection_list = pre ++ f :: post)
    (hnd : ep.connection_list.Nodup)
    (hact : ∀ c ∈ pre, broadcast_recipient w (w.kmsgs kmsg).msg.src_id c →
      (w.conns c).active = true)
    (hk : ∀ i, i < recipient_count w (w.kmsgs kmsg).msg.src_id pre →
      env.kzalloc_entry i = true)
    (hf : broadcast_recipient w (w.kmsgs kmsg).msg.src_id f)
    (hfail : (kdbus_conn_enqueue_kmsg
      (env.kzalloc_entry (recipient_count w (w.kmsgs kmsg).msg.src_id pre)) w f kmsg).1 < 0) :
    ∃ w1, kdbus_kmsg_send env w ep kmsg =
        some ((kdbus_conn_enqueue_kmsg
          (env.kzalloc_entry (recipient_count w (w.kmsgs kmsg).msg.src_id pre)) w f kmsg).1,
          w1) ∧
      ∀ c, w1.conns c =
        if c ∈ pre ∧ broadcast_recipient w (w.kmsgs kmsg).msg.src_id c
        then conn_enqueued (w.conns c) kmsg else w.conns c := by
  obtain ⟨k1, now_ns, k2, h1, h2, hd, hs, ht, -, -, -⟩ :=
    send_augment env (w.kmsgs kmsg) hts hcr hhdr hsz
  have hres : ∀ w1 : World, kdbus_kmsg_send_resolve env w1 k2.msg = some (.ok none) := by
    intro w1
    unfold kdbus_kmsg_send_resolve
    rw [hd, hdst, if_neg broadcast_not_well_known]
    simp
  have hsrc : (({ w with kmsgs := Function.update w.kmsgs kmsg k2 } : World).kmsgs kmsg).msg.src_id
      = (w.kmsgs kmsg).msg.src_id := by
    simp only [Function.update_same, hs]
  have hret : ∀ b, (kdbus_conn_enqueue_kmsg b
      ({ w with kmsgs := Function.update w.kmsgs kmsg k2 } : World) f kmsg).1 =
      (kdbus_conn_enqueue_kmsg b w f kmsg).1 := by
    intro b
    rw [enqueue_ret, enqueue_ret]
  obtain ⟨hr, hconns⟩ := send_broadcast_stops env.kzalloc_entry kmsg f post pre 0
    { w with kmsgs := Function.update w.kmsgs kmsg k2 } (hlist ▸ hnd)
    (by rw [hsrc]; exact hact)
    (by rw [hsrc]; intro i hi; rw [Nat.zero_add]; exact hk i hi)
    (by rw [hsrc]; exact hf)
    (by rw [hsrc, hret, Nat.zero_add]; exact hfail)
  rw [hsrc, hret, Nat.zero_add] at hr
  rw [hsrc] at hconns
  unfold kdbus_kmsg_send
  simp only [h1, h2, hres]
  rw [ht, hto, hlist]
  simp only [ne_eq, not_true_eq_false, if_false]
  exact ⟨(kdbus_kmsg_send_broadcast env.kzalloc_entry kmsg (pre ++ f :: post) 0 0
    { w with kmsgs := Function.update w.kmsgs kmsg k2 }).2,
    congrArg some (Prod.ext hr rfl), hconns⟩

/-- Witness of C11: four endpoint connections, the first the sender, the third
inactive; the error returned is `-EAGAIN`. -/
theorem send_broadcast_first_failure_witness :
    (∃ w1, kdbus_kmsg_send {} (inactive_third_world (broadcast_msg 0)) four_conn_ep 7 =
        some ((kdbus_conn_enqueue_kmsg
          (({} : send_env).kzalloc_entry (recipient_count (inactive_third_world (broadcast_msg 0))
            ((inactive_third_world (broadcast_msg 0)).kmsgs 7).msg.src_id [1, 2]))
          (inactive_third_world (broadcast_msg 0)) 3 7).1, w1) ∧
      ∀ c, w1.conns c =
        if c ∈ [1, 2] ∧ broadcast_recipient (inactive_third_world (broadcast_msg 0))
            ((inactive_third_world (broadcast_msg 0)).kmsgs 7).msg.src_id c
        then conn_enqueued ((inactive_third_world (broadcast_msg 0)).conns c) 7
        else (inactive_third_world (broadcast_msg 0)).conns c) ∧
    (kdbus_conn_enqueue_kmsg
      (({} : send_env).kzalloc_entry (recipient_count (inactive_third_world (broadcast_msg 0))
        ((inactive_third_world (broadcast_msg 0)).kmsgs 7).msg.src_id [1, 2]))
      (inactive_third_world (broadcast_msg 0)) 3 7).1 = -EAGAIN :=
  ⟨send_broadcast_first_failure {} (inactive_third_world (broadcast_msg 0)) four_conn_ep 7
    [1, 2] [4] 3 rfl rfl (by decide) (by decide) rfl rfl rfl (by decide) (by decide)
    (fun _ _ => rfl) (by decide) (by decide), by decide⟩

/-! ## kdbus_kmsg_send: the items after augmentation -/

theorem KDBUS_MSG_DATA_SIZE_creds : KDBUS_MSG_DATA_SIZE SIZEOF_KDBUS_CREDS = 48 := by decide

theorem append_timestamp_spec (tv_sec tv_nsec : Nat) (k : kdbus_kmsg)
    (hhdr : KDBUS_MSG_HEADER_SIZE ≤ k.msg.size) :
    ∃ k1, kdbus_kmsg_append_timestamp true tv_sec tv_nsec k =
        some (k1, (tv_sec * 1000000000 + tv_nsec) % U64) ∧
      k1.msg.data = Function.update k.msg.data (k.msg.size - KDBUS_MSG_HEADER_SIZE)
        (timestamp_item k.msg.data (k.msg.size - KDBUS_MSG_HEADER_SIZE)
          ((tv_sec * 1000000000 + tv_nsec) % U64)) ∧
      k1.msg.size = (k.msg.size + KDBUS_MSG_DATA_SIZE 8) % U64 ∧
      k1.msg.dst_id = k.msg.dst_id ∧ k1.msg.src_id = k.msg.src_id ∧
      k1.msg.timeout = k.msg.timeout ∧ k1.msg.flags = k.msg.flags ∧
      k1.kref = k.kref ∧ k1.deadline = k.deadline := by
  unfold kdbus_kmsg_append_timestamp kdbus_kmsg_append_data
  simp only [Bool.not_true, Bool.false_eq_true, if_false, if_neg (Nat.not_lt_of_le hhdr)]
  refine ⟨_, rfl, ?_, rfl, rfl, rfl, rfl, rfl, rfl, rfl⟩
  simp [timestamp_item, Function.update_idem]

theorem append_cred_spec (creds : kdbus_creds) (k : kdbus_kmsg)
    (hhdr : KDBUS_MSG_HEADER_SIZE ≤ k.msg.size) :
    ∃ k1, kdbus_kmsg_append_cred true creds k = some k1 ∧
      k1.msg.data = Function.update k.msg.data (k.msg.size - KDBUS_MSG_HEADER_SIZE)
        (creds_item k.msg.data (k.msg.size - KDBUS_MSG_HEADER_SIZE) creds) ∧
      k1.msg.size = (k.msg.size + KDBUS_MSG_DATA_SIZE SIZEOF_KDBUS_CREDS) % U64 ∧
      k1.msg.dst_id = k.msg.dst_id ∧ k1.msg.src_id = k.msg.src_id ∧
      k1.msg.timeout = k.msg.timeout ∧ k1.msg.flags = k.msg.flags ∧
      k1.kref = k.kref ∧ k1.deadline = k.deadline := by
  unfold kdbus_kmsg_append_cred kdbus_kmsg_append_data
  simp only [Bool.not_true, Bool.false_eq_true, if_false, if_neg (Nat.not_lt_of_le hhdr)]
  refine ⟨_, rfl, ?_, rfl, rfl, rfl, rfl, rfl, rfl, rfl⟩
  simp [creds_item, Function.update_idem]

/-- The augmentation step in full: with both `krealloc` calls succeeding on an
envelope that has its header and stays below 2^64, the timestamp item lands at
the old end of the body, the credentials item right behind it, the size grows
by both and nothing else changes. -/
theorem send_augment_spec (env : send_env) (k : kdbus_kmsg)
    (hts : env.krealloc_timestamp = true) (hcr : env.krealloc_cred = true)
    (hhdr : KDBUS_MSG_HEADER_SIZE ≤ k.msg.size)
    (hsz : k.msg.size + KDBUS_MSG_DATA_SIZE 8 + KDBUS_MSG_DATA_SIZE SIZEOF_KDBUS_CREDS < U64) :
    ∃ k2, kdbus_kmsg_send_augment env k =
        some (k2, (env.tv_sec * 1000000000 + env.tv_nsec) % U64) ∧
      k2.msg.data =
        Function.update
          (Function.update k.msg.data (k.msg.size - KDBUS_MSG_HEADER_SIZE)
            (timestamp_item k.msg.data (k.msg.size - KDBUS_MSG_HEADER_SIZE)
              ((env.tv_sec * 1000000000 + env.tv_nsec) % U64)))
          (k.msg.size - KDBUS_MSG_HEADER_SIZE + KDBUS_MSG_DATA_SIZE 8)
          (creds_item k.msg.data
            (k.msg.size - KDBUS_MSG_HEADER_SIZE + KDBUS_MSG_DATA_SIZE 8) env.creds) ∧
      k2.msg.size =
        k.msg.size + KDBUS_MSG_DATA_SIZE 8 + KDBUS_MSG_DATA_SIZE SIZEOF_KDBUS_CREDS ∧
      k2.msg.dst_id = k.msg.dst_id ∧ k2.msg.src_id = k.msg.src_id ∧
      k2.msg.timeout = k.msg.timeout ∧ k2.msg.flags = k.msg.flags ∧
      k2.kref = k.kref ∧ k2.deadline = k.deadline := by
  obtain ⟨k1, h1, h1data, h1sz, h1dst, h1src, h1to, h1fl, h1kr, h1dl⟩ :=
    append_timestamp_spec env.tv_sec env.tv_nsec k hhdr
  have h24 := KDBUS_MSG_DATA_SIZE_u64
  have h48 := KDBUS_MSG_DATA_SIZE_creds
  have h56 : KDBUS_MSG_HEADER_SIZE = 56 := rfl
  have hk1sz : k1.msg.size = k.msg.size + KDBUS_MSG_DATA_SIZE 8 := by
    rw [h1sz]
    exact Nat.mod_eq_of_lt (by omega)
  have hk1 : KDBUS_MSG_HEADER_SIZE ≤ k1.msg.size := by omega
  obtain ⟨k2, h2, h2data, h2sz, h2dst, h2src, h2to, h2fl, h2kr, h2dl⟩ :=
    append_cred_spec env.creds k1 hk1
  have hoff : k1.msg.size - KDBUS_MSG_HEADER_SIZE =
      k.msg.size - KDBUS_MSG_HEADER_SIZE + KDBUS_MSG_DATA_SIZE 8 := by omega
  have hne : k.msg.size - KDBUS_MSG_HEADER_SIZE + KDBUS_MSG_DATA_SIZE 8 ≠
      k.msg.size - KDBUS_MSG_HEADER_SIZE := by omega
  refine ⟨k2, ?_, ?_, ?_, ?_⟩
  · unfold kdbus_kmsg_send_augment
    rw [hts, hcr, h1]
    simp only [h2]
  · rw [h2data, hoff, h1data]
    simp only [creds_item, Function.update_noteq hne]
  · rw [h2sz, hk1sz]
    exact Nat.mod_eq_of_lt hsz
  · simp only [h2dst, h2src, h2to, h2fl, h2kr, h2dl, h1dst, h1src, h1to, h1fl, h1kr, h1dl,
      and_self]

/-- The walk of `kdbus_msg_dump` over items that partition the remaining
bytes, each of positive size, yields exactly those items. -/
theorem dump_loop_partition (mem : Nat → kdbus_msg_data) :
    ∀ (its : List kdbus_msg_data) (fuel size data : Nat), size < fuel →
      items_partition mem data size its → (∀ d ∈ its, 0 < d.size) →
      kdbus_msg_dump_loop mem fuel size data = some its := by
  intro its
  induction its with
  | nil =>
    intro fuel size data hfuel hpart _
    have h0 : size = 0 := hpart
    cases fuel with
    | zero => exact absurd hfuel (Nat.not_lt_zero _)
    | succ n =>
      unfold kdbus_msg_dump_loop
      simp [h0]
  | cons d ds ih =>
    intro fuel size data hfuel hpart hpos
    obtain ⟨hmem, hle, hrest⟩ := hpart
    have hd : 0 < d.size := hpos d (List.mem_cons_self _ _)
    cases fuel with
    | zero => exact absurd hfuel (Nat.not_lt_zero _)
    | succ n =>
      have hcond : 0 < size ∧ d.size ≤ size := ⟨by omega, hle⟩
      unfold kdbus_msg_dump_loop
      simp only [hmem, if_pos hcond]
      rw [ih n (size - d.size) (data + d.size) (by omega) hrest
        (fun x hx => hpos x (List.mem_cons_of_mem _ hx))]

/-- Items that partition `rest` bytes of `mem` from `off`, followed in `mem1`
(which agrees with `mem` below `off + rest`) by items that partition `extra`
more bytes, partition `rest + extra` bytes of `mem1`. -/
theorem items_partition_append (mem mem1 : Nat → kdbus_msg_data) (more : List kdbus_msg_data)
    (extra : Nat) :
    ∀ (its : List kdbus_msg_data) (off rest : Nat),
      items_partition mem off rest its → (∀ d ∈ its, 0 < d.size) →
      (∀ p, p < off + rest → mem1 p = mem p) →
      items_partition mem1 (off + rest) extra more →
      items_partition mem1 off (rest + extra) (its ++ more) := by
  intro its
  induction its with
  | nil =>
    intro off rest hpart _ _ hmore
    have h0 : rest = 0 := hpart
    subst h0
    simpa using hmore
  | cons d ds ih =>
    intro off rest hpart hpos hagree hmore
    obtain ⟨hmem, hle, hrest⟩ := hpart
    have hd : 0 < d.size := hpos d (List.mem_cons_self _ _)
    refine ⟨?_, by omega, ?_⟩
    · rw [hagree off (by omega)]
      exact hmem
    · have := ih (off + d.size) (rest - d.size) hrest
        (fun x hx => hpos x (List.mem_cons_of_mem _ hx))
        (fun p hp => hagree p (by omega))
        (by rw [show off + d.size + (rest - d.size) = off + rest by omega]; exact hmore)
      rw [show rest + extra - d.size = rest - d.size + extra by omega]
      exact this

/-- Claim C12: for an envelope whose `n` client items (each of positive size)
partition its body exactly, the augmentation step of `kdbus_kmsg_send` gives an
envelope on which the item walk yields `n + 2` items: the `n` original items
unchanged and in order, then one `KDBUS_MSG_TIMESTAMP` item carrying `now_ns`,
then one `KDBUS_MSG_SRC_CREDS` item carrying the caller's credentials; and
`msg->size` has grown by exactly the sizes of the two new items.  Both
`krealloc` calls succeed and the grown size stays below 2^64. -/
theorem augment_item_walk (env : send_env) (k : kdbus_kmsg) (its : List kdbus_msg_data)
    (hts : env.krealloc_timestamp = true) (hcr : env.krealloc_cred = true)
    (hhdr : KDBUS_MSG_HEADER_SIZE ≤ k.msg.size)
    (hsz : k.msg.size + KDBUS_MSG_DATA_SIZE 8 + KDBUS_MSG_DATA_SIZE SIZEOF_KDBUS_CREDS < U64)
    (hpart : items_partition k.msg.data 0 (k.msg.size - KDBUS_MSG_HEADER_SIZE) its)
    (hpos : ∀ d ∈ its, 0 < d.size) :
    ∃ k2 now_ns ts cr, kdbus_kmsg_send_augment env k = some (k2, now_ns) ∧
      kdbus_msg_dump k2.msg = some (its ++ [ts, cr]) ∧
      (its ++ [ts, cr]).length = its.length + 2 ∧
      ts.type = KDBUS_MSG_TIMESTAMP ∧ ts.ts_ns = now_ns ∧
      cr.type = KDBUS_MSG_SRC_CREDS ∧ cr.creds = env.creds ∧
      k2.msg.size = k.msg.size + ts.size + cr.size := by
  obtain ⟨k2, haug, hdata, hsize, -⟩ := send_augment_spec env k hts hcr hhdr hsz
  have h24 := KDBUS_MSG_DATA_SIZE_u64
  have h48 := KDBUS_MSG_DATA_SIZE_creds
  have h56 : KDBUS_MSG_HEADER_SIZE = 56 := rfl
  refine ⟨k2, _, timestamp_item k.msg.data (k.msg.size - KDBUS_MSG_HEADER_SIZE)
      ((env.tv_sec * 1000000000 + env.tv_nsec) % U64),
    creds_item k.msg.data (k.msg.size - KDBUS_MSG_HEADER_SIZE + KDBUS_MSG_DATA_SIZE 8)
      env.creds, haug, ?_, by simp, rfl, rfl, rfl, rfl, hsize⟩
  have hne : k.msg.size - KDBUS_MSG_HEADER_SIZE ≠
      k.msg.size - KDBUS_MSG_HEADER_SIZE + KDBUS_MSG_DATA_SIZE 8 := by omega
  have hmore : items_partition k2.msg.data (0 + (k.msg.size - KDBUS_MSG_HEADER_SIZE))
      (KDBUS_MSG_DATA_SIZE 8 + KDBUS_MSG_DATA_SIZE SIZEOF_KDBUS_CREDS)
      [timestamp_item k.msg.data (k.msg.size - KDBUS_MSG_HEADER_SIZE)
        ((env.tv_sec * 1000000000 + env.tv_nsec) % U64),
       creds_item k.msg.data (k.msg.size - KDBUS_MSG_HEADER_SIZE + KDBUS_MSG_DATA_SIZE 8)
        env.creds] := by
    rw [Nat.zero_add, hdata]
    refine ⟨?_, ?_, ?_, ?_, ?_⟩
    · rw [Function.update_noteq hne, Function.update_same]
    · simp only [timestamp_item]; omega
    · simp only [timestamp_item]
      rw [Function.update_same]
    · simp only [timestamp_item, creds_item]; omega
    · show _ - _ - _ = 0
      simp only [timestamp_item, creds_item]; omega
  have hall := items_partition_append k.msg.data k2.msg.data _ _ its 0
    (k.msg.size - KDBUS_MSG_HEADER_SIZE) hpart hpos
    (by
      intro p hp
      have hp1 : p ≠ k.msg.size - KDBUS_MSG_HEADER_SIZE + KDBUS_MSG_DATA_SIZE 8 := by omega
      have hp2 : p ≠ k.msg.size - KDBUS_MSG_HEADER_SIZE := by omega
      rw [hdata, Function.update_noteq hp1, Function.update_noteq hp2])
    hmore
  unfold kdbus_msg_dump
  have hsub : u64_sub k2.msg.size KDBUS_MSG_HEADER_SIZE =
      k.msg.size - KDBUS_MSG_HEADER_SIZE +
        (KDBUS_MSG_DATA_SIZE 8 + KDBUS_MSG_DATA_SIZE SIZEOF_KDBUS_CREDS) := by
    unfold u64_sub
    rw [if_pos (by omega), hsize]
    omega
  simp only [hsub]
  apply dump_loop_partition _ _ _ _ _ (Nat.lt_succ_self _) hall
  intro d hd
  simp only [List.mem_append, List.mem_cons, List.mem_singleton, List.not_mem_nil,
    or_false] at hd
  rcases hd with hd | hd | hd
  · exact hpos d hd
  · subst hd; simp only [timestamp_item]; omega
  · subst hd; simp only [creds_item]; omega

/-- Witness of C12: one payload item of 24 bytes gives three items. -/
theorem augment_item_walk_witness :
    ∃ k2 now_ns ts cr,
      kdbus_kmsg_send_augment {} { kref := 1, deadline := 0, msg := broadcast_msg 0 } =
        some (k2, now_ns) ∧
      kdbus_msg_dump k2.msg = some ([{ size := 24, type := KDBUS_MSG_PAYLOAD }] ++ [ts, cr]) ∧
      ([({ size := 24, type := KDBUS_MSG_PAYLOAD } : kdbus_msg_data)] ++ [ts, cr]).length =
        [({ size := 24, type := KDBUS_MSG_PAYLOAD } : kdbus_msg_data)].length + 2 ∧
      ts.type = KDBUS_MSG_TIMESTAMP ∧ ts.ts_ns = now_ns ∧
      cr.type = KDBUS_MSG_SRC_CREDS ∧ cr.creds = ({} : send_env).creds ∧
      k2.msg.size = (broadcast_msg 0).size + ts.size + cr.size :=
  augment_item_walk {} { kref := 1, deadline := 0, msg := broadcast_msg 0 }
    [{ size := 24, type := KDBUS_MSG_PAYLOAD }] rfl rfl (by decide) (by decide) (by decide)
    (by decide)

/-! ## kdbus_kmsg_send: unicast -/

/-- The function `kdbus_kmsg_send` after a successful augmentation step, in
terms of the destination lookup and the two delivery branches. -/
theorem send_of_augment (env : send_env) (w : World) (ep : kdbus_ep) (kmsg : Nat)
    (k2 : kdbus_kmsg) (now_ns : Nat)
    (haug : kdbus_kmsg_send_augment env (w.kmsgs kmsg) = some (k2, now_ns)) :
    kdbus_kmsg_send env w ep kmsg =
      match kdbus_kmsg_send_resolve env
          { w with kmsgs := Function.update w.kmsgs kmsg k2 } k2.msg with
      | none => none
      | some (.error e) => some (e, { w with kmsgs := Function.update w.kmsgs kmsg k2 })
      | some (.ok (some conn_dst)) =>
        some (kdbus_kmsg_send_direct env { w with kmsgs := Function.update w.kmsgs kmsg k2 }
          k2.msg now_ns conn_dst kmsg)
      | some (.ok none) =>
        if k2.msg.timeout ≠ 0 then
          some (-EINVAL, { w with kmsgs := Function.update w.kmsgs kmsg k2 })
        else
          some (kdbus_kmsg_send_broadcast env.kzalloc_entry kmsg ep.connection_list 0 0
            { w with kmsgs := Function.update w.kmsgs kmsg k2 }) := by
  unfold kdbus_kmsg_send_augment at haug
  cases h1 : kdbus_kmsg_append_timestamp env.krealloc_timestamp env.tv_sec env.tv_nsec
      (w.kmsgs kmsg) with
  | none => rw [h1] at haug; cases haug
  | some r1 =>
    obtain ⟨k1, n1⟩ := r1
    rw [h1] at haug
    simp only at haug
    cases h2 : kdbus_kmsg_append_cred env.krealloc_cred env.creds k1 with
    | none => rw [h2] at haug; cases haug
    | some k2a =>
      rw [h2] at haug
      simp only [Option.some.injEq, Prod.mk.injEq] at haug
      obtain ⟨hk, hn⟩ := haug
      subst hk hn
      unfold kdbus_kmsg_send
      simp only [h1, h2]
      rfl

theorem enqueue_kmsgs (b : Bool) (w : World) (c k k1 : Nat) :
    ((kdbus_conn_enqueue_kmsg b w c k).2.kmsgs k1).deadline = (w.kmsgs k1).deadline ∧
    ((kdbus_conn_enqueue_kmsg b w c k).2.kmsgs k1).msg = (w.kmsgs k1).msg := by
  unfold kdbus_conn_enqueue_kmsg
  cases h1 : (w.conns c).active <;> cases h2 : b <;> simp
  by_cases hk : k1 = k
  · subst hk; simp
  · simp [Function.update_noteq hk]

/-! ## kdbus_kmsg_send: well-known names -/

/-- On items that partition the remaining bytes, each of positive size,
`kdbus_msg_get_data` with index 0 finds the first item of the type, and
returns `NULL` when there is none. -/
theorem get_data_loop_partition (mem : Nat → kdbus_msg_data) (ty : kdbus_msg_type) :
    ∀ (its : List kdbus_msg_data) (fuel size data : Nat), size < fuel →
      items_partition mem data size its → (∀ d ∈ its, 0 < d.size) →
      (first_of_type its ty = none →
        kdbus_msg_get_data_loop mem ty fuel size data 0 = some none) ∧
      (∀ d, first_of_type its ty = some d →
        ∃ off, kdbus_msg_get_data_loop mem ty fuel size data 0 = some (some off) ∧
          mem off = d) := by
  intro its
  induction its with
  | nil =>
    intro fuel size data hfuel hpart _
    have h0 : size = 0 := hpart
    cases fuel with
    | zero => exact absurd hfuel (Nat.not_lt_zero _)
    | succ n =>
      refine ⟨fun _ => ?_, fun d hd => ?_⟩
      · unfold kdbus_msg_get_data_loop
        simp [h0]
      · simp [first_of_type] at hd
  | cons d ds ih =>
    intro fuel size data hfuel hpart hpos
    obtain ⟨hmem, hle, hrest⟩ := hpart
    have hd : 0 < d.size := hpos d (List.mem_cons_self _ _)
    cases fuel with
    | zero => exact absurd hfuel (Nat.not_lt_zero _)
    | succ n =>
      have hcond : 0 < size ∧ d.size ≤ size := ⟨by omega, hle⟩
      obtain ⟨ih1, ih2⟩ := ih n (size - d.size) (data + d.size) (by omega) hrest
        (fun x hx => hpos x (List.mem_cons_of_mem _ hx))
      unfold kdbus_msg_get_data_loop
      simp only [hmem, if_pos hcond]
      by_cases hty : d.type = ty
      · simp only [hty, if_true]
        refine ⟨fun h => ?_, fun x hx => ?_⟩
        · simp [first_of_type, List.find?_cons, hty] at h
        · simp only [first_of_type, List.find?_cons, hty, decide_True,
            Option.some.injEq] at hx
          exact ⟨data, rfl, by rw [hmem, hx]⟩
      · simp only [hty, if_false]
        refine ⟨fun h => ?_, fun x hx => ?_⟩
        · apply ih1
          simpa [first_of_type, List.find?_cons, hty] using h
        · apply ih2
          simpa [first_of_type, List.find?_cons, hty] using hx

theorem resolve_no_name (env : send_env) (w : World) (msg : kdbus_msg)
    (hdst : msg.dst_id = KDBUS_DST_ID_WELL_KNOWN_NAME)
    (hget : kdbus_msg_get_data msg KDBUS_MSG_DST_NAME 0 = some none) :
    kdbus_kmsg_send_resolve env w msg = some (.error (-EINVAL)) := by
  unfold kdbus_kmsg_send_resolve
  rw [if_pos hdst, hget]

theorem resolve_name (env : send_env) (w : World) (msg : kdbus_msg) (off : Nat)
    (hdst : msg.dst_id = KDBUS_DST_ID_WELL_KNOWN_NAME)
    (hget : kdbus_msg_get_data msg KDBUS_MSG_DST_NAME 0 = some (some off)) :
    kdbus_kmsg_send_resolve env w msg =
      match name_lookup_conn env (msg.data off).data with
      | none => some (.error (-ENOENT))
      | some c =>
        if msg.flags &&& KDBUS_MSG_FLAGS_NO_AUTO_START ≠ 0 ∧ (w.conns c).starter then
          some (.error (-ENOENT))
        else some (.ok (some c)) := by
  unfold kdbus_kmsg_send_resolve name_lookup_conn
  rw [if_pos hdst, hget]

/-- The lookup of the destination name on the augmented envelope: for client
items that partition the body, `kdbus_msg_get_data` on the envelope with the
two server items finds the first `KDBUS_MSG_DST_NAME` item among the client
items, unchanged, or nothing when there is none. -/
theorem augment_get_name (env : send_env) (k : kdbus_kmsg) (its : List kdbus_msg_data)
    (hts : env.krealloc_timestamp = true) (hcr : env.krealloc_cred = true)
    (hhdr : KDBUS_MSG_HEADER_SIZE ≤ k.msg.size)
    (hsz : k.msg.size + KDBUS_MSG_DATA_SIZE 8 + KDBUS_MSG_DATA_SIZE SIZEOF_KDBUS_CREDS < U64)
    (hpart : items_partition k.msg.data 0 (k.msg.size - KDBUS_MSG_HEADER_SIZE) its)
    (hpos : ∀ d ∈ its, 0 < d.size) :
    ∃ k2, kdbus_kmsg_send_augment env k =
        some (k2, (env.tv_sec * 1000000000 + env.tv_nsec) % U64) ∧
      k2.msg.dst_id = k.msg.dst_id ∧ k2.msg.flags = k.msg.flags ∧
      (first_of_type its KDBUS_MSG_DST_NAME = none →
        kdbus_msg_get_data k2.msg KDBUS_MSG_DST_NAME 0 = some none) ∧
      (∀ d, first_of_type its KDBUS_MSG_DST_NAME = some d →
        ∃ off, kdbus_msg_get_data k2.msg KDBUS_MSG_DST_NAME 0 = some (some off) ∧
          k2.msg.data off = d) := by
  obtain ⟨k2, haug, hdata, hsize, hdst, -, -, hfl, -, -⟩ :=
    send_augment_spec env k hts hcr hhdr hsz
  have h24 := KDBUS_MSG_DATA_SIZE_u64
  have h48 := KDBUS_MSG_DATA_SIZE_creds
  have h56 : KDBUS_MSG_HEADER_SIZE = 56 := rfl
  have hne : k.msg.size - KDBUS_MSG_HEADER_SIZE ≠
      k.msg.size - KDBUS_MSG_HEADER_SIZE + KDBUS_MSG_DATA_SIZE 8 := by omega
  have hmore : items_partition k2.msg.data (0 + (k.msg.size - KDBUS_MSG_HEADER_SIZE))
      (KDBUS_MSG_DATA_SIZE 8 + KDBUS_MSG_DATA_SIZE SIZEOF_KDBUS_CREDS)
      [timestamp_item k.msg.data (k.msg.size - KDBUS_MSG_HEADER_SIZE)
        ((env.tv_sec * 1000000000 + env.tv_nsec) % U64),
       creds_item k.msg.data (k.msg.size - KDBUS_MSG_HEADER_SIZE + KDBUS_MSG_DATA_SIZE 8)
        env.creds] := by
    rw [Nat.zero_add, hdata]
    refine ⟨?_, ?_, ?_, ?_, ?_⟩
    · rw [Function.update_noteq hne, Function.update_same]
    · simp only [timestamp_item]; omega
    · simp only [timestamp_item]
      rw [Function.update_same]
    · simp only [timestamp_item, creds_item]; omega
    · show _ - _ - _ = 0
      simp only [timestamp_item, creds_item]; omega
  have hall := items_partition_append k.msg.data k2.msg.data _ _ its 0
    (k.msg.size - KDBUS_MSG_HEADER_SIZE) hpart hpos
    (by
      intro p hp
      have hp1 : p ≠ k.msg.size - KDBUS_MSG_HEADER_SIZE + KDBUS_MSG_DATA_SIZE 8 := by omega
      have hp2 : p ≠ k.msg.size - KDBUS_MSG_HEADER_SIZE := by omega
      rw [hdata, Function.update_noteq hp1, Function.update_noteq hp2])
    hmore
  have hsub : u64_sub k2.msg.size KDBUS_MSG_HEADER_SIZE =
      k.msg.size - KDBUS_MSG_HEADER_SIZE +
        (KDBUS_MSG_DATA_SIZE 8 + KDBUS_MSG_DATA_SIZE SIZEOF_KDBUS_CREDS) := by
    unfold u64_sub
    rw [if_pos (by omega), hsize]
    omega
  have hpos2 : ∀ d ∈ its ++
      [timestamp_item k.msg.data (k.msg.size - KDBUS_MSG_HEADER_SIZE)
        ((env.tv_sec * 1000000000 + env.tv_nsec) % U64),
       creds_item k.msg.data (k.msg.size - KDBUS_MSG_HEADER_SIZE + KDBUS_MSG_DATA_SIZE 8)
        env.creds], 0 < d.size := by
    intro d hd
    simp only [List.mem_append, List.mem_cons, List.mem_singleton, List.not_mem_nil,
      or_false] at hd
    rcases hd with hd | hd | hd
    · exact hpos d hd
    · subst hd; simp only [timestamp_item]; omega
    · subst hd; simp only [creds_item]; omega
  have hfind : first_of_type (its ++
      [timestamp_item k.msg.data (k.msg.size - KDBUS_MSG_HEADER_SIZE)
        ((env.tv_sec * 1000000000 + env.tv_nsec) % U64),
       creds_item k.msg.data (k.msg.size - KDBUS_MSG_HEADER_SIZE + KDBUS_MSG_DATA_SIZE 8)
        env.creds]) KDBUS_MSG_DST_NAME = first_of_type its KDBUS_MSG_DST_NAME := by
    simp [first_of_type, List.find?_append, timestamp_item, creds_item]
  obtain ⟨hg1, hg2⟩ := get_data_loop_partition k2.msg.data KDBUS_MSG_DST_NAME _
    (u64_sub k2.msg.size KDBUS_MSG_HEADER_SIZE + 1) (u64_sub k2.msg.size KDBUS_MSG_HEADER_SIZE)
    0 (Nat.lt_succ_self _) (by rw [hsub]; exact hall) hpos2
  rw [hfind] at hg1 hg2
  exact ⟨k2, haug, hdst, hfl, hg1, hg2⟩

/-- Claim C13: for an envelope whose client items partition the body, when the
destination of `kdbus_kmsg_send` is a connection, found by id
(`kdbus_bus_find_conn_by_id` on a `dst_id` that is neither sentinel) or by name
(the name of the first `KDBUS_MSG_DST_NAME` item resolves to it and the starter
rule does not block it), and the timeout is nonzero, the envelope ends up with
`deadline = (now + timeout) mod 2^64`, where `now` is the value of the
`KDBUS_MSG_TIMESTAMP` item appended to it, `(tv_sec * 10^9 + tv_nsec) mod 2^64`
of the monotonic clock.  The timeout sweep `kdbus_conn_scan_timeout` (not in
message.c) is taken to leave the deadline and the message of the envelope as
they are. -/
theorem send_unicast_deadline (env : send_env) (w : World) (ep : kdbus_ep) (kmsg c : Nat)
    (its : List kdbus_msg_data)
    (hts : env.krealloc_timestamp = true) (hcr : env.krealloc_cred = true)
    (hhdr : KDBUS_MSG_HEADER_SIZE ≤ (w.kmsgs kmsg).msg.size)
    (hsz : (w.kmsgs kmsg).msg.size + KDBUS_MSG_DATA_SIZE 8 +
      KDBUS_MSG_DATA_SIZE SIZEOF_KDBUS_CREDS < U64)
    (hpart : items_partition (w.kmsgs kmsg).msg.data 0
      ((w.kmsgs kmsg).msg.size - KDBUS_MSG_HEADER_SIZE) its)
    (hpos : ∀ d ∈ its, 0 < d.size)
    (hto : (w.kmsgs kmsg).msg.timeout ≠ 0)
    (hdest :
      ((w.kmsgs kmsg).msg.dst_id ≠ KDBUS_DST_ID_WELL_KNOWN_NAME ∧
        (w.kmsgs kmsg).msg.dst_id ≠ KDBUS_DST_ID_BROADCAST ∧
        env.kdbus_bus_find_conn_by_id (w.kmsgs kmsg).msg.dst_id = some c) ∨
      ((w.kmsgs kmsg).msg.dst_id = KDBUS_DST_ID_WELL_KNOWN_NAME ∧
        ∃ d, first_of_type its KDBUS_MSG_DST_NAME = some d ∧
          name_lookup_conn env d.data = some c ∧
          ¬ ((w.kmsgs kmsg).msg.flags &&& KDBUS_MSG_FLAGS_NO_AUTO_START ≠ 0 ∧
            (w.conns c).starter = true)))
    (hscan : ∀ w0 c0,
      ((env.kdbus_conn_scan_timeout w0 c0).kmsgs kmsg).deadline = (w0.kmsgs kmsg).deadline ∧
      ((env.kdbus_conn_scan_timeout w0 c0).kmsgs kmsg).msg = (w0.kmsgs kmsg).msg) :
    ∃ ret w1, kdbus_kmsg_send env w ep kmsg = some (ret, w1) ∧
      ((w1.kmsgs kmsg).msg.data ((w.kmsgs kmsg).msg.size - KDBUS_MSG_HEADER_SIZE)).type =
        KDBUS_MSG_TIMESTAMP ∧
      ((w1.kmsgs kmsg).msg.data ((w.kmsgs kmsg).msg.size - KDBUS_MSG_HEADER_SIZE)).ts_ns =
        (env.tv_sec * 1000000000 + env.tv_nsec) % U64 ∧
      (w1.kmsgs kmsg).deadline =
        (((w1.kmsgs kmsg).msg.data ((w.kmsgs kmsg).msg.size - KDBUS_MSG_HEADER_SIZE)).ts_ns +
          (w.kmsgs kmsg).msg.timeout) % U64 := by
  obtain ⟨k2, haug, hdata, -, hdst2, -, hto2, -, -, -⟩ :=
    send_augment_spec env (w.kmsgs kmsg) hts hcr hhdr hsz
  have h24 := KDBUS_MSG_DATA_SIZE_u64
  have hne : (w.kmsgs kmsg).msg.size - KDBUS_MSG_HEADER_SIZE ≠
      (w.kmsgs kmsg).msg.size - KDBUS_MSG_HEADER_SIZE + KDBUS_MSG_DATA_SIZE 8 := by omega
  have hts_item : k2.msg.data ((w.kmsgs kmsg).msg.size - KDBUS_MSG_HEADER_SIZE) =
      timestamp_item (w.kmsgs kmsg).msg.data ((w.kmsgs kmsg).msg.size - KDBUS_MSG_HEADER_SIZE)
        ((env.tv_sec * 1000000000 + env.tv_nsec) % U64) := by
    rw [hdata, Function.update_noteq hne, Function.update_same]
  have hres : kdbus_kmsg_send_resolve env
      { w with kmsgs := Function.update w.kmsgs kmsg k2 } k2.msg = some (.ok (some c)) := by
    rcases hdest with ⟨hn, hb, hfind⟩ | ⟨hn, d, hd, hl, hst⟩
    · unfold kdbus_kmsg_send_resolve
      rw [hdst2, if_neg hn, if_pos hb, hfind]
    · obtain ⟨k3, haug3, hd3, hfl3, -, hg3⟩ :=
        augment_get_name env (w.kmsgs kmsg) its hts hcr hhdr hsz hpart hpos
      have hk : k3 = k2 := by
        rw [haug] at haug3
        simp only [Option.some.injEq, Prod.mk.injEq] at haug3
        exact haug3.1.symm
      subst hk
      obtain ⟨off, hget, hoff⟩ := hg3 d hd
      have hres := resolve_name env { w with kmsgs := Function.update w.kmsgs kmsg k3 } k3.msg
        off (by rw [hd3]; exact hn) hget
      rw [hoff, hfl3, hl] at hres
      simp only at hres
      rw [if_neg hst] at hres
      exact hres
  rw [send_of_augment env w ep kmsg k2 _ haug, hres]
  have hto3 : k2.msg.timeout ≠ 0 := by rw [hto2]; exact hto
  refine ⟨_, _, rfl, ?_, ?_, ?_⟩
  all_goals
    simp only [kdbus_kmsg_send_direct, if_pos hto3]
    simp only [(hscan _ _).1, (hscan _ _).2, enqueue_kmsgs, Function.update_same, hts_item]
    simp only [timestamp_item, hto2]

/-- Witness of C13: a message to connection 2 with timeout 1000 at clock time
3 s 5 ns, addressed by id, and a message with the same timeout and clock
addressed by the name "org", which resolves to connection 2: the deadline is
3000001005. -/
theorem send_unicast_deadline_witness :
    (∃ ret w1, kdbus_kmsg_send id_env (one_msg_world (unicast_msg 1000) .KDBUS_CONN_EP)
        three_conn_ep 7 = some (ret, w1) ∧
      ((w1.kmsgs 7).msg.data
        (((one_msg_world (unicast_msg 1000) .KDBUS_CONN_EP).kmsgs 7).msg.size -
          KDBUS_MSG_HEADER_SIZE)).type = KDBUS_MSG_TIMESTAMP ∧
      ((w1.kmsgs 7).msg.data
        (((one_msg_world (unicast_msg 1000) .KDBUS_CONN_EP).kmsgs 7).msg.size -
          KDBUS_MSG_HEADER_SIZE)).ts_ns = (id_env.tv_sec * 1000000000 + id_env.tv_nsec) % U64 ∧
      (w1.kmsgs 7).deadline =
        (((w1.kmsgs 7).msg.data
          (((one_msg_world (unicast_msg 1000) .KDBUS_CONN_EP).kmsgs 7).msg.size -
            KDBUS_MSG_HEADER_SIZE)).ts_ns +
          ((one_msg_world (unicast_msg 1000) .KDBUS_CONN_EP).kmsgs 7).msg.timeout) % U64) ∧
    (∃ ret w1, kdbus_kmsg_send { name_env with tv_sec := 3, tv_nsec := 5 }
        (one_msg_world { name_msg with timeout := 1000 } .KDBUS_CONN_EP)
        three_conn_ep 7 = some (ret, w1) ∧
      (w1.kmsgs 7).deadline = 3000001005) := by
  refine ⟨send_unicast_deadline id_env (one_msg_world (unicast_msg 1000) .KDBUS_CONN_EP)
    three_conn_ep 7 2 [{ size := 24, type := KDBUS_MSG_PAYLOAD }]
    rfl rfl (by decide) (by decide) (by decide) (by decide) (by decide)
    (Or.inl ⟨by decide, by decide, rfl⟩)
    (fun _ _ => ⟨rfl, rfl⟩), ?_⟩
  obtain ⟨ret, w1, hsend, -, hts, hdl⟩ :=
    send_unicast_deadline { name_env with tv_sec := 3, tv_nsec := 5 }
      (one_msg_world { name_msg with timeout := 1000 } .KDBUS_CONN_EP)
      three_conn_ep 7 2
      [{ size := 32, type := KDBUS_MSG_DST_NAME, data := [111, 114, 103, 0] }]
      rfl rfl (by decide) (by decide) (by decide) (by decide) (by decide)
      (Or.inr ⟨rfl, _, rfl, rfl, by decide⟩)
      (fun _ _ => ⟨rfl, rfl⟩)
  refine ⟨ret, w1, hsend, ?_⟩
  rw [hdl, hts]
  decide

/-- Claim C14: for an envelope addressed to the well-known-name sentinel whose
client items partition the body, `kdbus_kmsg_send` returns `-EINVAL` (missing
field) when no `KDBUS_MSG_DST_NAME` item is among them; otherwise `-ENOENT`
(not found) when the name registry gives no connection for the name of the
first such item; otherwise `-ENOENT` when that connection is a starter and the
envelope has the no-auto-start flag; otherwise the destination is that
connection `c` and the envelope is delivered to it: when `c` is active and the
queue entry is allocated the call returns 0, right after the enqueue `c` has
the envelope at the tail of its queue, every other connection is as before and
the envelope has one more reference (with a nonzero timeout the sweep
`kdbus_conn_scan_timeout` then runs on that memory); when `c` is inactive the
call returns `-EAGAIN`, when the entry allocation fails `-ENOMEM`, with every
connection as before.  In each failing case of the lookup every connection,
hence every queue, is as before.  Both `krealloc` calls succeed and the grown
size stays below 2^64. -/
theorem send_well_known_name (env : send_env) (w : World) (ep : kdbus_ep) (kmsg : Nat)
    (its : List kdbus_msg_data)
    (hts : env.krealloc_timestamp = true) (hcr : env.krealloc_cred = true)
    (hhdr : KDBUS_MSG_HEADER_SIZE ≤ (w.kmsgs kmsg).msg.size)
    (hsz : (w.kmsgs kmsg).msg.size + KDBUS_MSG_DATA_SIZE 8 +
      KDBUS_MSG_DATA_SIZE SIZEOF_KDBUS_CREDS < U64)
    (hpart : items_partition (w.kmsgs kmsg).msg.data 0
      ((w.kmsgs kmsg).msg.size - KDBUS_MSG_HEADER_SIZE) its)
    (hpos : ∀ d ∈ its, 0 < d.size)
    (hdst : (w.kmsgs kmsg).msg.dst_id = KDBUS_DST_ID_WELL_KNOWN_NAME) :
    (first_of_type its KDBUS_MSG_DST_NAME = none →
      ∃ w1, kdbus_kmsg_send env w ep kmsg = some (-EINVAL, w1) ∧ w1.conns = w.conns) ∧
    (∀ d, first_of_type its KDBUS_MSG_DST_NAME = some d →
      (name_lookup_conn env d.data = none →
        ∃ w1, kdbus_kmsg_send env w ep kmsg = some (-ENOENT, w1) ∧ w1.conns = w.conns) ∧
      (∀ c, name_lookup_conn env d.data = some c →
        (((w.kmsgs kmsg).msg.flags &&& KDBUS_MSG_FLAGS_NO_AUTO_START ≠ 0 ∧
            (w.conns c).starter = true) →
          ∃ w1, kdbus_kmsg_send env w ep kmsg = some (-ENOENT, w1) ∧ w1.conns = w.conns) ∧
        (¬ ((w.kmsgs kmsg).msg.flags &&& KDBUS_MSG_FLAGS_NO_AUTO_START ≠ 0 ∧
            (w.conns c).starter = true) →
          send_destination env w kmsg = some (.ok (some c)) ∧
          ∃ ret w2, kdbus_kmsg_send env w ep kmsg =
              some (ret,
                if (w.kmsgs kmsg).msg.timeout ≠ 0 then env.kdbus_conn_scan_timeout w2 c
                else w2) ∧
            ((w.conns c).active = true → env.kzalloc_entry 0 = true →
              ret = 0 ∧
              w2.conns = Function.update w.conns c (conn_enqueued (w.conns c) kmsg) ∧
              (w2.kmsgs kmsg).kref = (w.kmsgs kmsg).kref + 1) ∧
            ((w.conns c).active = false → ret = -EAGAIN ∧ w2.conns = w.conns) ∧
            ((w.conns c).active = true → env.kzalloc_entry 0 = false →
              ret = -ENOMEM ∧ w2.conns = w.conns)))) := by
  obtain ⟨k2, haug, hd2, hfl2, hg1, hg2⟩ :=
    augment_get_name env (w.kmsgs kmsg) its hts hcr hhdr hsz hpart hpos
  obtain ⟨k3, haug3, -, -, -, -, hto3, -, hkref3, -⟩ :=
    send_augment_spec env (w.kmsgs kmsg) hts hcr hhdr hsz
  have hk : k3 = k2 := by
    rw [haug] at haug3
    simp only [Option.some.injEq, Prod.mk.injEq] at haug3
    exact haug3.1.symm
  subst hk
  have hdst2 : k3.msg.dst_id = KDBUS_DST_ID_WELL_KNOWN_NAME := by rw [hd2]; exact hdst
  have hsend := send_of_augment env w ep kmsg k3 _ haug
  refine ⟨fun hnone => ?_, fun d hd => ?_⟩
  · rw [hsend, resolve_no_name env _ k3.msg hdst2 (hg1 hnone)]
    exact ⟨_, rfl, rfl⟩
  · obtain ⟨off, hget, hoff⟩ := hg2 d hd
    have hres := resolve_name env { w with kmsgs := Function.update w.kmsgs kmsg k3 } k3.msg
      off hdst2 hget
    rw [hoff, hfl2] at hres
    refine ⟨fun hl => ?_, fun c hl => ⟨fun hst => ?_, fun hst => ?_⟩⟩
    · rw [hl] at hres
      rw [hsend, hres]
      exact ⟨_, rfl, rfl⟩
    · rw [hl] at hres
      simp only at hres
      rw [if_pos hst] at hres
      rw [hsend, hres]
      exact ⟨_, rfl, rfl⟩
    · rw [hl] at hres
      simp only at hres
      rw [if_neg hst] at hres
      refine ⟨?_, ?_⟩
      · unfold send_destination
        rw [haug]
        exact hres
      · rw [hsend, hres]
        by_cases hto : k3.msg.timeout ≠ 0
        · have hto0 : (w.kmsgs kmsg).msg.timeout ≠ 0 := hto3 ▸ hto
          simp only [kdbus_kmsg_send_direct, if_pos hto, if_pos hto0]
          refine ⟨_, _, rfl, ?_⟩
          unfold kdbus_conn_enqueue_kmsg
          cases h1 : (w.conns c).active <;> cases h2 : env.kzalloc_entry 0 <;>
            simp [conn_enqueued, h1, hkref3]
        · have hto0 : ¬ (w.kmsgs kmsg).msg.timeout ≠ 0 := hto3 ▸ hto
          simp only [kdbus_kmsg_send_direct, if_neg hto, if_neg hto0]
          refine ⟨_, _, rfl, ?_⟩
          unfold kdbus_conn_enqueue_kmsg
          cases h1 : (w.conns c).active <;> cases h2 : env.kzalloc_entry 0 <;>
            simp [conn_enqueued, h1, hkref3]

/-- Witness of C14: the name "org" resolves to the connection at address 2,
which is active and no starter: the send returns 0, connection 2 has the
envelope in its queue, connection 1 has nothing, and the envelope holds two
references; evaluating `kdbus_kmsg_send` on the same input gives the same. -/
theorem send_well_known_name_witness :
    (∃ w1, kdbus_kmsg_send name_env (one_msg_world name_msg .KDBUS_CONN_EP) three_conn_ep 7 =
        some (0, w1) ∧
      (w1.conns 2).msg_list = [7] ∧ (w1.conns 1).msg_list = [] ∧ (w1.kmsgs 7).kref = 2) ∧
    (kdbus_kmsg_send name_env (one_msg_world name_msg .KDBUS_CONN_EP) three_conn_ep 7).map
        (fun r => (r.1, (r.2.conns 2).msg_list, (r.2.conns 1).msg_list, (r.2.kmsgs 7).kref)) =
      some (0, [7], [], 2) := by
  obtain ⟨ret, w2, hsend, hok, -, -⟩ :=
    ((((send_well_known_name name_env (one_msg_world name_msg .KDBUS_CONN_EP) three_conn_ep 7
      [{ size := 32, type := KDBUS_MSG_DST_NAME, data := [111, 114, 103, 0] }]
      rfl rfl (by decide) (by decide) (by decide) (by decide) rfl).2
      { size := 32, type := KDBUS_MSG_DST_NAME, data := [111, 114, 103, 0] } rfl).2
      2 rfl).2 (by decide)).2
  obtain ⟨hret, hconns, hkref⟩ := hok rfl rfl
  subst hret
  rw [if_neg (by decide)] at hsend
  refine ⟨⟨w2, hsend, ?_, ?_, ?_⟩, by decide⟩
  · rw [hconns]
    rfl
  · rw [hconns]
    rfl
  · rw [hkref]
    rfl

/-! ## kdbus_kmsg_recv -/

theorem kdbus_size_user_readable (buf : user_buf) (h : 8 ≤ buf.readable) :
    kdbus_size_user buf = some buf.msg.size := by
  unfold kdbus_size_user
  rw [if_neg (Nat.not_lt_of_le h)]

/-- A receive on a non-empty queue with a buffer that holds the head envelope:
the head is delivered, its entry leaves the queue and its reference is
dropped. -/
theorem recv_ok (w : World) (conn k : Nat) (q : List Nat) (buf : user_buf)
    (hq : (w.conns conn).msg_list = k :: q)
    (hread : 8 ≤ buf.readable)
    (hfit : (w.kmsgs k).msg.size ≤ buf.msg.size)
    (hwr : (w.kmsgs k).msg.size ≤ buf.writable) :
    kdbus_kmsg_recv w conn buf =
      some (0,
        kdbus_kmsg_unref
          { w with conns := Function.update w.conns conn { w.conns conn with msg_list := q } } k,
        some (w.kmsgs k).msg) := by
  unfold kdbus_kmsg_recv
  rw [kdbus_size_user_readable buf hread]
  simp only [hq, list_first_entry, List.tail_cons]
  rw [if_neg (Nat.not_lt_of_le hfit)]
  have hc : copy_to_user buf (w.kmsgs k).msg.size = 0 := by
    unfold copy_to_user
    exact Nat.sub_eq_zero_of_le hwr
  simp only [hc, if_true]

theorem unref_msg (w : World) (k k1 : Nat) :
    ((kdbus_kmsg_unref w k).kmsgs k1).msg = (w.kmsgs k1).msg ∧
    (kdbus_kmsg_unref w k).conns = w.conns := by
  unfold kdbus_kmsg_unref
  refine ⟨?_, rfl⟩
  by_cases hk : k1 = k
  · subst hk; simp
  · simp [Function.update_noteq hk]

/-- What `enqueue_all` does to an active connection: the envelopes are added
at the tail of its queue in the order given, and no message changes. -/
theorem enqueue_all_spec (conn : Nat) :
    ∀ (ks : List Nat) (w : World), (w.conns conn).active = true →
      ((enqueue_all w conn ks).conns conn).msg_list = (w.conns conn).msg_list ++ ks ∧
      ∀ k, ((enqueue_all w conn ks).kmsgs k).msg = (w.kmsgs k).msg := by
  intro ks
  induction ks with
  | nil => intro w _; simp [enqueue_all]
  | cons a ks ih =>
    intro w hact
    unfold enqueue_all
    rw [enqueue_ok w conn a hact]
    obtain ⟨h1, h2⟩ := ih
      { kmsgs := Function.update w.kmsgs a { w.kmsgs a with kref := (w.kmsgs a).kref + 1 }
        conns := Function.update w.conns conn
          { w.conns conn with msg_list := (w.conns conn).msg_list ++ [a] } }
      (by simp [hact])
    refine ⟨?_, fun k => ?_⟩
    · rw [h1]; simp
    · rw [h2 k]
      by_cases hk : k = a
      · subst hk; simp
      · simp [Function.update_noteq hk]

/-- Receiving as many times as the queue is long, with a buffer that holds
every queued envelope, delivers the queued messages from head to tail and
leaves the queue empty. -/
theorem recv_n_spec (conn : Nat) (buf : user_buf) (hread : 8 ≤ buf.readable) :
    ∀ (q : List Nat) (w : World), (w.conns conn).msg_list = q →
      (∀ k ∈ q, (w.kmsgs k).msg.size ≤ buf.msg.size ∧ (w.kmsgs k).msg.size ≤ buf.writable) →
      ∃ w2, recv_n conn buf q.length w = some (q.map (fun k => (w.kmsgs k).msg), w2) ∧
        (w2.conns conn).msg_list = [] := by
  intro q
  induction q with
  | nil =>
    intro w hq _
    exact ⟨w, rfl, hq⟩
  | cons k q ih =>
    intro w hq hcap
    have hk := hcap k (List.mem_cons_self _ _)
    have hrecv := recv_ok w conn k q buf hq hread hk.1 hk.2
    obtain ⟨w2, hw2, hempty⟩ := ih
      (kdbus_kmsg_unref
        { w with conns := Function.update w.conns conn { w.conns conn with msg_list := q } } k)
      (by rw [(unref_msg _ _ k).2]; simp)
      (by
        intro x hx
        rw [(unref_msg _ k x).1]
        exact hcap x (List.mem_cons_of_mem _ hx))
    refine ⟨w2, ?_, hempty⟩
    simp only [List.length_cons, recv_n, hrecv, if_true, hw2, List.map_cons]
    congr 2
    congr 1
    apply List.map_congr_left
    intro x _
    exact (unref_msg _ k x).1

/-- Claim C16: delivery is first in, first out per connection.  Enqueuing the
envelopes `ks` into an active connection adds them at the tail of its queue in
that order, and as many receives as the queue is then long, with a buffer that
holds each of them, all succeed and deliver the queued messages from the head
on, in the order they were enqueued, each once: the queue ends empty. -/
theorem enqueue_then_recv_fifo (w : World) (conn : Nat) (ks : List Nat) (buf : user_buf)
    (hact : (w.conns conn).active = true)
    (hread : 8 ≤ buf.readable)
    (hcap : ∀ k ∈ (w.conns conn).msg_list ++ ks,
      (w.kmsgs k).msg.size ≤ buf.msg.size ∧ (w.kmsgs k).msg.size ≤ buf.writable) :
    ((enqueue_all w conn ks).conns conn).msg_list = (w.conns conn).msg_list ++ ks ∧
    ∃ w2, recv_n conn buf ((w.conns conn).msg_list ++ ks).length (enqueue_all w conn ks) =
        some (((w.conns conn).msg_list ++ ks).map (fun k => (w.kmsgs k).msg), w2) ∧
      (w2.conns conn).msg_list = [] := by
  obtain ⟨hlist, hmsg⟩ := enqueue_all_spec conn ks w hact
  refine ⟨hlist, ?_⟩
  obtain ⟨w2, hrecv, hempty⟩ := recv_n_spec conn buf hread
    ((w.conns conn).msg_list ++ ks) (enqueue_all w conn ks) hlist
    (by
      intro k hk
      rw [hmsg k]
      exact hcap k hk)
  refine ⟨w2, ?_, hempty⟩
  rw [hrecv]
  congr 2
  apply List.map_congr_left
  intro k _
  exact hmsg k

/-- Witness of C16: the envelopes at addresses 7, 8 and 7 again are enqueued
into the empty queue of connection 3 and received with a 100 byte buffer. -/
theorem enqueue_then_recv_fifo_witness :
    ((enqueue_all (queue_world []) 3 [7, 8, 7]).conns 3).msg_list =
        ((queue_world []).conns 3).msg_list ++ [7, 8, 7] ∧
    ∃ w2, recv_n 3 (recv_buf 100) (((queue_world []).conns 3).msg_list ++ [7, 8, 7]).length
          (enqueue_all (queue_world []) 3 [7, 8, 7]) =
        some ((((queue_world []).conns 3).msg_list ++ [7, 8, 7]).map
          (fun k => ((queue_world []).kmsgs k).msg), w2) ∧
      (w2.conns 3).msg_list = [] :=
  enqueue_then_recv_fifo (queue_world []) 3 [7, 8, 7] (recv_buf 100) rfl (by decide)
    (by decide)

/-- Claim C17: on a connection with a non-empty queue, `kdbus_kmsg_recv` with a
declared capacity below the `msg->size` of the head envelope returns `-ENOSPC`
and leaves all of memory, the queue and the reference count included, as it
was; a receive after it with a buffer that holds the envelope returns 0,
delivers that envelope, takes exactly its entry off the queue and drops one
reference. -/
theorem recv_small_then_fit (w : World) (conn k : Nat) (q : List Nat) (buf1 buf2 : user_buf)
    (hq : (w.conns conn).msg_list = k :: q)
    (hread1 : 8 ≤ buf1.readable) (hsmall : buf1.msg.size < (w.kmsgs k).msg.size)
    (hread2 : 8 ≤ buf2.readable) (hfit : (w.kmsgs k).msg.size ≤ buf2.msg.size)
    (hwr : (w.kmsgs k).msg.size ≤ buf2.writable) :
    kdbus_kmsg_recv w conn buf1 = some (-ENOSPC, w, none) ∧
    ∃ w1, kdbus_kmsg_recv w conn buf2 = some (0, w1, some (w.kmsgs k).msg) ∧
      (w1.conns conn).msg_list = q ∧
      (w1.kmsgs k).kref = (w.kmsgs k).kref - 1 := by
  refine ⟨?_, _, recv_ok w conn k q buf2 hq hread2 hfit hwr, ?_, ?_⟩
  · unfold kdbus_kmsg_recv
    rw [kdbus_size_user_readable buf1 hread1]
    simp only [hq, list_first_entry]
    rw [if_pos hsmall]
  · rw [(unref_msg _ k k).2]
    simp
  · simp [kdbus_kmsg_unref]

/-- Witness of C17: the queue of connection 3 holds the envelopes at 7 and 8;
a 64 byte buffer is too small for the 80 byte head, an 80 byte buffer fits. -/
theorem recv_small_then_fit_witness :
    kdbus_kmsg_recv (queue_world [7, 8]) 3 (recv_buf 64) =
      some (-ENOSPC, queue_world [7, 8], none) ∧
    ∃ w1, kdbus_kmsg_recv (queue_world [7, 8]) 3 (recv_buf 80) =
        some (0, w1, some ((queue_world [7, 8]).kmsgs 7).msg) ∧
      (w1.conns 3).msg_list = [8] ∧
      (w1.kmsgs 7).kref = ((queue_world [7, 8]).kmsgs 7).kref - 1 :=
  recv_small_then_fit (queue_world [7, 8]) 3 7 [8] (recv_buf 64) (recv_buf 80) rfl
    (by decide) (by decide) (by decide) (by decide) (by decide)

/-- Claim C18, the code at a failing input: `list_first_entry` never yields
`NULL`, so the `-ENOENT` branch of `kdbus_kmsg_recv` is never taken; on the
empty queue of connection 3 the function goes on with the list head taken for
an entry and has no defined result, where the claim has it return `-ENOENT`
with the connection unchanged. -/
theorem recv_empty_queue_undefined :
    (∀ l, list_first_entry l ≠ none) ∧
    ((queue_world []).conns 3).msg_list = [] ∧
    list_first_entry ((queue_world []).conns 3).msg_list = some .head_alias ∧
    (kdbus_kmsg_recv (queue_world []) 3 (recv_buf 100)).isNone = true := by
  refine ⟨fun l => ?_, rfl, rfl, rfl⟩
  cases l <;> simp [list_first_entry]

/-! ## endpoint.c: kdbus_ep_disconnect -/

theorem disconnect_done (w : ep_world) (ep : Nat) (h : (w.eps ep).disconnected = true) :
    kdbus_ep_disconnect w ep = some w := by
  unfold kdbus_ep_disconnect
  rw [if_pos h]

theorem disconnect_n_done (ep : Nat) :
    ∀ (n : Nat) (w : ep_world), (w.eps ep).disconnected = true →
      disconnect_n ep n w = some w := by
  intro n
  induction n with
  | zero => intro w _; rfl
  | succ n ih =>
    intro w h
    unfold disconnect_n
    rw [disconnect_done w ep h]
    exact ih w h

/-- One call of `kdbus_ep_disconnect` on an endpoint that is not disconnected
yet (and has its bus set if it holds a minor): it returns, makes the calls of
`disconnect_events`, and leaves the endpoint disconnected with no device and no
minor. -/
theorem disconnect_first (w : ep_world) (ep : Nat)
    (hd : (w.eps ep).disconnected = false)
    (hbus : 0 < (w.eps ep).minor → (w.eps ep).bus ≠ none) :
    ∃ w1, kdbus_ep_disconnect w ep = some w1 ∧ (w1.eps ep).disconnected = true ∧
      (w1.eps ep).dev = none ∧ (w1.eps ep).minor = 0 ∧
      w1.events = w.events ++ disconnect_events (w.eps ep) := by
  unfold kdbus_ep_disconnect disconnect_events
  simp only [hd, Bool.false_eq_true, if_false, Function.update_same]
  cases hdev : (w.eps ep).dev with
  | none =>
    simp only [Function.update_same]
    by_cases hm : 0 < (w.eps ep).minor
    · rw [if_pos hm]
      cases hb : (w.eps ep).bus with
      | none => exact absurd hb (hbus hm)
      | some b => exact ⟨_, rfl, by simp [hdev, hm]⟩
    · rw [if_neg hm]
      exact ⟨_, rfl, by simp [hdev, hm, Nat.eq_zero_of_not_pos hm]⟩
  | some dev =>
    simp only [Function.update_same]
    by_cases hm : 0 < (w.eps ep).minor
    · rw [if_pos hm]
      cases hb : (w.eps ep).bus with
      | none => exact absurd hb (hbus hm)
      | some b => exact ⟨_, rfl, by simp [hm]⟩
    · rw [if_neg hm]
      exact ⟨_, rfl, by simp [hm, Nat.eq_zero_of_not_pos hm]⟩

/-- Claim C20: `kdbus_ep_disconnect` is idempotent.  On an endpoint whose state
is consistent (once disconnected it has no device and no minor; a minor is
only held with the bus set) the first call returns and leaves `disconnected =
true`, `dev = NULL`, `minor = 0`, having unregistered the device and released
the minor at most once each and only if the endpoint was not disconnected
before; a second call, and any number of calls after the first, leaves memory
exactly as the first call left it, the trace of outside calls included. -/
theorem disconnect_idempotent (w : ep_world) (ep : Nat)
    (hbus : (w.eps ep).disconnected = false → 0 < (w.eps ep).minor →
      (w.eps ep).bus ≠ none)
    (hwf : (w.eps ep).disconnected = true →
      (w.eps ep).dev = none ∧ (w.eps ep).minor = 0) :
    ∃ w1, kdbus_ep_disconnect w ep = some w1 ∧
      kdbus_ep_disconnect w1 ep = some w1 ∧
      (∀ n, disconnect_n ep (n + 1) w = some w1) ∧
      w1.events = w.events ++
        (if (w.eps ep).disconnected then [] else disconnect_events (w.eps ep)) ∧
      (w1.eps ep).disconnected = true ∧ (w1.eps ep).dev = none ∧ (w1.eps ep).minor = 0 := by
  cases hd : (w.eps ep).disconnected with
  | true =>
    refine ⟨w, disconnect_done w ep hd, disconnect_done w ep hd, fun n => ?_, by simp, hd,
      (hwf hd).1, (hwf hd).2⟩
    exact disconnect_n_done ep (n + 1) w hd
  | false =>
    obtain ⟨w1, h1, hdis, hdev, hmin, hev⟩ := disconnect_first w ep hd (hbus hd)
    refine ⟨w1, h1, disconnect_done w1 ep hdis, fun n => ?_, ?_, hdis, hdev, hmin⟩
    · unfold disconnect_n
      rw [h1]
      exact disconnect_n_done ep n w1 hdis
    · rw [hev]; simp

/-- Witness of C20: the endpoint at address 10 of `two_ep_world`. -/
theorem disconnect_idempotent_witness :
    ∃ w1, kdbus_ep_disconnect two_ep_world 10 = some w1 ∧
      kdbus_ep_disconnect w1 10 = some w1 ∧
      (∀ n, disconnect_n 10 (n + 1) two_ep_world = some w1) ∧
      w1.events = two_ep_world.events ++
        (if (two_ep_world.eps 10).disconnected then []
          else disconnect_events (two_ep_world.eps 10)) ∧
      (w1.eps 10).disconnected = true ∧ (w1.eps 10).dev = none ∧ (w1.eps 10).minor = 0 :=
  disconnect_idempotent two_ep_world 10 (by decide) (by decide)

/-! ## endpoint.c: kdbus_ep_new on a name that exists -/

theorem ep_ref_name (w : ep_world) (e a : Nat) :
    ((kdbus_ep_ref w e).eps a).name = (w.eps a).name := by
  unfold kdbus_ep_ref
  by_cases h : a = e
  · subst h; simp
  · simp [Function.update_noteq h]

/-- The loop of `kdbus_ep_find` over endpoints none of which has the name
changes nothing. -/
theorem ep_find_loop_none (name : String) :
    ∀ (l : List Nat) (w : ep_world) (ep : Option Nat),
      (∀ a ∈ l, (w.eps a).name ≠ name) → kdbus_ep_find_loop name l w ep = (w, ep) := by
  intro l
  induction l with
  | nil => intro w ep _; rfl
  | cons a l ih =>
    intro w ep h
    unfold kdbus_ep_find_loop
    rw [if_pos (h a (List.mem_cons_self _ _))]
    exact ih w ep (fun x hx => h x (List.mem_cons_of_mem _ hx))

/-- The loop of `kdbus_ep_find` over endpoints with pairwise distinct names,
one of which (`e`) has the name: `e` is returned with one more reference. -/
theorem ep_find_loop_one (name : String) (e : Nat) :
    ∀ (l : List Nat) (w : ep_world) (ep : Option Nat),
      (l.map (fun a => (w.eps a).name)).Nodup → e ∈ l → (w.eps e).name = name →
      kdbus_ep_find_loop name l w ep = (kdbus_ep_ref w e, some e) := by
  intro l
  induction l with
  | nil => intro w ep _ he; cases he
  | cons a l ih =>
    intro w ep hnd he hname
    simp only [List.map_cons, List.nodup_cons, List.mem_map, not_exists, not_and] at hnd
    obtain ⟨hnot, hnd1⟩ := hnd
    unfold kdbus_ep_find_loop
    by_cases hae : a = e
    · subst hae
      rw [if_neg (not_not.mpr hname)]
      apply ep_find_loop_none
      intro x hx
      rw [ep_ref_name]
      intro hxn
      exact hnot x hx (by rw [hxn, hname])
    · have hel : e ∈ l := by
        rcases List.mem_cons.mp he with h | h
        · exact absurd h.symm hae
        · exact h
      have han : (w.eps a).name ≠ name := by
        intro h
        exact hnot e hel (by rw [hname, h])
      rw [if_pos han]
      exact ih w ep hnd1 hel hname

theorem ep_ref_unref (w : ep_world) (e : Nat) (hlive : 0 < (w.eps e).kref) :
    kdbus_ep_unref (kdbus_ep_ref w e) e = some w := by
  unfold kdbus_ep_unref kdbus_ep_ref
  simp only [Function.update_same, Function.update_idem]
  rw [if_neg (by omega)]
  simp only [Nat.add_sub_cancel]
  rw [Function.update_eq_self]

/-- Claim C19: on a bus whose endpoint names are pairwise distinct,
`kdbus_ep_new` with a name that an endpoint `e` of the bus (one that holds a
reference) already has returns `-EEXIST` and leaves all of memory as it was:
the endpoint list, the `ep_id_next` counter and the reference count of `e`,
whose reference from `kdbus_ep_find` is dropped again. -/
theorem ep_new_conflict (env : ep_new_env) (w : ep_world) (bus : Nat) (name : String)
    (mode uid gid : Nat) (policy_open : Bool) (e : Nat)
    (hnames : ((w.buses bus).eps_list.map (fun a => (w.eps a).name)).Nodup)
    (he : e ∈ (w.buses bus).eps_list) (hname : (w.eps e).name = name)
    (hlive : 0 < (w.eps e).kref) :
    kdbus_ep_new env w bus name mode uid gid policy_open = some (-EEXIST, w) := by
  have hfind : kdbus_ep_find w bus name = (kdbus_ep_ref w e, some e) := by
    unfold kdbus_ep_find
    exact ep_find_loop_one name e _ w none hnames he hname
  unfold kdbus_ep_new
  rw [hfind]
  simp only [ep_ref_unref w e hlive]

/-- Witness of C19: creating the endpoint "fresh" on `two_ep_world` succeeds,
and creating an endpoint of the same name again on the memory this leaves
fails with `-EEXIST` and changes nothing. -/
theorem ep_new_conflict_witness :
    ∃ w1, kdbus_ep_new ep_env_ok two_ep_world 0 "fresh" 0 0 0 true = some (0, w1) ∧
      kdbus_ep_new ep_env_ok w1 0 "fresh" 0 0 0 true = some (-EEXIST, w1) :=
  ⟨_, rfl,
    ep_new_conflict ep_env_ok _ 0 "fresh" 0 0 0 true 12 (by decide) (by decide) (by decide)
      (by decide)⟩

/-! ## kdbus_msg_validate_from_user: item types outside the switch -/

/-- Counterexample to C21 as stated: the walk of `unknown_type_msg` reaches an
item of an unknown type, and the value returned is `-EINVAL`, the value of
every other rejection, not the value `-ENOTSUPP` that endpoint.c uses for an
unsupported item type. -/
theorem validate_unknown_type_einval :
    ¬ client_type (kdbus_msg_type.OTHER 4096) ∧
    kdbus_msg_visited unknown_type_msg = [{ size := 24, type := .OTHER 4096 }] ∧
    kdbus_msg_validate_from_user unknown_type_msg = some (-EINVAL) ∧
    kdbus_msg_validate_from_user unknown_type_msg ≠ some (-ENOTSUPP) := by
  refine ⟨by simp [client_type], by decide, by decide, by decide⟩

/-- Claim C21, amended: an envelope whose walk reaches an item of a type
outside the five client types is rejected, and the value returned is `-EINVAL`,
the same value as for every other validation failure. -/
theorem validate_rejects_unknown_type (msg : kdbus_msg) (d : kdbus_msg_data)
    (hd : d ∈ kdbus_msg_visited msg) (hty : ¬ client_type d.type) :
    kdbus_msg_validate_from_user msg = some (-EINVAL) := by
  by_cases hsrc : msg.src_id = KDBUS_SRC_ID_KERNEL
  · simp only [kdbus_msg_validate_from_user, if_pos hsrc]
  · obtain ⟨⟨r, t⟩, hw⟩ := validate_walk_total msg
    rw [validate_from_user_of_walk hsrc hw]
    rw [visited_of_walk hw] at hd
    rcases validate_walk_inv msg r t hw with hr | ⟨-, hall⟩
    · rw [hr, Option.getD_some]
    · exfalso
      apply hty
      obtain ⟨-, h⟩ := hall d hd
      unfold client_type
      rcases h with ⟨ht | ht, -⟩ | ⟨ht, -⟩ | ⟨ht, -⟩ | ⟨ht, -⟩
      · exact Or.inl ht
      · exact Or.inr (Or.inl ht)
      · exact Or.inr (Or.inr (Or.inl ht))
      · exact Or.inr (Or.inr (Or.inr (Or.inl ht)))
      · exact Or.inr (Or.inr (Or.inr (Or.inr ht)))

theorem validate_rejects_unknown_type_witness :
    kdbus_msg_validate_from_user unknown_type_msg = some (-EINVAL) :=
  validate_rejects_unknown_type unknown_type_msg { size := 24, type := .OTHER 4096 }
    (by decide) (by simp [client_type])

/-! ## kdbus_msg_validate_from_user: the length of the walk -/

/-- A result of the loop does not depend on the fuel left over. -/
theorem validate_loop_fuel (mem : Nat → kdbus_msg_data) :
    ∀ (fuel : Nat) (s : validate_state) (x : Option Int × validate_state),
      kdbus_msg_validate_loop mem fuel s = some x →
      ∀ fuel2, fuel ≤ fuel2 → kdbus_msg_validate_loop mem fuel2 s = some x := by
  intro fuel
  induction fuel with
  | zero => intro s x h; simp [kdbus_msg_validate_loop] at h
  | succ n ih =>
    intro s x h fuel2 hle
    cases fuel2 with
    | zero => omega
    | succ m =>
      unfold kdbus_msg_validate_loop at h ⊢
      simp only at h ⊢
      by_cases hc : 0 < s.size ∧ (mem s.data).size ≤ s.size
      · rw [if_pos hc] at h ⊢
        cases hv : kdbus_msg_validate_item (mem s.data)
            { s with visited := s.visited ++ [mem s.data] } with
        | error e =>
          rw [hv] at h
          exact h
        | ok s2 =>
          rw [hv] at h
          exact ih _ _ h m (by omega)
      · rw [if_neg hc] at h ⊢
        exact h

/-- Every iteration that goes round consumes more than an item header: `n`
such iterations take `n * 17` bytes off the remaining size, and at most one
more iteration, the one that returns, follows them. -/
theorem validate_loop_count (mem : Nat → kdbus_msg_data) :
    ∀ (fuel : Nat) (s : validate_state) (r : Option Int) (t : validate_state),
      kdbus_msg_validate_loop mem fuel s = some (r, t) →
      ∃ n, t.visited.length = s.visited.length + n + (if r.isSome then 1 else 0) ∧
        n * (KDBUS_MSG_DATA_SIZE 0 + 1) + t.size ≤ s.size := by
  intro fuel
  induction fuel with
  | zero => intro s r t h; simp [kdbus_msg_validate_loop] at h
  | succ n ih =>
    intro s r t h
    unfold kdbus_msg_validate_loop at h
    simp only at h
    by_cases hc : 0 < s.size ∧ (mem s.data).size ≤ s.size
    · rw [if_pos hc] at h
      cases hv : kdbus_msg_validate_item (mem s.data)
          { s with visited := s.visited ++ [mem s.data] } with
      | error e =>
        rw [hv] at h
        simp only [Option.some.injEq, Prod.mk.injEq] at h
        obtain ⟨hr, ht⟩ := h
        subst hr
        subst ht
        exact ⟨0, by simp, by simp⟩
      | ok s2 =>
        rw [hv] at h
        obtain ⟨h1, -, h3, -, hrec⟩ := validate_item_ok hv
        have hpos : KDBUS_MSG_DATA_SIZE 0 < (mem s.data).size := hrec.1
        obtain ⟨k, hk1, hk2⟩ := ih _ r t h
        simp only [h1, h3, List.length_append, List.length_singleton] at hk1 hk2
        refine ⟨k + 1, by omega, ?_⟩
        rw [KDBUS_MSG_DATA_SIZE_zero] at hpos hk2 ⊢
        have hle := hc.2
        omega
    · rw [if_neg hc] at h
      simp only [Option.some.injEq, Prod.mk.injEq] at h
      obtain ⟨hr, ht⟩ := h
      subst hr
      subst ht
      exact ⟨0, by simp, by simp⟩

/-- Claim C25: the item walk of `kdbus_msg_validate_from_user` ends on every
envelope, whatever sizes the items declare: it yields a result with any fuel
beyond the body size; the `n` iterations that go round each take more than the
16 bytes of an item header off the remaining size, so `n` is at most the body
size divided by 16, and at most one further iteration, the returning one, is
entered; an iteration that goes round leaves strictly less than it found. -/
theorem validate_walk_terminates (msg : kdbus_msg) :
    ∃ r t, kdbus_msg_validate_walk msg = some (r, t) ∧
      (∀ fuel, (kdbus_msg_validate_init msg).size < fuel →
        kdbus_msg_validate_loop msg.data fuel (kdbus_msg_validate_init msg) = some (r, t)) ∧
      (∃ n, t.visited.length = n + (if r.isSome then 1 else 0) ∧
        n * (KDBUS_MSG_DATA_SIZE 0 + 1) + t.size ≤ (kdbus_msg_validate_init msg).size ∧
        n ≤ (kdbus_msg_validate_init msg).size / KDBUS_MSG_DATA_SIZE 0) ∧
      (∀ (d : kdbus_msg_data) (s s2 : validate_state), 0 < s.size → d.size ≤ s.size →
        kdbus_msg_validate_item d s = .ok s2 → s2.size - d.size < s.size) := by
  obtain ⟨⟨r, t⟩, hw⟩ := validate_walk_total msg
  refine ⟨r, t, hw, ?_, ?_, ?_⟩
  · intro fuel hf
    exact validate_loop_fuel msg.data _ _ _ hw fuel hf
  · obtain ⟨n, hn1, hn2⟩ := validate_loop_count msg.data _ _ r t hw
    refine ⟨n, ?_, hn2, ?_⟩
    · simpa [kdbus_msg_validate_init] using hn1
    · rw [KDBUS_MSG_DATA_SIZE_zero] at hn2 ⊢
      omega
  · intro d s s2 hs hd hok
    obtain ⟨h1, -, -, -, hrec⟩ := validate_item_ok hok
    have hpos : KDBUS_MSG_DATA_SIZE 0 < d.size := hrec.1
    rw [h1]
    omega

/-! ## kdbus_kmsg_new_from_user: the length of the copy -/

/-- For every accepted declared size the byte count handed to `kmalloc` and to
`copy_from_user` is the declared size plus `offsetof(struct kdbus_kmsg, msg)`;
the room at `&kmsg->msg` is the declared size only. -/
theorem copy_count_exceeds (kmsg_hdr size : Nat) (hhdr : 0 < kmsg_hdr)
    (hfit : size + kmsg_hdr < U64) :
    kdbus_kmsg_alloc_size kmsg_hdr size = size + kmsg_hdr ∧
    kmsg_msg_space kmsg_hdr (kdbus_kmsg_alloc_size kmsg_hdr size) = size ∧
    size < kdbus_kmsg_alloc_size kmsg_hdr size := by
  have h : kdbus_kmsg_alloc_size kmsg_hdr size = size + kmsg_hdr := by
    unfold kdbus_kmsg_alloc_size
    exact Nat.mod_eq_of_lt hfit
  rw [h]
  refine ⟨rfl, ?_, ?_⟩
  · unfold kmsg_msg_space
    omega
  · omega

/-- Claim C24 on the code: with a declared size of 80 and 16 bytes in front of
the member `msg`, `copy_from_user` is called with 96 bytes for a destination
with room for 80, and a client buffer with exactly the 80 declared bytes
readable is answered `-EFAULT`. -/
theorem new_from_user_copy_overrun :
    kdbus_size_user exact_buf = some 80 ∧
    kdbus_kmsg_size_rejected 80 = false ∧
    kdbus_kmsg_alloc_size 16 80 = 96 ∧
    kmsg_msg_space 16 (kdbus_kmsg_alloc_size 16 80) = 80 ∧
    copy_from_user exact_buf 80 = some exact_buf.msg ∧
    copy_from_user exact_buf (kdbus_kmsg_alloc_size 16 80) = none ∧
    kdbus_msg_validate_from_user exact_buf.msg = some 0 ∧
    kdbus_kmsg_new_from_user 16 (some 0) exact_buf = some (-EFAULT, none) := by
  refine ⟨by decide, by decide, by decide, by decide, rfl, rfl, by decide, rfl⟩

/-! ## endpoint.c: kdbus_ep_remove -/

/-- Claim C22 on the code: the endpoint at address 10 is not disconnected and
holds one reference; `kdbus_ep_remove` returns 0, unlinks it from the list of
its bus and gives its minor back once, but `device_unregister` is called twice
on its device: once by `kdbus_ep_remove`, once by `kdbus_ep_disconnect` on the
way through `__kdbus_ep_free`. -/
theorem ep_remove_unregisters_twice :
    (two_ep_world.eps 10).disconnected = false ∧ (two_ep_world.eps 10).kref = 1 ∧
    (two_ep_world.eps 10).dev = some 100 ∧
    (kdbus_ep_remove two_ep_world 10).map
        (fun r => (r.1, r.2.events, (r.2.buses 0).eps_list, r.2.idr)) =
      some (0, [.device_unregister 100, .device_unregister 100, .idr_remove 1, .kfree_ep 10],
        [11], [2]) ∧
    (kdbus_ep_remove two_ep_world 10).map
        (fun r => r.2.events.count (.device_unregister 100)) = some 2 := by
  refine ⟨by decide, by decide, by decide, by decide, by decide⟩

/-- On every endpoint that is not disconnected, holds one reference and has a
device, `kdbus_ep_remove` returns 0 with the endpoint unlinked and with two
more `device_unregister` calls on that device in the trace. -/
theorem ep_remove_events (w : ep_world) (ep bus dev : Nat)
    (hbus : (w.eps ep).bus = some bus) (hdev : (w.eps ep).dev = some dev)
    (hd : (w.eps ep).disconnected = false) (hk : (w.eps ep).kref = 1) :
    ∃ w1, kdbus_ep_remove w ep = some (0, w1) ∧
      (w1.buses bus).eps_list = (w.buses bus).eps_list.erase ep ∧
      w1.events.count (.device_unregister dev) =
        w.events.count (.device_unregister dev) + 2 ∧
      w1.events.count (.idr_remove (w.eps ep).minor) =
        w.events.count (.idr_remove (w.eps ep).minor) +
          (if 0 < (w.eps ep).minor then 1 else 0) := by
  unfold kdbus_ep_remove
  simp only [hbus, hdev]
  unfold kdbus_ep_unref
  simp only [hk, if_true]
  unfold __kdbus_ep_free kdbus_ep_disconnect
  simp only [Function.update_same, hbus, hdev, hd, Bool.false_eq_true, if_false]
  by_cases hm : 0 < (w.eps ep).minor
  · simp only [hm, if_true]
    cases hp : (w.eps ep).policy_db with
    | none =>
      refine ⟨_, rfl, ?_, ?_, ?_⟩
      · simp [kdbus_bus_unref]
      · simp [kdbus_bus_unref, List.count_append]
      · simp [kdbus_bus_unref, List.count_append]
    | some db =>
      refine ⟨_, rfl, ?_, ?_, ?_⟩
      · simp [kdbus_bus_unref]
      · simp [kdbus_bus_unref, List.count_append]
      · simp [kdbus_bus_unref, List.count_append]
  · simp only [hm, if_false]
    cases hp : (w.eps ep).policy_db with
    | none =>
      refine ⟨_, rfl, ?_, ?_, ?_⟩
      · simp [kdbus_bus_unref]
      · simp [kdbus_bus_unref, List.count_append]
      · simp [kdbus_bus_unref, List.count_append]
    | some db =>
      refine ⟨_, rfl, ?_, ?_, ?_⟩
      · simp [kdbus_bus_unref]
      · simp [kdbus_bus_unref, List.count_append]
      · simp [kdbus_bus_unref, List.count_append]

/-! ## endpoint.c: the error paths of kdbus_ep_new -/

/-- When no endpoint of the bus has the name and the block for the endpoint
cannot be allocated, `kdbus_ep_new` returns `-ENOMEM` and memory is as it
was. -/
theorem ep_new_kzalloc_failure (env : ep_new_env) (w : ep_world) (bus : Nat) (name : String)
    (mode uid gid : Nat) (policy_open : Bool)
    (hfresh : ∀ a ∈ (w.buses bus).eps_list, (w.eps a).name ≠ name)
    (hfail : env.kzalloc_ep = none) :
    kdbus_ep_new env w bus name mode uid gid policy_open = some (-ENOMEM, w) := by
  have hfind : kdbus_ep_find w bus name = (w, none) := by
    unfold kdbus_ep_find
    exact ep_find_loop_none name _ w none hfresh
  unfold kdbus_ep_new
  rw [hfind]
  simp only [hfail]

/-- A failure of `kstrdup`, of `idr_alloc` or of the allocation of the device
sends `kdbus_ep_new` into `__kdbus_ep_free` with `e->bus` still `NULL`: no
value is returned. -/
theorem ep_new_early_failure_undefined :
    (kdbus_ep_new { ep_env_ok with kstrdup_ok := false } two_ep_world 0 "fresh" 0 0 0 true).isNone
      = true ∧
    (kdbus_ep_new { ep_env_ok with idr_alloc := -ENOMEM } two_ep_world 0 "fresh" 0 0 0 true).isNone
      = true ∧
    (kdbus_ep_new { ep_env_ok with kzalloc_dev := none } two_ep_world 0 "fresh" 0 0 0 true).isNone
      = true := by
  refine ⟨by decide, by decide, by decide⟩

/-- Claim C26 on the code: when `kdbus_policy_db_new` fails, `kdbus_ep_new`
returns `-ENOMEM`, the endpoint at address 12 has been released (`kfree`), and
the endpoint list of the bus, `[10, 11]` before the call, is `[10, 11, 12]`
after it. -/
theorem ep_new_policy_failure_stays_linked :
    (two_ep_world.buses 0).eps_list = [10, 11] ∧
    (kdbus_ep_new ep_env_no_policy_db two_ep_world 0 "fresh" 0 0 0 false).map
        (fun r => (r.1, (r.2.buses 0).eps_list, r.2.events)) =
      some (-ENOMEM, [10, 11, 12],
        [.device_unregister 102, .idr_remove 3, .kfree_ep 12]) := by
  refine ⟨by decide, by decide⟩

/-- On every bus without an endpoint of the name: when all steps of
`kdbus_ep_new` up to the policy database succeed and `kdbus_policy_db_new`
fails, the function returns `-ENOMEM` with the released endpoint appended to
the endpoint list of the bus. -/
theorem ep_new_policy_failure (env : ep_new_env) (w : ep_world) (bus : Nat) (name : String)
    (mode uid gid e dev : Nat)
    (hfresh : ∀ a ∈ (w.buses bus).eps_list, (w.eps a).name ≠ name)
    (hep : env.kzalloc_ep = some e) (hstr : env.kstrdup_ok = true)
    (hidr : 0 < env.idr_alloc) (hdev : env.kzalloc_dev = some dev)
    (hdb : env.kdbus_policy_db_new = none) :
    ∃ w1, kdbus_ep_new env w bus name mode uid gid false = some (-ENOMEM, w1) ∧
      (w1.buses bus).eps_list = (w.buses bus).eps_list ++ [e] ∧
      ep_event.kfree_ep e ∈ w1.events := by
  have hfind : kdbus_ep_find w bus name = (w, none) := by
    unfold kdbus_ep_find
    exact ep_find_loop_none name _ w none hfresh
  have hidr2 : ¬ env.idr_alloc ≤ 0 := by omega
  have hminor : 0 < env.idr_alloc.toNat := by omega
  unfold kdbus_ep_new
  rw [hfind]
  simp only [hep, hstr, hdev, hdb, hidr2, Bool.not_true, Bool.false_eq_true, if_false,
    Bool.not_false, if_true]
  unfold kdbus_ep_new_exit_unlock kdbus_ep_unref
  simp only [Function.update_same, kdbus_bus_ref, if_true]
  unfold __kdbus_ep_free kdbus_ep_disconnect
  by_cases hreg : env.device_register < 0
  · simp [hreg, Function.update_same, hminor, kdbus_bus_unref]
  · simp [hreg, Function.update_same, hminor, kdbus_bus_unref]

/-! ## The reference count of an envelope and the queues that hold it -/

/-- Changing a function at one point of a list without repetitions changes the
sum over the list by the change at that point. -/
theorem sum_map_update (f : Nat → Nat) (c v : Nat) :
    ∀ (cs : List Nat), cs.Nodup → c ∈ cs →
      (cs.map (Function.update f c v)).sum + f c = (cs.map f).sum + v := by
  intro cs
  induction cs with
  | nil => intro _ h; cases h
  | cons a l ih =>
    intro hnd hc
    simp only [List.nodup_cons] at hnd
    obtain ⟨hal, hl⟩ := hnd
    simp only [List.map_cons, List.sum_cons]
    by_cases hac : c = a
    · subst hac
      have hrest : l.map (Function.update f c v) = l.map f := by
        apply List.map_congr_left
        intro x hx
        have hxc : x ≠ c := fun h => hal (h ▸ hx)
        exact Function.update_noteq hxc v f
      rw [hrest, Function.update_same]
      omega
    · have hcl : c ∈ l := by
        rcases List.mem_cons.mp hc with h | h
        · exact absurd h hac
        · exact h
      have hne : a ≠ c := fun h => hac h.symm
      rw [Function.update_noteq hne]
      have := ih hl hcl
      omega

/-- Replacing the queue of one connection of `cs` changes the number of
entries that hold `k` by the change in that queue. -/
theorem queue_entries_update (w : World) (kmsgs : Nat → kdbus_kmsg) (cs : List Nat)
    (hnd : cs.Nodup) (c : Nat) (hc : c ∈ cs) (x : kdbus_conn) (k : Nat) :
    queue_entries { kmsgs := kmsgs, conns := Function.update w.conns c x } cs k +
        (w.conns c).msg_list.count k =
      queue_entries w cs k + x.msg_list.count k := by
  unfold queue_entries
  have hfun : (fun a => ((Function.update w.conns c x) a).msg_list.count k) =
      Function.update (fun a => (w.conns a).msg_list.count k) c (x.msg_list.count k) := by
    funext a
    by_cases ha : a = c
    · subst ha; simp
    · simp [Function.update_noteq ha]
  simp only [hfun]
  exact sum_map_update _ c _ cs hnd hc

/-- One `kdbus_conn_enqueue_kmsg` on a connection of `cs` keeps the reference
count of every envelope in step with the queue entries. -/
theorem enqueue_kref_invariant (cs : List Nat) (hnd : cs.Nodup) (b : Bool) (w : World)
    (c k0 : Nat) (hc : c ∈ cs) (k : Nat) (hinv : kref_invariant w cs k) :
    kref_invariant (kdbus_conn_enqueue_kmsg b w c k0).2 cs k := by
  unfold kdbus_conn_enqueue_kmsg
  cases h1 : (w.conns c).active
  · simpa using hinv
  · cases b
    · simpa using hinv
    · simp only [Bool.not_true, Bool.false_eq_true, if_false]
      have hq := queue_entries_update w
        (Function.update w.kmsgs k0 { w.kmsgs k0 with kref := (w.kmsgs k0).kref + 1 })
        cs hnd c hc { w.conns c with msg_list := (w.conns c).msg_list ++ [k0] } k
      simp only [List.count_append] at hq
      obtain ⟨hk1, hk2⟩ := hinv
      unfold kref_invariant
      by_cases hk : k = k0
      · subst hk
        simp only [List.count_singleton_self, Function.update_same] at hq ⊢
        exact ⟨by omega, hk2⟩
      · have hcnt : List.count k [k0] = 0 :=
          List.count_eq_zero.mpr (by simpa using hk)
        rw [hcnt] at hq
        simp only [Function.update_noteq hk]
        exact ⟨by omega, hk2⟩

/-- The form of `queue_entries_update` for any memory whose connections are
those of `w` with the one at `c` replaced. -/
theorem queue_entries_of_conns (w w1 : World) (cs : List Nat) (hnd : cs.Nodup) (c : Nat)
    (hc : c ∈ cs) (x : kdbus_conn) (k : Nat) (h : w1.conns = Function.update w.conns c x) :
    queue_entries w1 cs k + (w.conns c).msg_list.count k =
      queue_entries w cs k + x.msg_list.count k := by
  have := queue_entries_update w w1.kmsgs cs hnd c hc x k
  unfold queue_entries at this ⊢
  rw [h]
  exact this

/-- One `kdbus_kmsg_recv` that returns, on a connection of `cs`, keeps the
reference count of every envelope in step with the queue entries. -/
theorem recv_kref_invariant (cs : List Nat) (hnd : cs.Nodup) (w : World) (c : Nat)
    (buf : user_buf) (hc : c ∈ cs) (k : Nat) (hinv : kref_invariant w cs k)
    (ret : Int) (w1 : World) (m : Option kdbus_msg)
    (h : kdbus_kmsg_recv w c buf = some (ret, w1, m)) :
    kref_invariant w1 cs k := by
  unfold kdbus_kmsg_recv at h
  cases hs : kdbus_size_user buf with
  | none =>
    rw [hs] at h
    simp only [Option.some.injEq, Prod.mk.injEq] at h
    rw [← h.2.1]
    exact hinv
  | some size =>
    rw [hs] at h
    simp only at h
    cases hq : (w.conns c).msg_list with
    | nil =>
      rw [hq] at h
      simp [list_first_entry] at h
    | cons k0 q =>
      rw [hq] at h
      simp only [list_first_entry] at h
      by_cases hsz : size < (w.kmsgs k0).msg.size
      · rw [if_pos hsz] at h
        simp only [Option.some.injEq, Prod.mk.injEq] at h
        rw [← h.2.1]
        exact hinv
      · rw [if_neg hsz] at h
        by_cases hcp : copy_to_user buf (w.kmsgs k0).msg.size = 0
        · rw [if_pos hcp] at h
          simp only [Option.some.injEq, Prod.mk.injEq, List.tail_cons] at h
          obtain ⟨-, hw1, -⟩ := h
          have hconns : w1.conns =
              Function.update w.conns c { w.conns c with msg_list := q } := by
            rw [← hw1]
            rfl
          have hq2 := queue_entries_of_conns w w1 cs hnd c hc _ k hconns
          rw [hq] at hq2
          simp only at hq2
          obtain ⟨hk1, hk2⟩ := hinv
          have hkref : (w1.kmsgs k).kref =
              if k = k0 then (w.kmsgs k).kref - 1 else (w.kmsgs k).kref := by
            rw [← hw1]
            unfold kdbus_kmsg_unref
            by_cases hk : k = k0
            · subst hk; simp
            · simp [hk, Function.update_noteq hk]
          have hfreed : (w1.kmsgs k).freed =
              if k = k0 then ((w.kmsgs k).freed || decide ((w.kmsgs k).kref = 1))
              else (w.kmsgs k).freed := by
            rw [← hw1]
            unfold kdbus_kmsg_unref
            by_cases hk : k = k0
            · subst hk; simp
            · simp [hk, Function.update_noteq hk]
          unfold kref_invariant
          rw [hkref, hfreed]
          by_cases hk : k = k0
          · subst hk
            rw [List.count_cons_self] at hq2
            simp only [if_true, Bool.or_eq_false_iff, decide_eq_false_iff_not]
            refine ⟨by omega, hk2, by omega⟩
          · rw [List.count_cons_of_ne hk] at hq2
            simp only [if_neg hk]
            exact ⟨by omega, hk2⟩
        · rw [if_neg hcp] at h
          simp only [Option.some.injEq, Prod.mk.injEq] at h
          rw [← h.2.1]
          exact hinv

/-- A `kdbus_conn_enqueue_kmsg` that returns 0 has raised the reference count
of the envelope by one and put it at the tail of the queue; one that returns
anything else has left memory as it was. -/
theorem enqueue_kref_step (b : Bool) (w : World) (c k : Nat) :
    ((kdbus_conn_enqueue_kmsg b w c k).1 = 0 →
      ((kdbus_conn_enqueue_kmsg b w c k).2.kmsgs k).kref = (w.kmsgs k).kref + 1 ∧
      ((kdbus_conn_enqueue_kmsg b w c k).2.conns c).msg_list =
        (w.conns c).msg_list ++ [k]) ∧
    ((kdbus_conn_enqueue_kmsg b w c k).1 ≠ 0 → (kdbus_conn_enqueue_kmsg b w c k).2 = w) := by
  unfold kdbus_conn_enqueue_kmsg
  cases h1 : (w.conns c).active <;> cases b <;> simp [EAGAIN, ENOMEM]

/-- A `kdbus_kmsg_recv` that returns 0 has taken the head of the queue off and
lowered the reference count of that envelope by one; one that returns anything
else has left memory as it was. -/
theorem recv_kref_step (w : World) (c : Nat) (buf : user_buf) (ret : Int) (w1 : World)
    (m : Option kdbus_msg) (h : kdbus_kmsg_recv w c buf = some (ret, w1, m)) :
    (ret = 0 → ∃ k q, (w.conns c).msg_list = k :: q ∧ (w1.conns c).msg_list = q ∧
      (w1.kmsgs k).kref = (w.kmsgs k).kref - 1) ∧
    (ret ≠ 0 → w1 = w) := by
  unfold kdbus_kmsg_recv at h
  cases hs : kdbus_size_user buf with
  | none =>
    rw [hs] at h
    simp only [Option.some.injEq, Prod.mk.injEq] at h
    obtain ⟨hr, hw, -⟩ := h
    subst hr hw
    exact ⟨fun h0 => absurd h0 (by decide), fun _ => rfl⟩
  | some size =>
    rw [hs] at h
    simp only at h
    cases hq : (w.conns c).msg_list with
    | nil =>
      rw [hq] at h
      simp [list_first_entry] at h
    | cons k0 q =>
      rw [hq] at h
      simp only [list_first_entry] at h
      by_cases hsz : size < (w.kmsgs k0).msg.size
      · rw [if_pos hsz] at h
        simp only [Option.some.injEq, Prod.mk.injEq] at h
        obtain ⟨hr, hw, -⟩ := h
        subst hr hw
        exact ⟨fun h0 => absurd h0 (by decide), fun _ => rfl⟩
      · rw [if_neg hsz] at h
        by_cases hcp : copy_to_user buf (w.kmsgs k0).msg.size = 0
        · rw [if_pos hcp] at h
          simp only [Option.some.injEq, Prod.mk.injEq, List.tail_cons] at h
          obtain ⟨hr, hw1, -⟩ := h
          subst hr hw1
          refine ⟨fun _ => ⟨k0, q, rfl, ?_, ?_⟩, fun h0 => absurd rfl h0⟩
          · simp [kdbus_kmsg_unref]
          · simp [kdbus_kmsg_unref]
        · rw [if_neg hcp] at h
          simp only [Option.some.injEq, Prod.mk.injEq] at h
          obtain ⟨hr, hw, -⟩ := h
          subst hr hw
          exact ⟨fun h0 => absurd (Int.natCast_eq_zero.mp h0) hcp, fun _ => rfl⟩

/-- The release callback runs in `kdbus_kmsg_unref` only when the count it
leaves is zero. -/
theorem unref_freed_at_zero (w : World) (k : Nat)
    (h : ((kdbus_kmsg_unref w k).kmsgs k).freed = true) :
    (w.kmsgs k).freed = true ∨ ((kdbus_kmsg_unref w k).kmsgs k).kref = 0 := by
  unfold kdbus_kmsg_unref at h ⊢
  simp only [Function.update_same, Bool.or_eq_true, decide_eq_true_eq] at h ⊢
  rcases h with h | h
  · exact Or.inl h
  · exact Or.inr (by omega)

/-- The envelope `kdbus_kmsg_new_from_user` hands out holds one reference. -/
theorem new_from_user_kref (kmsg_hdr : Nat) (kmalloc : Option Nat) (buf : user_buf)
    (ret : Int) (k : kdbus_kmsg)
    (h : kdbus_kmsg_new_from_user kmsg_hdr kmalloc buf = some (ret, some k)) :
    k.kref = 1 ∧ k.freed = false := by
  unfold kdbus_kmsg_new_from_user at h
  split at h
  · cases h
  · split at h
    · cases h
    · split at h
      · cases h
      · simp only at h
        split at h
        · cases h
        · split at h
          · cases h
          · split at h
            · cases h
            · simp only [Option.some.injEq, Prod.mk.injEq] at h
              obtain ⟨-, hk⟩ := h
              subst hk
              exact ⟨rfl, rfl⟩

/-- The only call without a defined result is a `kdbus_kmsg_recv` with a
readable size field on a connection whose queue is empty. -/
theorem run_op_undefined_iff (w : World) (op : queue_op) :
    run_op w op = none ↔
      ∃ c buf, op = .recv c buf ∧ 8 ≤ buf.readable ∧ (w.conns c).msg_list = [] := by
  cases op with
  | enqueue b c k => simp [run_op]
  | recv c buf =>
    unfold run_op kdbus_kmsg_recv kdbus_size_user
    by_cases hr : buf.readable < 8
    · simp only [if_pos hr]
      simp
      omega
    · simp only [if_neg hr]
      cases hq : (w.conns c).msg_list with
      | nil =>
        simp only [list_first_entry, hq, true_iff]
        exact ⟨c, buf, rfl, by omega, hq⟩
      | cons k0 q =>
        simp only [list_first_entry]
        by_cases hsz : buf.msg.size < (w.kmsgs k0).msg.size
        · simp [hsz, hq]
        · by_cases hcp : copy_to_user buf (w.kmsgs k0).msg.size = 0
          · simp [hsz, hcp, hq]
          · simp [hsz, hcp, hq]

/-- A sequence of calls on connections of `cs` that all have a defined result
keeps the reference count of an envelope in step with the queue entries. -/
theorem run_ops_kref_invariant (cs : List Nat) (hnd : cs.Nodup) (k : Nat) :
    ∀ (ops : List queue_op) (w w1 : World), (∀ op ∈ ops, queue_op_conn op ∈ cs) →
      kref_invariant w cs k → run_ops ops w = some w1 → kref_invariant w1 cs k := by
  intro ops
  induction ops with
  | nil =>
    intro w w1 _ hinv h
    simp only [run_ops, Option.some.injEq] at h
    exact h ▸ hinv
  | cons op ops ih =>
    intro w w1 hops hinv h
    have hc : queue_op_conn op ∈ cs := hops op (List.mem_cons_self _ _)
    have hrest : ∀ o ∈ ops, queue_op_conn o ∈ cs :=
      fun o ho => hops o (List.mem_cons_of_mem _ ho)
    unfold run_ops at h
    cases op with
    | enqueue b c k0 =>
      simp only [run_op] at h
      exact ih _ w1 hrest (enqueue_kref_invariant cs hnd b w c k0 hc k hinv) h
    | recv c buf =>
      simp only [run_op] at h
      cases hr : kdbus_kmsg_recv w c buf with
      | none =>
        rw [hr] at h
        cases h
      | some r =>
        obtain ⟨ret, w2, m⟩ := r
        rw [hr] at h
        exact ih _ w1 hrest (recv_kref_invariant cs hnd w c buf hc k hinv ret w2 m hr) h

/-- Claim C23: over every sequence of `kdbus_conn_enqueue_kmsg` and
`kdbus_kmsg_recv` calls with a defined result, on any list `cs` of distinct
connections, an envelope whose reference count is 1 plus the number of queue
entries that hold it, and that is not released, is so again afterwards.  A call of
`kdbus_conn_enqueue_kmsg` that returns 0 raises the count by exactly one, a
`kdbus_kmsg_recv` that returns 0 lowers the count of the envelope it takes off
the queue by exactly one, every other return value leaves memory unchanged; the
release callback runs only when `kdbus_kmsg_unref` leaves the count at zero,
and a new envelope starts with the count 1. -/
theorem kref_counts_queue_entries (cs : List Nat) (hnd : cs.Nodup) (ops : List queue_op)
    (hops : ∀ op ∈ ops, queue_op_conn op ∈ cs) (w w1 : World) (k : Nat)
    (hinv : kref_invariant w cs k) (hrun : run_ops ops w = some w1) :
    kref_invariant w1 cs k ∧
    (∀ (b : Bool) (v : World) (c k0 : Nat),
      ((kdbus_conn_enqueue_kmsg b v c k0).1 = 0 →
        ((kdbus_conn_enqueue_kmsg b v c k0).2.kmsgs k0).kref = (v.kmsgs k0).kref + 1 ∧
        ((kdbus_conn_enqueue_kmsg b v c k0).2.conns c).msg_list =
          (v.conns c).msg_list ++ [k0]) ∧
      ((kdbus_conn_enqueue_kmsg b v c k0).1 ≠ 0 →
        (kdbus_conn_enqueue_kmsg b v c k0).2 = v)) ∧
    (∀ (v : World) (c : Nat) (buf : user_buf) (ret : Int) (v1 : World) (m : Option kdbus_msg),
      kdbus_kmsg_recv v c buf = some (ret, v1, m) →
      (ret = 0 → ∃ k0 q, (v.conns c).msg_list = k0 :: q ∧ (v1.conns c).msg_list = q ∧
        (v1.kmsgs k0).kref = (v.kmsgs k0).kref - 1) ∧
      (ret ≠ 0 → v1 = v)) ∧
    (∀ (v : World) (k0 : Nat), ((kdbus_kmsg_unref v k0).kmsgs k0).freed = true →
      (v.kmsgs k0).freed = true ∨ ((kdbus_kmsg_unref v k0).kmsgs k0).kref = 0) ∧
    (∀ (kmsg_hdr : Nat) (kmalloc : Option Nat) (buf : user_buf) (ret : Int) (k0 : kdbus_kmsg),
      kdbus_kmsg_new_from_user kmsg_hdr kmalloc buf = some (ret, some k0) →
      k0.kref = 1 ∧ k0.freed = false) :=
  ⟨run_ops_kref_invariant cs hnd k ops w w1 hops hinv hrun,
    enqueue_kref_step, recv_kref_step, unref_freed_at_zero, new_from_user_kref⟩

/-- Witness of C23: the calls of `example_ops` on the connections 1 and 2
of `idle_world` all have a defined result, and the envelope at 7, held by its
creator only before them, ends with the count 3 and two queue entries. -/
theorem kref_counts_queue_entries_witness :
    [1, 2].Nodup ∧ (∀ op ∈ example_ops, queue_op_conn op ∈ [1, 2]) ∧
    kref_invariant idle_world [1, 2] 7 ∧
    ∃ w1, run_ops example_ops idle_world = some w1 ∧ kref_invariant w1 [1, 2] 7 ∧
      (w1.kmsgs 7).kref = 3 ∧ queue_entries w1 [1, 2] 7 = 2 :=
  ⟨by decide, by decide, by decide, _, rfl,
    (kref_counts_queue_entries [1, 2] (by decide) example_ops (by decide) idle_world _ 7
      (by decide) rfl).1, by decide, by decide⟩

end Kdbus
